import Mathlib

/-!
# OpenGLSample: mesh generators and input callbacks of `Source.cpp`

A shallow embedding of the procedural mesh generators, the input callbacks and the
view/projection step of the render loop of `Source.cpp`.

* The segment counts, which the source fixes as non-negative constants, are `Nat`
  parameters, so that the generators can be studied for every segment count.  Each generator
  comes twice: over exact integers (`createConeMesh`, `createTorusMesh`), every `int` of the
  source an `Int`; and with the 32-bit `int` of the source (`createConeMesh32`,
  `createTorusMesh32`), where every `int` operation is checked against the range
  `[-2^31, 2^31 - 1]` and an overflow is an error.  Within that range the two agree.
* Every `float` is an element of a field `α`, and `cos`, `sin`, `sqrt` and `glm::pi` are
  parameters; at `α = ℝ` they are instantiated with the real functions.  The range of `float`
  matters for one computation, `glm::normalize` on a torus vertex: `torusVertexFloat` carries
  it out on values that are finite, infinite or NaN (`Flt`), in an arithmetic given by its
  largest finite value, its rounding and its library functions (`FloatArith`).
* A heap array `new T[n]` is a `Buffer`: its allocated size and the log of the stores made
  into it.  A store outside `[0, n)` and a `%` with divisor zero are errors.
* The OpenGL calls that upload the finished arrays are not modelled; a generator returns the
  arrays it built, its local counters and the value it leaves in `mesh.nIndices`.
* The globals of `Source.cpp` are the fields of `AppState`; a callback maps a state to the
  next one.  The class `Camera` comes from `camera.h`, which is not among the sources: the
  members `Source.cpp` touches are fields, the others a parameter type, and the member
  functions it calls are parameters.

Part I holds the definitions: the embedding of the source, the closed forms of the store
logs, and the properties the theorems state.  Part II holds the theorems.
-/

namespace OpenGLSample

/-! # Part I: the embedding -/

/-! ## Heap arrays and loops -/

/-- A heap array `new T[size]` with the log of the stores made into it, most recent first. -/
structure Buffer (α : Type) where
  size : Int
  writes : List (Int × α)

namespace Buffer

/-- The array `new T[n]`, nothing stored yet. -/
def alloc (α : Type) (n : Int) : Buffer α := ⟨n, []⟩

/-- The assignment `a[k] = v`; an error when `k` is outside the allocation. -/
def store {α : Type} (b : Buffer α) (k : Int) (v : α) : Except String (Buffer α) :=
  if 0 ≤ k ∧ k < b.size then .ok ⟨b.size, (k, v) :: b.writes⟩
  else .error "store outside the allocation"

/-- The value last stored in slot `k` of a store log, if any. -/
def lookup {α : Type} : List (Int × α) → Int → Option α
  | [], _ => none
  | (k', v) :: ws, k => if k = k' then some v else lookup ws k

/-- The content of `a[k]`: the value last stored there, `none` while uninitialised. -/
def read {α : Type} (b : Buffer α) (k : Int) : Option α := lookup b.writes k

/-- The number of stores made into slot `k`. -/
def storeCount {α : Type} (b : Buffer α) (k : Int) : Nat :=
  (b.writes.filter (fun w => decide (w.1 = k))).length

end Buffer

/-- The loop `for (int i = 0; i < n; ++i) body`: the body runs for `i = 0, 1, ..., n-1` in this
order, each run starting from the state the previous one left; an error ends the loop. -/
def forLoop {σ : Type} (n : Nat) (body : Int → σ → Except String σ) (s : σ) : Except String σ :=
  match n with
  | 0 => .ok s
  | k + 1 => forLoop k body s >>= body (k : Int)

/-- The operator `a % b` of C++ on `int`: truncated remainder, an error for `b = 0`. -/
def cmod (a b : Int) : Except String Int :=
  if b = 0 then .error "remainder by zero" else .ok (Int.tmod a b)

/-! ## The truncated-cone generator (`UCreateCupMesh`, `UCreatePenMesh`) -/

/-- The index array under construction and the write cursor `index` / `indexIndex`. -/
structure IndexCursor where
  indices : Buffer Int
  index : Int

/-- The statement `indices[index++] = v`. -/
def IndexCursor.push (c : IndexCursor) (v : Int) : Except String IndexCursor := do
  let b ← c.indices.store c.index v
  pure ⟨b, c.index + 1⟩

/-- What a cone generator has built when it reaches `mesh.nIndices = numIndices`. -/
structure ConeMesh (α : Type) where
  numVertices : Int
  numIndices : Int
  vertices : Buffer α
  indices : Buffer Int
  index : Int
  nIndices : Int

section Cone

variable {α : Type} [Field α] (cos sin : α → α) (pi : α)

/-- Body of the vertex loop of `UCreateCupMesh` / `UCreatePenMesh` for counter `i`: the bottom
ring vertex `i` and the top ring vertex `i + numSegments + 1`, eight floats each. -/
def coneVertexBody (baseRadius topRadius height : α) (numSegments : Int)
    (i : Int) (vertices : Buffer α) : Except String (Buffer α) := do
  let angle : α := 2 * pi * (i : α) / (numSegments : α)
  let x := cos angle
  let z := sin angle
  let vertices ← vertices.store (i * 8) (x * baseRadius)
  let vertices ← vertices.store (i * 8 + 1) (-height / 2)
  let vertices ← vertices.store (i * 8 + 2) (z * baseRadius)
  let vertices ← vertices.store (i * 8 + 3) x
  let vertices ← vertices.store (i * 8 + 4) 0
  let vertices ← vertices.store (i * 8 + 5) z
  let vertices ← vertices.store (i * 8 + 6) ((i : α) / (numSegments : α))
  let vertices ← vertices.store (i * 8 + 7) 0
  let vertices ← vertices.store ((i + numSegments + 1) * 8) (x * topRadius)
  let vertices ← vertices.store ((i + numSegments + 1) * 8 + 1) (height / 2)
  let vertices ← vertices.store ((i + numSegments + 1) * 8 + 2) (z * topRadius)
  let vertices ← vertices.store ((i + numSegments + 1) * 8 + 3) x
  let vertices ← vertices.store ((i + numSegments + 1) * 8 + 4) 0
  let vertices ← vertices.store ((i + numSegments + 1) * 8 + 5) z
  let vertices ← vertices.store ((i + numSegments + 1) * 8 + 6) ((i : α) / (numSegments : α))
  vertices.store ((i + numSegments + 1) * 8 + 7) 1

/-- The stores of the two centre vertices, at `centerBottomIndex` and `centerTopIndex`. -/
def coneCenters (height : α) (centerBottomIndex centerTopIndex : Int)
    (vertices : Buffer α) : Except String (Buffer α) := do
  let vertices ← vertices.store (centerBottomIndex * 8) 0
  let vertices ← vertices.store (centerBottomIndex * 8 + 1) (-height / 2)
  let vertices ← vertices.store (centerBottomIndex * 8 + 2) 0
  let vertices ← vertices.store (centerBottomIndex * 8 + 3) 0
  let vertices ← vertices.store (centerBottomIndex * 8 + 4) (-1)
  let vertices ← vertices.store (centerBottomIndex * 8 + 5) 0
  let vertices ← vertices.store (centerBottomIndex * 8 + 6) 0.5
  let vertices ← vertices.store (centerBottomIndex * 8 + 7) 0
  let vertices ← vertices.store (centerTopIndex * 8) 0
  let vertices ← vertices.store (centerTopIndex * 8 + 1) (height / 2)
  let vertices ← vertices.store (centerTopIndex * 8 + 2) 0
  let vertices ← vertices.store (centerTopIndex * 8 + 3) 0
  let vertices ← vertices.store (centerTopIndex * 8 + 4) 1
  let vertices ← vertices.store (centerTopIndex * 8 + 5) 0
  let vertices ← vertices.store (centerTopIndex * 8 + 6) 0.5
  vertices.store (centerTopIndex * 8 + 7) 1

/-- Body of the index loop for counter `i`: two side-wall triangles, one bottom-fan triangle
and one top-fan triangle. -/
def coneIndexBody (numSegments centerBottomIndex centerTopIndex : Int)
    (i : Int) (c : IndexCursor) : Except String IndexCursor := do
  let c ← c.push i
  let c ← c.push (i + numSegments + 1)
  let c ← c.push (i + numSegments + 2)
  let c ← c.push i
  let c ← c.push (i + numSegments + 2)
  let c ← c.push (i + 1)
  let c ← c.push centerBottomIndex
  let c ← c.push i
  let c ← c.push (i + 1)
  let c ← c.push centerTopIndex
  let c ← c.push (i + numSegments + 2)
  c.push (i + numSegments + 1)

/-- The algorithm shared by `UCreateCupMesh` and `UCreatePenMesh`, with the four local
constants of the source as parameters. -/
def createConeMesh (baseRadius topRadius height : α) (numSegments : Nat) :
    Except String (ConeMesh α) := do
  let numVertices : Int := ((numSegments : Int) + 1) * 2 + 2
  let numIndices : Int := (numSegments : Int) * 6 + (numSegments : Int) * 3 * 2
  let vertices := Buffer.alloc α (numVertices * 8)
  let indices := Buffer.alloc Int numIndices
  -- for (int i = 0; i <= numSegments; ++i)
  let vertices ← forLoop (numSegments + 1)
    (coneVertexBody cos sin pi baseRadius topRadius height numSegments) vertices
  let centerBottomIndex := numVertices - 2
  let centerTopIndex := numVertices - 1
  let vertices ← coneCenters height centerBottomIndex centerTopIndex vertices
  -- for (int i = 0; i < numSegments; ++i)
  let c ← forLoop numSegments
    (coneIndexBody numSegments centerBottomIndex centerTopIndex) ⟨indices, 0⟩
  pure ⟨numVertices, numIndices, vertices, c.indices, c.index, numIndices⟩

/-- The cup: `baseRadius = 0.4f`, `topRadius = 0.5f`, `height = 1.0f`, `numSegments = 50`. -/
def UCreateCupMesh : Except String (ConeMesh α) :=
  createConeMesh cos sin pi 0.4 0.5 1.0 50

/-- The pen: `baseRadius = 0.05f`, `topRadius = 0.05f`, `height = 1.0f`, `numSegments = 50`. -/
def UCreatePenMesh : Except String (ConeMesh α) :=
  createConeMesh cos sin pi 0.05 0.05 1.0 50

end Cone

/-! ## The torus generator (`UCreateHandleMesh`) -/

/-- A `glm::vec3`. -/
structure Vec3 (α : Type) where
  x : α
  y : α
  z : α
deriving DecidableEq

/-- The function `glm::dot` on `vec3`. -/
def Vec3.dot {α : Type} [Field α] (a b : Vec3 α) : α := a.x * b.x + a.y * b.y + a.z * b.z

/-- The function `glm::normalize` on `vec3`, which GLM defines as
`v * inversesqrt(dot(v, v))` with `inversesqrt(s) = 1 / sqrt(s)`. -/
def Vec3.normalize {α : Type} [Field α] (sqrt : α → α) (v : Vec3 α) : Vec3 α :=
  let k := 1 / sqrt (Vec3.dot v v)
  ⟨v.x * k, v.y * k, v.z * k⟩

/-- The local state of `UCreateHandleMesh` inside its loops. -/
structure TorusState (α : Type) where
  vertices : Buffer α
  indices : Buffer Int
  vertexIndex : Int
  indexIndex : Int

/-- What the torus generator has built when it reaches `mesh.nIndices = numIndices`. -/
structure TorusMesh (α : Type) where
  numVertices : Int
  numIndices : Int
  vertices : Buffer α
  indices : Buffer Int
  vertexIndex : Int
  indexIndex : Int
  nIndices : Int

section Torus

variable {α : Type} [Field α] (cos sin sqrt : α → α) (pi : α)

/-- Position of the torus vertex with the given angles. -/
def torusPosition (torusRadius tubeRadius torusAngle tubeAngle : α) : Vec3 α :=
  ⟨(torusRadius + tubeRadius * cos tubeAngle) * cos torusAngle,
   tubeRadius * sin tubeAngle,
   (torusRadius + tubeRadius * cos tubeAngle) * sin torusAngle⟩

/-- Body of the inner loop of `UCreateHandleMesh` for the counters `i` and `j`. -/
def torusInnerBody (torusRadius tubeRadius : α) (torusSegments tubeSegments : Int)
    (tubeAngleStep torusAngle : α) (i j : Int) (s : TorusState α) :
    Except String (TorusState α) := do
  let tubeAngle : α := (j : α) * tubeAngleStep
  let p := torusPosition cos sin torusRadius tubeRadius torusAngle tubeAngle
  let normal := Vec3.normalize sqrt p
  let st : α := (i : α) / (torusSegments : α)
  let t : α := (j : α) / (tubeSegments : α)
  let vertices ← s.vertices.store s.vertexIndex p.x
  let vertices ← vertices.store (s.vertexIndex + 1) p.y
  let vertices ← vertices.store (s.vertexIndex + 2) p.z
  let vertices ← vertices.store (s.vertexIndex + 3) normal.x
  let vertices ← vertices.store (s.vertexIndex + 4) normal.y
  let vertices ← vertices.store (s.vertexIndex + 5) normal.z
  let vertices ← vertices.store (s.vertexIndex + 6) st
  let vertices ← vertices.store (s.vertexIndex + 7) t
  let vertexIndex := s.vertexIndex + 8
  let nextTube ← cmod (j + 1) tubeSegments
  let nextTorus ← cmod (i + 1) torusSegments
  let topLeft := i * tubeSegments + j
  let topRight := i * tubeSegments + nextTube
  let bottomLeft := nextTorus * tubeSegments + j
  let bottomRight := nextTorus * tubeSegments + nextTube
  let c : IndexCursor := ⟨s.indices, s.indexIndex⟩
  let c ← c.push topLeft
  let c ← c.push topRight
  let c ← c.push bottomLeft
  let c ← c.push bottomLeft
  let c ← c.push topRight
  let c ← c.push bottomRight
  pure ⟨vertices, c.indices, vertexIndex, c.index⟩

/-- Body of the outer loop of `UCreateHandleMesh` for the counter `i`. -/
def torusOuterBody (torusRadius tubeRadius : α) (torusSegments tubeSegments : Nat)
    (torusAngleStep tubeAngleStep : α) (i : Int) (s : TorusState α) :
    Except String (TorusState α) :=
  let torusAngle : α := (i : α) * torusAngleStep
  -- for (int j = 0; j < tubeSegments; ++j)
  forLoop tubeSegments
    (torusInnerBody cos sin sqrt torusRadius tubeRadius torusSegments tubeSegments
      tubeAngleStep torusAngle i) s

/-- The algorithm of `UCreateHandleMesh`, with the four local constants of the source as
parameters. -/
def createTorusMesh (torusRadius tubeRadius : α) (torusSegments tubeSegments : Nat) :
    Except String (TorusMesh α) := do
  let numVertices : Int := (torusSegments : Int) * (tubeSegments : Int)
  let numIndices : Int := numVertices * 6
  let vertices := Buffer.alloc α (numVertices * 8)
  let indices := Buffer.alloc Int numIndices
  let torusAngleStep : α := 2 * pi / ((torusSegments : Int) : α)
  let tubeAngleStep : α := 2 * pi / ((tubeSegments : Int) : α)
  -- for (int i = 0; i < torusSegments; ++i)
  let s ← forLoop torusSegments
    (torusOuterBody cos sin sqrt torusRadius tubeRadius torusSegments tubeSegments
      torusAngleStep tubeAngleStep) ⟨vertices, indices, 0, 0⟩
  pure ⟨numVertices, numIndices, s.vertices, s.indices, s.vertexIndex, s.indexIndex, numIndices⟩

/-- The handle: `torusRadius = 0.4f`, `tubeRadius = 0.05f`, `torusSegments = 50`,
`tubeSegments = 20`. -/
def UCreateHandleMesh : Except String (TorusMesh α) :=
  createTorusMesh cos sin sqrt pi 0.4 0.05 50 20

end Torus

/-! ## The generators with the 32-bit `int` of the source -/

/-- The largest value of an `int` (32 bits, two's complement). -/
def INT_MAX : Int := 2147483647

/-- The smallest value of an `int`. -/
def INT_MIN : Int := -2147483648

/-- The result of an `int` operation whose exact result is `v`: the value itself when it
lies in the range of `int`, and an error otherwise (signed overflow, which C++ leaves
undefined). -/
def int32 (v : Int) : Except String Int :=
  if INT_MIN ≤ v ∧ v ≤ INT_MAX then .ok v else .error "int overflow"

/-- The `int` expression `v * 8 + k` that selects float `k` of vertex `v` (`v * 8` alone for
the first float), one operation after the other. -/
def slot32 (v k : Int) : Except String Int := do
  let base ← int32 (v * 8)
  int32 (base + k)

/-- The loop `for (int i = 0; i < n; ++i) body` with the counter an `int`: as `forLoop`, and
each run is followed by the increment `++i`. -/
def forLoop32 {σ : Type} (n : Nat) (body : Int → σ → Except String σ) (s : σ) :
    Except String σ :=
  match n with
  | 0 => .ok s
  | k + 1 => do
    let s ← forLoop32 k body s
    let s ← body (k : Int) s
    let _ ← int32 ((k : Int) + 1)
    pure s

/-- The statement `indices[index++] = v` with the cursor an `int`. -/
def IndexCursor.push32 (c : IndexCursor) (v : Int) : Except String IndexCursor := do
  let b ← c.indices.store c.index v
  let index ← int32 (c.index + 1)
  pure ⟨b, index⟩

section Cone32

variable {α : Type} [Field α] (cos sin : α → α) (pi : α)

/-- Body of the vertex loop as `coneVertexBody`, every subscript computed in `int`.  The
vertex number `i + numSegments + 1`, which the source writes out in each of the eight stores
of the top vertex, is evaluated once. -/
def coneVertexBody32 (baseRadius topRadius height : α) (numSegments : Int)
    (i : Int) (vertices : Buffer α) : Except String (Buffer α) := do
  let angle : α := 2 * pi * (i : α) / (numSegments : α)
  let x := cos angle
  let z := sin angle
  let k ← int32 (i * 8)
  let vertices ← vertices.store k (x * baseRadius)
  let k ← slot32 i 1
  let vertices ← vertices.store k (-height / 2)
  let k ← slot32 i 2
  let vertices ← vertices.store k (z * baseRadius)
  let k ← slot32 i 3
  let vertices ← vertices.store k x
  let k ← slot32 i 4
  let vertices ← vertices.store k 0
  let k ← slot32 i 5
  let vertices ← vertices.store k z
  let k ← slot32 i 6
  let vertices ← vertices.store k ((i : α) / (numSegments : α))
  let k ← slot32 i 7
  let vertices ← vertices.store k 0
  let top ← int32 (i + numSegments)
  let top ← int32 (top + 1)
  let k ← int32 (top * 8)
  let vertices ← vertices.store k (x * topRadius)
  let k ← slot32 top 1
  let vertices ← vertices.store k (height / 2)
  let k ← slot32 top 2
  let vertices ← vertices.store k (z * topRadius)
  let k ← slot32 top 3
  let vertices ← vertices.store k x
  let k ← slot32 top 4
  let vertices ← vertices.store k 0
  let k ← slot32 top 5
  let vertices ← vertices.store k z
  let k ← slot32 top 6
  let vertices ← vertices.store k ((i : α) / (numSegments : α))
  let k ← slot32 top 7
  vertices.store k 1

/-- The stores of the two centre vertices as `coneCenters`, every subscript computed in
`int`. -/
def coneCenters32 (height : α) (centerBottomIndex centerTopIndex : Int)
    (vertices : Buffer α) : Except String (Buffer α) := do
  let k ← int32 (centerBottomIndex * 8)
  let vertices ← vertices.store k 0
  let k ← slot32 centerBottomIndex 1
  let vertices ← vertices.store k (-height / 2)
  let k ← slot32 centerBottomIndex 2
  let vertices ← vertices.store k 0
  let k ← slot32 centerBottomIndex 3
  let vertices ← vertices.store k 0
  let k ← slot32 centerBottomIndex 4
  let vertices ← vertices.store k (-1)
  let k ← slot32 centerBottomIndex 5
  let vertices ← vertices.store k 0
  let k ← slot32 centerBottomIndex 6
  let vertices ← vertices.store k 0.5
  let k ← slot32 centerBottomIndex 7
  let vertices ← vertices.store k 0
  let k ← int32 (centerTopIndex * 8)
  let vertices ← vertices.store k 0
  let k ← slot32 centerTopIndex 1
  let vertices ← vertices.store k (height / 2)
  let k ← slot32 centerTopIndex 2
  let vertices ← vertices.store k 0
  let k ← slot32 centerTopIndex 3
  let vertices ← vertices.store k 0
  let k ← slot32 centerTopIndex 4
  let vertices ← vertices.store k 1
  let k ← slot32 centerTopIndex 5
  let vertices ← vertices.store k 0
  let k ← slot32 centerTopIndex 6
  let vertices ← vertices.store k 0.5
  let k ← slot32 centerTopIndex 7
  vertices.store k 1

/-- Body of the index loop as `coneIndexBody`, every index value computed in `int`.  The sum
`i + numSegments`, with which `i + numSegments + 1` and `i + numSegments + 2` start, is
evaluated once. -/
def coneIndexBody32 (numSegments centerBottomIndex centerTopIndex : Int)
    (i : Int) (c : IndexCursor) : Except String IndexCursor := do
  let c ← c.push32 i
  let sum ← int32 (i + numSegments)
  let v ← int32 (sum + 1)
  let c ← c.push32 v
  let v ← int32 (sum + 2)
  let c ← c.push32 v
  let c ← c.push32 i
  let v ← int32 (sum + 2)
  let c ← c.push32 v
  let v ← int32 (i + 1)
  let c ← c.push32 v
  let c ← c.push32 centerBottomIndex
  let c ← c.push32 i
  let v ← int32 (i + 1)
  let c ← c.push32 v
  let c ← c.push32 centerTopIndex
  let v ← int32 (sum + 2)
  let c ← c.push32 v
  let v ← int32 (sum + 1)
  c.push32 v

/-- The algorithm of `createConeMesh` with `numSegments` and every value derived from it an
`int`: each `int` operation of the source is evaluated with `int32`, in the order of the
source, and the first that leaves the range of `int` ends the run with an error. -/
def createConeMesh32 (baseRadius topRadius height : α) (numSegments : Nat) :
    Except String (ConeMesh α) := do
  let segments ← int32 (numSegments : Int)
  -- int numVertices = (numSegments + 1) * 2 + 2;
  let v ← int32 (segments + 1)
  let v ← int32 (v * 2)
  let numVertices ← int32 (v + 2)
  -- int numIndices = numSegments * 6 + numSegments * 3 * 2;
  let side ← int32 (segments * 6)
  let caps ← int32 (segments * 3)
  let caps ← int32 (caps * 2)
  let numIndices ← int32 (side + caps)
  -- new float[numVertices * 8]
  let floats ← int32 (numVertices * 8)
  let vertices := Buffer.alloc α floats
  let indices := Buffer.alloc Int numIndices
  -- for (int i = 0; i <= numSegments; ++i)
  let vertices ← forLoop32 (numSegments + 1)
    (coneVertexBody32 cos sin pi baseRadius topRadius height segments) vertices
  let centerBottomIndex ← int32 (numVertices - 2)
  let centerTopIndex ← int32 (numVertices - 1)
  let vertices ← coneCenters32 height centerBottomIndex centerTopIndex vertices
  -- for (int i = 0; i < numSegments; ++i)
  let c ← forLoop32 numSegments
    (coneIndexBody32 segments centerBottomIndex centerTopIndex) ⟨indices, 0⟩
  pure ⟨numVertices, numIndices, vertices, c.indices, c.index, numIndices⟩

end Cone32

section Torus32

variable {α : Type} [Field α] (cos sin sqrt : α → α) (pi : α)

/-- Body of the inner loop as `torusInnerBody`, every subscript, cursor and index value
computed in `int`.  The products `i * tubeSegments` and `nextTorus * tubeSegments`, which the
source writes out twice each, are evaluated once. -/
def torusInnerBody32 (torusRadius tubeRadius : α) (torusSegments tubeSegments : Int)
    (tubeAngleStep torusAngle : α) (i j : Int) (s : TorusState α) :
    Except String (TorusState α) := do
  let tubeAngle : α := (j : α) * tubeAngleStep
  let p := torusPosition cos sin torusRadius tubeRadius torusAngle tubeAngle
  let normal := Vec3.normalize sqrt p
  let st : α := (i : α) / (torusSegments : α)
  let t : α := (j : α) / (tubeSegments : α)
  let vertices ← s.vertices.store s.vertexIndex p.x
  let k ← int32 (s.vertexIndex + 1)
  let vertices ← vertices.store k p.y
  let k ← int32 (s.vertexIndex + 2)
  let vertices ← vertices.store k p.z
  let k ← int32 (s.vertexIndex + 3)
  let vertices ← vertices.store k normal.x
  let k ← int32 (s.vertexIndex + 4)
  let vertices ← vertices.store k normal.y
  let k ← int32 (s.vertexIndex + 5)
  let vertices ← vertices.store k normal.z
  let k ← int32 (s.vertexIndex + 6)
  let vertices ← vertices.store k st
  let k ← int32 (s.vertexIndex + 7)
  let vertices ← vertices.store k t
  let vertexIndex ← int32 (s.vertexIndex + 8)
  let inc ← int32 (j + 1)
  let nextTube ← cmod inc tubeSegments
  let inc ← int32 (i + 1)
  let nextTorus ← cmod inc torusSegments
  let row ← int32 (i * tubeSegments)
  let topLeft ← int32 (row + j)
  let topRight ← int32 (row + nextTube)
  let nextRow ← int32 (nextTorus * tubeSegments)
  let bottomLeft ← int32 (nextRow + j)
  let bottomRight ← int32 (nextRow + nextTube)
  let c : IndexCursor := ⟨s.indices, s.indexIndex⟩
  let c ← c.push32 topLeft
  let c ← c.push32 topRight
  let c ← c.push32 bottomLeft
  let c ← c.push32 bottomLeft
  let c ← c.push32 topRight
  let c ← c.push32 bottomRight
  pure ⟨vertices, c.indices, vertexIndex, c.index⟩

/-- Body of the outer loop as `torusOuterBody`, with the inner counter an `int`. -/
def torusOuterBody32 (torusRadius tubeRadius : α) (torusSegments tubeSegments : Nat)
    (torusAngleStep tubeAngleStep : α) (i : Int) (s : TorusState α) :
    Except String (TorusState α) :=
  let torusAngle : α := (i : α) * torusAngleStep
  -- for (int j = 0; j < tubeSegments; ++j)
  forLoop32 tubeSegments
    (torusInnerBody32 cos sin sqrt torusRadius tubeRadius torusSegments tubeSegments
      tubeAngleStep torusAngle i) s

/-- The algorithm of `createTorusMesh` with the segment counts and every value derived from
them an `int`: each `int` operation of the source is evaluated with `int32`, in the order of
the source, and the first that leaves the range of `int` ends the run with an error. -/
def createTorusMesh32 (torusRadius tubeRadius : α) (torusSegments tubeSegments : Nat) :
    Except String (TorusMesh α) := do
  let torus ← int32 (torusSegments : Int)
  let tube ← int32 (tubeSegments : Int)
  -- int numVertices = torusSegments * tubeSegments;
  let numVertices ← int32 (torus * tube)
  -- int numIndices = numVertices * 6;
  let numIndices ← int32 (numVertices * 6)
  -- new float[numVertices * 8]
  let floats ← int32 (numVertices * 8)
  let vertices := Buffer.alloc α floats
  let indices := Buffer.alloc Int numIndices
  let torusAngleStep : α := 2 * pi / (torus : α)
  let tubeAngleStep : α := 2 * pi / (tube : α)
  -- for (int i = 0; i < torusSegments; ++i)
  let s ← forLoop32 torusSegments
    (torusOuterBody32 cos sin sqrt torusRadius tubeRadius torusSegments tubeSegments
      torusAngleStep tubeAngleStep) ⟨vertices, indices, 0, 0⟩
  pure ⟨numVertices, numIndices, s.vertices, s.indices, s.vertexIndex, s.indexIndex, numIndices⟩

end Torus32

/-! ## The floats of a torus vertex with the range of `float` -/

/-- A value of a floating-point type: a finite value (a rational; the two zeros are not told
apart), an infinity with its sign, or a NaN. -/
inductive Flt where
  | finite (q : ℚ)
  | infinite (negative : Bool)
  | nan
deriving DecidableEq

/-- What an arithmetic on `float` is made of: the largest finite value `FLT_MAX`; the
rounding of an exact result to the precision of the type, the exponent unbounded; and the
values that the library functions `cos`, `sin` and `sqrt` return for a finite argument. -/
structure FloatArith where
  largest : ℚ
  round : ℚ → ℚ
  cosf : ℚ → ℚ
  sinf : ℚ → ℚ
  sqrtf : ℚ → ℚ

namespace FloatArith

variable (F : FloatArith)

/-- The `float` an operation delivers whose exact result is `q`: the rounded result, or the
infinity of the sign of `q` when the rounded result exceeds `FLT_MAX` (overflow under
round-to-nearest). -/
def ofExact (q : ℚ) : Flt :=
  if F.largest < |F.round q| then .infinite (decide (q < 0)) else .finite (F.round q)

/-- The conversion of an `int` to `float`. -/
def ofInt (n : Int) : Flt := F.ofExact (n : ℚ)

/-- The sum `a + b` on `float`. -/
def add : Flt → Flt → Flt
  | .finite a, .finite b => F.ofExact (a + b)
  | .finite _, .infinite s => .infinite s
  | .infinite s, .finite _ => .infinite s
  | .infinite s, .infinite t => if s = t then .infinite s else .nan
  | _, _ => .nan

/-- The product `a * b` on `float`. -/
def mul : Flt → Flt → Flt
  | .finite a, .finite b => F.ofExact (a * b)
  | .finite a, .infinite s => if a = 0 then .nan else .infinite (xor s (decide (a < 0)))
  | .infinite s, .finite b => if b = 0 then .nan else .infinite (xor s (decide (b < 0)))
  | .infinite s, .infinite t => .infinite (xor s t)
  | _, _ => .nan

/-- The quotient `a / b` on `float`. -/
def div : Flt → Flt → Flt
  | .finite a, .finite b =>
    if b = 0 then (if a = 0 then .nan else .infinite (decide (a < 0))) else F.ofExact (a / b)
  | .finite _, .infinite _ => .finite 0
  | .infinite s, .finite b => .infinite (xor s (decide (b < 0)))
  | _, _ => .nan

/-- The function `sqrt` on `float`. -/
def sqrt : Flt → Flt
  | .finite q => if q < 0 then .nan else .finite (F.sqrtf q)
  | .infinite false => .infinite false
  | _ => .nan

/-- The function `cos` on `float`. -/
def cos : Flt → Flt
  | .finite q => .finite (F.cosf q)
  | _ => .nan

/-- The function `sin` on `float`. -/
def sin : Flt → Flt
  | .finite q => .finite (F.sinf q)
  | _ => .nan

/-- The function `glm::dot` on `vec3` in `float`: the three products, added left to right. -/
def dot (a b : Vec3 Flt) : Flt :=
  F.add (F.add (F.mul a.x b.x) (F.mul a.y b.y)) (F.mul a.z b.z)

/-- The function `glm::normalize` on `vec3` in `float`: `v * inversesqrt(dot(v, v))` with
`inversesqrt(s) = 1 / sqrt(s)`. -/
def normalize (v : Vec3 Flt) : Vec3 Flt :=
  let k := F.div (.finite 1) (F.sqrt (F.dot v v))
  ⟨F.mul v.x k, F.mul v.y k, F.mul v.z k⟩

/-- The facts about the arithmetic of `float` (IEEE 754 binary32, round to nearest) that
the study of the overflow uses: `FLT_MAX = (2^24 - 1) * 2^104`; zero is rounded to zero; an
exact result of magnitude at least `2^-126`, the smallest normal number, is rounded with a
relative error of at most `2^-24`; and the library returns `cos(0) = 1`, `sin(0) = 0`. -/
def Binary32Like : Prop :=
  F.largest = 340282346638528859811704183484516925440
    ∧ F.round 0 = 0
    ∧ (∀ q : ℚ, 1 / 2 ^ 126 ≤ |q| → |F.round q - q| ≤ |q| / 2 ^ 24)
    ∧ F.cosf 0 = 1
    ∧ F.sinf 0 = 0

end FloatArith

/-- The constant `glm::pi<float>()`: the `float` nearest to pi, `13176795 / 2^22`. -/
def piFloat : Flt := .finite (13176795 / 4194304)

/-- The position and the normal that the inner loop body of `UCreateHandleMesh` computes and
stores for the counters `i` and `j`, every operation carried out in `float`. -/
def torusVertexFloat (F : FloatArith) (torusRadius tubeRadius : Flt)
    (torusSegments tubeSegments i j : Int) : Vec3 Flt × Vec3 Flt :=
  let torusAngleStep := F.div (F.mul (.finite 2) piFloat) (F.ofInt torusSegments)
  let tubeAngleStep := F.div (F.mul (.finite 2) piFloat) (F.ofInt tubeSegments)
  let torusAngle := F.mul (F.ofInt i) torusAngleStep
  let tubeAngle := F.mul (F.ofInt j) tubeAngleStep
  let x := F.mul (F.add torusRadius (F.mul tubeRadius (F.cos tubeAngle))) (F.cos torusAngle)
  let y := F.mul tubeRadius (F.sin tubeAngle)
  let z := F.mul (F.add torusRadius (F.mul tubeRadius (F.cos tubeAngle))) (F.sin torusAngle)
  (⟨x, y, z⟩, F.normalize ⟨x, y, z⟩)

/-- An arithmetic that meets `Binary32Like`, which shows that its conditions can be met
together: the range of `float`, exact finite results (no rounding error), and polynomials
standing in for the library functions. -/
def exactArith : FloatArith :=
  ⟨340282346638528859811704183484516925440, fun q => q, fun q => 1 - q ^ 2 / 2, fun q => q,
    fun q => q⟩

/-- A stored normal has finite components and a Euclidean length within `tolerance`
of 1. -/
def UnitWithin (n : Vec3 Flt) (tolerance : ℚ) : Prop :=
  ∃ a b c l : ℚ, n = ⟨.finite a, .finite b, .finite c⟩ ∧ 0 ≤ l
    ∧ l ^ 2 = a ^ 2 + b ^ 2 + c ^ 2 ∧ |l - 1| ≤ tolerance

/-- Vertex `(0, 0)` of a torus of 50 by 20 segments with the radii `R = 2^67` and
`r = 2^-4`, in every arithmetic that meets `Binary32Like`: the stored position is
`(x, 0, 0)` with a finite `x >= 2^65`, the product `x * x` overflows, the stored normal is
the zero vector, and its length is not within `1e-5` of 1. -/
def FloatNormalVanishes : Prop :=
  ∀ F : FloatArith, F.Binary32Like →
    ∃ x : ℚ, 2 ^ 65 ≤ x
      ∧ (torusVertexFloat F (.finite (2 ^ 67)) (.finite (1 / 16)) 50 20 0 0).1
          = ⟨.finite x, .finite 0, .finite 0⟩
      ∧ F.mul (.finite x) (.finite x) = .infinite false
      ∧ (torusVertexFloat F (.finite (2 ^ 67)) (.finite (1 / 16)) 50 20 0 0).2
          = ⟨.finite 0, .finite 0, .finite 0⟩
      ∧ ¬ UnitWithin (torusVertexFloat F (.finite (2 ^ 67)) (.finite (1 / 16)) 50 20 0 0).2
          (1 / 100000)

/-! ## The table generators (`UCreatePlaneMesh`, `UCreatePaper1Mesh`, ...) -/

/-- The function `glm::cross` on `vec3`. -/
def Vec3.cross {α : Type} [Field α] (a b : Vec3 α) : Vec3 α :=
  ⟨a.y * b.z - b.y * a.z, a.z * b.x - b.z * a.x, a.x * b.y - b.x * a.y⟩

/-- Componentwise difference `a - b` of `vec3`. -/
def Vec3.sub {α : Type} [Field α] (a b : Vec3 α) : Vec3 α := ⟨a.x - b.x, a.y - b.y, a.z - b.z⟩

/-- The multiple `c * v` of a `vec3`. -/
def Vec3.smul {α : Type} [Field α] (c : α) (v : Vec3 α) : Vec3 α := ⟨c * v.x, c * v.y, c * v.z⟩

/-- A mesh whose generator writes its arrays as literals: the `vertices` array handed to
`glBufferData` (a `float` literal is the decimal rational it denotes), the number of floats
per vertex (the stride of the `glVertexAttribPointer` calls), the `(size, offset)` of the
attributes `0, 1, ...` those calls declare, the literal `indices` array (empty when the
generator has none) and the value left in `mesh.nIndices`. -/
structure TableMesh where
  vertices : List ℚ
  stride : Nat
  attributes : List (Nat × Nat)
  indices : List Nat
  nIndices : Int
deriving DecidableEq

/-- The array `vertices` of `UCreatePlaneMesh`, one vertex (five floats) per line. -/
def planeVertices : List ℚ :=
  [
    -3.0, -0.5, -3.0, 0.0, 0.0,
    3.0, -0.5, -3.0, 1.0, 0.0,
    3.0, -0.5, 3.0, 1.0, 1.0,
    -3.0, -0.5, 3.0, 0.0, 1.0
  ]

/-- The array `vertices` of `UCreatePaper1Mesh`, one vertex (eight floats) per line. -/
def paper1Vertices : List ℚ :=
  [
    -1.0, -0.01, 1.5, 0.0, 0.0, 1.0, 0.0, 0.0,
    1.0, -0.01, 1.5, 0.0, 0.0, 1.0, 1.0, 0.0,
    1.0, 0.01, 1.5, 0.0, 0.0, 1.0, 1.0, 1.0,
    1.0, 0.01, 1.5, 0.0, 0.0, 1.0, 1.0, 1.0,
    -1.0, 0.01, 1.5, 0.0, 0.0, 1.0, 0.0, 1.0,
    -1.0, -0.01, 1.5, 0.0, 0.0, 1.0, 0.0, 0.0,
    -1.0, -0.01, -1.5, 0.0, 0.0, -1.0, 0.0, 0.0,
    1.0, -0.01, -1.5, 0.0, 0.0, -1.0, 1.0, 0.0,
    1.0, 0.01, -1.5, 0.0, 0.0, -1.0, 1.0, 1.0,
    1.0, 0.01, -1.5, 0.0, 0.0, -1.0, 1.0, 1.0,
    -1.0, 0.01, -1.5, 0.0, 0.0, -1.0, 0.0, 1.0,
    -1.0, -0.01, -1.5, 0.0, 0.0, -1.0, 0.0, 0.0,
    -1.0, 0.01, 1.5, -1.0, 0.0, 0.0, 1.0, 0.0,
    -1.0, 0.01, -1.5, -1.0, 0.0, 0.0, 0.0, 0.0,
    -1.0, -0.01, -1.5, -1.0, 0.0, 0.0, 0.0, 1.0,
    -1.0, -0.01, -1.5, -1.0, 0.0, 0.0, 0.0, 1.0,
    -1.0, -0.01, 1.5, -1.0, 0.0, 0.0, 1.0, 1.0,
    -1.0, 0.01, 1.5, -1.0, 0.0, 0.0, 1.0, 0.0,
    1.0, 0.01, 1.5, 1.0, 0.0, 0.0, 0.0, 0.0,
    1.0, 0.01, -1.5, 1.0, 0.0, 0.0, 1.0, 0.0,
    1.0, -0.01, -1.5, 1.0, 0.0, 0.0, 1.0, 1.0,
    1.0, -0.01, -1.5, 1.0, 0.0, 0.0, 1.0, 1.0,
    1.0, -0.01, 1.5, 1.0, 0.0, 0.0, 0.0, 1.0,
    1.0, 0.01, 1.5, 1.0, 0.0, 0.0, 0.0, 0.0,
    -1.0, 0.01, -1.5, 0.0, 1.0, 0.0, 0.0, 1.0,
    1.0, 0.01, -1.5, 0.0, 1.0, 0.0, 1.0, 1.0,
    1.0, 0.01, 1.5, 0.0, 1.0, 0.0, 1.0, 0.0,
    1.0, 0.01, 1.5, 0.0, 1.0, 0.0, 1.0, 0.0,
    -1.0, 0.01, 1.5, 0.0, 1.0, 0.0, 0.0, 0.0,
    -1.0, 0.01, -1.5, 0.0, 1.0, 0.0, 0.0, 1.0,
    -1.0, -0.01, -1.5, 0.0, -1.0, 0.0, 0.0, 1.0,
    1.0, -0.01, -1.5, 0.0, -1.0, 0.0, 1.0, 1.0,
    1.0, -0.01, 1.5, 0.0, -1.0, 0.0, 1.0, 0.0,
    1.0, -0.01, 1.5, 0.0, -1.0, 0.0, 1.0, 0.0,
    -1.0, -0.01, 1.5, 0.0, -1.0, 0.0, 0.0, 0.0,
    -1.0, -0.01, -1.5, 0.0, -1.0, 0.0, 0.0, 1.0
  ]

/-- The array `vertices` of `UCreatePaper2Mesh`, one vertex (eight floats) per line. -/
def paper2Vertices : List ℚ :=
  [
    -0.333, -0.01, 0.5, 0.0, 0.0, 1.0, 0.0, 0.0,
    0.333, -0.01, 0.5, 0.0, 0.0, 1.0, 1.0, 0.0,
    0.333, 0.01, 0.5, 0.0, 0.0, 1.0, 1.0, 1.0,
    0.333, 0.01, 0.5, 0.0, 0.0, 1.0, 1.0, 1.0,
    -0.333, 0.01, 0.5, 0.0, 0.0, 1.0, 0.0, 1.0,
    -0.333, -0.01, 0.5, 0.0, 0.0, 1.0, 0.0, 0.0,
    -0.333, -0.01, -0.5, 0.0, 0.0, -1.0, 0.0, 0.0,
    0.333, -0.01, -0.5, 0.0, 0.0, -1.0, 1.0, 0.0,
    0.333, 0.01, -0.5, 0.0, 0.0, -1.0, 1.0, 1.0,
    0.333, 0.01, -0.5, 0.0, 0.0, -1.0, 1.0, 1.0,
    -0.333, 0.01, -0.5, 0.0, 0.0, -1.0, 0.0, 1.0,
    -0.333, -0.01, -0.5, 0.0, 0.0, -1.0, 0.0, 0.0,
    -0.333, 0.01, 0.5, -1.0, 0.0, 0.0, 1.0, 0.0,
    -0.333, 0.01, -0.5, -1.0, 0.0, 0.0, 0.0, 0.0,
    -0.333, -0.01, -0.5, -1.0, 0.0, 0.0, 0.0, 1.0,
    -0.333, -0.01, -0.5, -1.0, 0.0, 0.0, 0.0, 1.0,
    -0.333, -0.01, 0.5, -1.0, 0.0, 0.0, 1.0, 1.0,
    -0.333, 0.01, 0.5, -1.0, 0.0, 0.0, 1.0, 0.0,
    0.333, 0.01, 0.5, 1.0, 0.0, 0.0, 0.0, 0.0,
    0.333, 0.01, -0.5, 1.0, 0.0, 0.0, 1.0, 0.0,
    0.333, -0.01, -0.5, 1.0, 0.0, 0.0, 1.0, 1.0,
    0.333, -0.01, -0.5, 1.0, 0.0, 0.0, 1.0, 1.0,
    0.333, -0.01, 0.5, 1.0, 0.0, 0.0, 0.0, 1.0,
    0.333, 0.01, 0.5, 1.0, 0.0, 0.0, 0.0, 0.0,
    -0.333, 0.01, -0.5, 0.0, 1.0, 0.0, 0.0, 1.0,
    0.333, 0.01, -0.5, 0.0, 1.0, 0.0, 1.0, 1.0,
    0.333, 0.01, 0.5, 0.0, 1.0, 0.0, 1.0, 0.0,
    0.333, 0.01, 0.5, 0.0, 1.0, 0.0, 1.0, 0.0,
    -0.333, 0.01, 0.5, 0.0, 1.0, 0.0, 0.0, 0.0,
    -0.333, 0.01, -0.5, 0.0, 1.0, 0.0, 0.0, 1.0,
    -0.333, -0.01, -0.5, 0.0, -1.0, 0.0, 0.0, 1.0,
    0.333, -0.01, -0.5, 0.0, -1.0, 0.0, 1.0, 1.0,
    0.333, -0.01, 0.5, 0.0, -1.0, 0.0, 1.0, 0.0,
    0.333, -0.01, 0.5, 0.0, -1.0, 0.0, 1.0, 0.0,
    -0.333, -0.01, 0.5, 0.0, -1.0, 0.0, 0.0, 0.0,
    -0.333, -0.01, -0.5, 0.0, -1.0, 0.0, 0.0, 1.0
  ]

/-- The array `vertices` of `UCreatePaper3Mesh`, one vertex (eight floats) per line. -/
def paper3Vertices : List ℚ :=
  [
    -0.333, -0.01, 0.5, 0.0, 0.0, 1.0, 0.0, 0.0,
    0.333, -0.01, 0.5, 0.0, 0.0, 1.0, 1.0, 0.0,
    0.333, 0.01, 0.5, 0.0, 0.0, 1.0, 1.0, 1.0,
    0.333, 0.01, 0.5, 0.0, 0.0, 1.0, 1.0, 1.0,
    -0.333, 0.01, 0.5, 0.0, 0.0, 1.0, 0.0, 1.0,
    -0.333, -0.01, 0.5, 0.0, 0.0, 1.0, 0.0, 0.0,
    -0.333, -0.01, -0.5, 0.0, 0.0, -1.0, 0.0, 0.0,
    0.333, -0.01, -0.5, 0.0, 0.0, -1.0, 1.0, 0.0,
    0.333, 0.01, -0.5, 0.0, 0.0, -1.0, 1.0, 1.0,
    0.333, 0.01, -0.5, 0.0, 0.0, -1.0, 1.0, 1.0,
    -0.333, 0.01, -0.5, 0.0, 0.0, -1.0, 0.0, 1.0,
    -0.333, -0.01, -0.5, 0.0, 0.0, -1.0, 0.0, 0.0,
    -0.333, 0.01, 0.5, -1.0, 0.0, 0.0, 1.0, 0.0,
    -0.333, 0.01, -0.5, -1.0, 0.0, 0.0, 0.0, 0.0,
    -0.333, -0.01, -0.5, -1.0, 0.0, 0.0, 0.0, 1.0,
    -0.333, -0.01, -0.5, -1.0, 0.0, 0.0, 0.0, 1.0,
    -0.333, -0.01, 0.5, -1.0, 0.0, 0.0, 1.0, 1.0,
    -0.333, 0.01, 0.5, -1.0, 0.0, 0.0, 1.0, 0.0,
    0.333, 0.01, 0.5, 1.0, 0.0, 0.0, 0.0, 0.0,
    0.333, 0.01, -0.5, 1.0, 0.0, 0.0, 1.0, 0.0,
    0.333, -0.01, -0.5, 1.0, 0.0, 0.0, 1.0, 1.0,
    0.333, -0.01, -0.5, 1.0, 0.0, 0.0, 1.0, 1.0,
    0.333, -0.01, 0.5, 1.0, 0.0, 0.0, 0.0, 1.0,
    0.333, 0.01, 0.5, 1.0, 0.0, 0.0, 0.0, 0.0,
    -0.333, 0.01, -0.5, 0.0, 1.0, 0.0, 0.0, 1.0,
    0.333, 0.01, -0.5, 0.0, 1.0, 0.0, 1.0, 1.0,
    0.333, 0.01, 0.5, 0.0, 1.0, 0.0, 1.0, 0.0,
    0.333, 0.01, 0.5, 0.0, 1.0, 0.0, 1.0, 0.0,
    -0.333, 0.01, 0.5, 0.0, 1.0, 0.0, 0.0, 0.0,
    -0.333, 0.01, -0.5, 0.0, 1.0, 0.0, 0.0, 1.0,
    -0.333, -0.01, -0.5, 0.0, -1.0, 0.0, 0.0, 1.0,
    0.333, -0.01, -0.5, 0.0, -1.0, 0.0, 1.0, 1.0,
    0.333, -0.01, 0.5, 0.0, -1.0, 0.0, 1.0, 0.0,
    0.333, -0.01, 0.5, 0.0, -1.0, 0.0, 1.0, 0.0,
    -0.333, -0.01, 0.5, 0.0, -1.0, 0.0, 0.0, 0.0,
    -0.333, -0.01, -0.5, 0.0, -1.0, 0.0, 0.0, 1.0
  ]

/-- The generator `UCreatePlaneMesh`: four vertices of position and texture coordinates, the
index array `0, 1, 2, 0, 2, 3`, and `mesh.nIndices = sizeof(indices) / sizeof(indices[0])`. -/
def UCreatePlaneMesh : TableMesh :=
  let indices : List Nat := [0, 1, 2, 0, 2, 3]
  ⟨planeVertices, 5, [(3, 0), (2, 3)], indices, indices.length⟩

/-- The generator `UCreatePaper1Mesh`: position, normal and texture coordinates per vertex,
no index array, `mesh.nIndices = 36`. -/
def UCreatePaper1Mesh : TableMesh := ⟨paper1Vertices, 8, [(3, 0), (3, 3), (2, 6)], [], 36⟩

/-- The generator `UCreatePaper2Mesh`: same layout as `UCreatePaper1Mesh`. -/
def UCreatePaper2Mesh : TableMesh := ⟨paper2Vertices, 8, [(3, 0), (3, 3), (2, 6)], [], 36⟩

/-- The generator `UCreatePaper3Mesh`: same layout as `UCreatePaper1Mesh`. -/
def UCreatePaper3Mesh : TableMesh := ⟨paper3Vertices, 8, [(3, 0), (3, 3), (2, 6)], [], 36⟩

/-- The one parameterized panel of the spec's design notes ("one parameterized function taking
half-width/half-depth/thickness, returning the same 36-vertex layout"): the 36 vertices of a
box with the given half-extents in X, Z and Y, in the order, with the normals and with the
texture coordinates of the paper tables.  The paper generators are compared with it. -/
def panelLayout (halfWidth halfDepth halfThickness : ℚ) : List ℚ :=
  [
    -halfWidth, -halfThickness, halfDepth, 0.0, 0.0, 1.0, 0.0, 0.0,
    halfWidth, -halfThickness, halfDepth, 0.0, 0.0, 1.0, 1.0, 0.0,
    halfWidth, halfThickness, halfDepth, 0.0, 0.0, 1.0, 1.0, 1.0,
    halfWidth, halfThickness, halfDepth, 0.0, 0.0, 1.0, 1.0, 1.0,
    -halfWidth, halfThickness, halfDepth, 0.0, 0.0, 1.0, 0.0, 1.0,
    -halfWidth, -halfThickness, halfDepth, 0.0, 0.0, 1.0, 0.0, 0.0,
    -halfWidth, -halfThickness, -halfDepth, 0.0, 0.0, -1.0, 0.0, 0.0,
    halfWidth, -halfThickness, -halfDepth, 0.0, 0.0, -1.0, 1.0, 0.0,
    halfWidth, halfThickness, -halfDepth, 0.0, 0.0, -1.0, 1.0, 1.0,
    halfWidth, halfThickness, -halfDepth, 0.0, 0.0, -1.0, 1.0, 1.0,
    -halfWidth, halfThickness, -halfDepth, 0.0, 0.0, -1.0, 0.0, 1.0,
    -halfWidth, -halfThickness, -halfDepth, 0.0, 0.0, -1.0, 0.0, 0.0,
    -halfWidth, halfThickness, halfDepth, -1.0, 0.0, 0.0, 1.0, 0.0,
    -halfWidth, halfThickness, -halfDepth, -1.0, 0.0, 0.0, 0.0, 0.0,
    -halfWidth, -halfThickness, -halfDepth, -1.0, 0.0, 0.0, 0.0, 1.0,
    -halfWidth, -halfThickness, -halfDepth, -1.0, 0.0, 0.0, 0.0, 1.0,
    -halfWidth, -halfThickness, halfDepth, -1.0, 0.0, 0.0, 1.0, 1.0,
    -halfWidth, halfThickness, halfDepth, -1.0, 0.0, 0.0, 1.0, 0.0,
    halfWidth, halfThickness, halfDepth, 1.0, 0.0, 0.0, 0.0, 0.0,
    halfWidth, halfThickness, -halfDepth, 1.0, 0.0, 0.0, 1.0, 0.0,
    halfWidth, -halfThickness, -halfDepth, 1.0, 0.0, 0.0, 1.0, 1.0,
    halfWidth, -halfThickness, -halfDepth, 1.0, 0.0, 0.0, 1.0, 1.0,
    halfWidth, -halfThickness, halfDepth, 1.0, 0.0, 0.0, 0.0, 1.0,
    halfWidth, halfThickness, halfDepth, 1.0, 0.0, 0.0, 0.0, 0.0,
    -halfWidth, halfThickness, -halfDepth, 0.0, 1.0, 0.0, 0.0, 1.0,
    halfWidth, halfThickness, -halfDepth, 0.0, 1.0, 0.0, 1.0, 1.0,
    halfWidth, halfThickness, halfDepth, 0.0, 1.0, 0.0, 1.0, 0.0,
    halfWidth, halfThickness, halfDepth, 0.0, 1.0, 0.0, 1.0, 0.0,
    -halfWidth, halfThickness, halfDepth, 0.0, 1.0, 0.0, 0.0, 0.0,
    -halfWidth, halfThickness, -halfDepth, 0.0, 1.0, 0.0, 0.0, 1.0,
    -halfWidth, -halfThickness, -halfDepth, 0.0, -1.0, 0.0, 0.0, 1.0,
    halfWidth, -halfThickness, -halfDepth, 0.0, -1.0, 0.0, 1.0, 1.0,
    halfWidth, -halfThickness, halfDepth, 0.0, -1.0, 0.0, 1.0, 0.0,
    halfWidth, -halfThickness, halfDepth, 0.0, -1.0, 0.0, 1.0, 0.0,
    -halfWidth, -halfThickness, halfDepth, 0.0, -1.0, 0.0, 0.0, 0.0,
    -halfWidth, -halfThickness, -halfDepth, 0.0, -1.0, 0.0, 0.0, 1.0
  ]

/-- The mesh `paper3Mesh` of `main`, which is created with `UCreatePaper2Mesh(paper3Mesh)`. -/
def main_paper3Mesh : TableMesh := UCreatePaper2Mesh

namespace TableMesh

/-- The number of vertices in the `vertices` array. -/
def vertexCount (m : TableMesh) : Nat := m.vertices.length / m.stride

/-- The three floats at `offset` within vertex `k`. -/
def vec3At (m : TableMesh) (offset k : Nat) : Vec3 ℚ :=
  ⟨m.vertices.getD (m.stride * k + offset) 0, m.vertices.getD (m.stride * k + offset + 1) 0,
   m.vertices.getD (m.stride * k + offset + 2) 0⟩

/-- The position of vertex `k` (attribute 0, at offset 0). -/
def position (m : TableMesh) (k : Nat) : Vec3 ℚ := m.vec3At 0 k

/-- The normal of vertex `k` of a mesh with the paper layout (attribute 1, at offset 3). -/
def normal (m : TableMesh) (k : Nat) : Vec3 ℚ := m.vec3At 3 k

/-- The texture coordinates of vertex `k` of a mesh with the paper layout (attribute 2, at
offset 6). -/
def uv (m : TableMesh) (k : Nat) : ℚ × ℚ :=
  (m.vertices.getD (m.stride * k + 6) 0, m.vertices.getD (m.stride * k + 7) 0)

/-- The cross product `(p1 - p0) x (p2 - p0)` of triangle `k` of a non-indexed mesh, whose
corners are the vertices `3k`, `3k+1`, `3k+2`. -/
def triangleCross (m : TableMesh) (k : Nat) : Vec3 ℚ :=
  Vec3.cross (Vec3.sub (m.position (3 * k + 1)) (m.position (3 * k)))
    (Vec3.sub (m.position (3 * k + 2)) (m.position (3 * k)))

end TableMesh

/-- The six axis-aligned unit vectors. -/
def axisUnits : List (Vec3 ℚ) :=
  [⟨1, 0, 0⟩, ⟨-1, 0, 0⟩, ⟨0, 1, 0⟩, ⟨0, -1, 0⟩, ⟨0, 0, 1⟩, ⟨0, 0, -1⟩]

/-! ## The application: globals, callbacks and the view of a frame -/

/-- The class `Camera` of `camera.h`. The header is not among the sources: the members
`Source.cpp` itself reads or writes are fields, everything else the class holds is the field
`rest` of a parameter type `ρ`. -/
structure Camera (α ρ : Type) where
  Position : Vec3 α
  Front : Vec3 α
  Up : Vec3 α
  Zoom : α
  rest : ρ

/-- The enumeration `Camera_Movement` of `camera.h`, by the six values `Source.cpp` passes. -/
inductive Camera_Movement where
  | FORWARD
  | BACKWARD
  | LEFT
  | RIGHT
  | UP
  | DOWN
deriving DecidableEq

/-- The member functions of `Camera` that `Source.cpp` calls. They are defined in `camera.h`,
which is not among the sources, so they are parameters of the embedding; each acts on the
camera it is called on, and `GetViewMatrix` only reads it. `μ` is the type of the view
matrix. -/
structure CameraMethods (α ρ μ : Type) where
  ProcessKeyboard : Camera α ρ → Camera_Movement → α → Camera α ρ
  ProcessMouseMovement : Camera α ρ → α → α → Camera α ρ
  GetViewMatrix : Camera α ρ → μ

/-- The global variables of `Source.cpp` that the callbacks and the render loop read or
write, and the close flag of the window. -/
structure AppState (α ρ : Type) where
  camera : Camera α ρ
  lastX : α
  lastY : α
  firstMouse : Bool
  cameraSpeed : α
  birdEyeCamera : Camera α ρ
  birdEyeView : Bool
  birdEyeKeyPressed : Bool
  deltaTime : α
  lastFrame : α
  windowShouldClose : Bool

/-- What `glfwGetKey` reports during one call of `processInput` for the keys it queries:
`true` for `GLFW_PRESS`, `false` for `GLFW_RELEASE`. -/
structure KeyState where
  escape : Bool
  w : Bool
  s : Bool
  a : Bool
  d : Bool
  p : Bool
  q : Bool
  e : Bool

/-- What one pass of the render loop hands to the shader for the view and the projection:
the matrix set as `view`, and `camera.Zoom`, the angle in degrees from which `projection`
is built. -/
structure FrameUniforms (α μ : Type) where
  view : μ
  zoom : α

section App

variable {α ρ μ : Type} [LinearOrderedField α]

/-- The globals as their initialisers leave them, for the two cameras the constructor of
`camera.h` returns: `lastX = SCR_WIDTH / 2.0f`, `lastY = SCR_HEIGHT / 2.0f`,
`firstMouse = true`, `cameraSpeed = 1.5f`, both bird's-eye flags `false`, the times `0.0f`. -/
def startState (camera birdEyeCamera : Camera α ρ) : AppState α ρ :=
  { camera := camera, lastX := 800 / 2, lastY := 600 / 2, firstMouse := true,
    cameraSpeed := 1.5, birdEyeCamera := birdEyeCamera, birdEyeView := false,
    birdEyeKeyPressed := false, deltaTime := 0, lastFrame := 0, windowShouldClose := false }

/-- The call `(birdEyeView ? birdEyeCamera : camera).ProcessKeyboard(direction, amount)`. -/
def processKeyboardSelected (cam : CameraMethods α ρ μ) (direction : Camera_Movement)
    (amount : α) (st : AppState α ρ) : AppState α ρ :=
  if st.birdEyeView then
    { st with birdEyeCamera := cam.ProcessKeyboard st.birdEyeCamera direction amount }
  else { st with camera := cam.ProcessKeyboard st.camera direction amount }

/-- The function `processInput`. -/
def processInput (cam : CameraMethods α ρ μ) (keys : KeyState) (st : AppState α ρ) :
    AppState α ρ :=
  let st := if keys.escape then { st with windowShouldClose := true } else st
  let st := if keys.w then
    processKeyboardSelected cam .FORWARD (st.deltaTime * st.cameraSpeed) st else st
  let st := if keys.s then
    processKeyboardSelected cam .BACKWARD (st.deltaTime * st.cameraSpeed) st else st
  let st := if keys.a then
    processKeyboardSelected cam .LEFT (st.deltaTime * st.cameraSpeed) st else st
  let st := if keys.d then
    processKeyboardSelected cam .RIGHT (st.deltaTime * st.cameraSpeed) st else st
  let st := if keys.p ∧ ¬ st.birdEyeKeyPressed then
    { st with birdEyeView := !st.birdEyeView, birdEyeKeyPressed := true } else st
  let st := if ¬ keys.p then { st with birdEyeKeyPressed := false } else st
  let st := if keys.q then processKeyboardSelected cam .UP st.deltaTime st else st
  if keys.e then processKeyboardSelected cam .DOWN st.deltaTime st else st

/-- The function `mouse_callback`, over exact arithmetic (the conversions from `double` to
`float` are not modelled). -/
def mouse_callback (cam : CameraMethods α ρ μ) (st : AppState α ρ) (xpos ypos : α) :
    AppState α ρ :=
  let st := if st.firstMouse then
    { st with lastX := xpos, lastY := ypos, firstMouse := false } else st
  let xoffset := xpos - st.lastX
  let yoffset := st.lastY - ypos
  let st := { st with lastX := xpos, lastY := ypos }
  { st with camera := cam.ProcessMouseMovement st.camera xoffset yoffset }

/-- The function `scroll_callback`. -/
def scroll_callback (st : AppState α ρ) (_xoffset yoffset : α) : AppState α ρ :=
  let st := if 1 ≤ st.cameraSpeed ∧ st.cameraSpeed ≤ 10 then
    { st with cameraSpeed := st.cameraSpeed + yoffset * 0.1 } else st
  let st := if st.cameraSpeed < 1 then { st with cameraSpeed := 1 } else st
  if st.cameraSpeed > 10 then { st with cameraSpeed := 10 } else st

/-- The view/projection step of the render loop of `main`: `view` is taken from the camera
selected by `birdEyeView`, `projection` is built from `camera.Zoom`, and when `birdEyeView`
holds the bird's-eye camera is set to its fixed pose and `view` is taken from it again. -/
def renderView (cam : CameraMethods α ρ μ) (st : AppState α ρ) :
    AppState α ρ × FrameUniforms α μ :=
  let view := if st.birdEyeView then cam.GetViewMatrix st.birdEyeCamera
    else cam.GetViewMatrix st.camera
  let zoom := st.camera.Zoom
  if st.birdEyeView then
    let b := { st.birdEyeCamera with Position := ⟨0, 10, 0⟩ }
    let b := { b with Front := ⟨0, -1, 0⟩ }
    let b := { b with Up := ⟨0, 0, -1⟩ }
    ({ st with birdEyeCamera := b }, ⟨cam.GetViewMatrix b, zoom⟩)
  else (st, ⟨view, zoom⟩)

/-- The per-frame time logic of `main`, with `currentFrame = glfwGetTime()`. -/
def timeStep (currentFrame : α) (st : AppState α ρ) : AppState α ρ :=
  let st := { st with deltaTime := currentFrame - st.lastFrame }
  { st with lastFrame := currentFrame }

/-- One pass of the render loop of `main` up to the hand-over of `view` and `projection`: the
time logic, `processInput`, then the view/projection step. -/
def frame (cam : CameraMethods α ρ μ) (currentFrame : α) (keys : KeyState)
    (st : AppState α ρ) : AppState α ρ × FrameUniforms α μ :=
  renderView cam (processInput cam keys (timeStep currentFrame st))

end App

/-! ## Reading a generated mesh -/

/-- The three consecutive floats `a[k]`, `a[k+1]`, `a[k+2]` as a `vec3`, when all three are
initialised. -/
def Buffer.readVec3 {α : Type} (b : Buffer α) (k : Int) : Option (Vec3 α) := do
  let x ← b.read k
  let y ← b.read (k + 1)
  let z ← b.read (k + 2)
  pure ⟨x, y, z⟩

/-- The position of vertex `v`: the floats `8v .. 8v+2` (attribute 0). -/
def ConeMesh.position {α : Type} (m : ConeMesh α) (v : Int) : Option (Vec3 α) :=
  m.vertices.readVec3 (v * 8)

/-- The normal of vertex `v`: the floats `8v+3 .. 8v+5` (attribute 1). -/
def ConeMesh.normal {α : Type} (m : ConeMesh α) (v : Int) : Option (Vec3 α) :=
  m.vertices.readVec3 (v * 8 + 3)

/-- The cross product `(p1 - p0) x (p2 - p0)` of the triangle whose three indices sit at the
positions `k`, `k+1`, `k+2` of the index array. -/
def ConeMesh.triangleCross {α : Type} [Field α] (m : ConeMesh α) (k : Int) :
    Option (Vec3 α) := do
  let a ← m.indices.read k
  let b ← m.indices.read (k + 1)
  let c ← m.indices.read (k + 2)
  let p0 ← m.position a
  let p1 ← m.position b
  let p2 ← m.position c
  pure (Vec3.cross (Vec3.sub p1 p0) (Vec3.sub p2 p0))

/-- The position of vertex `v` of the torus: the floats `8v .. 8v+2`. -/
def TorusMesh.position {α : Type} (m : TorusMesh α) (v : Int) : Option (Vec3 α) :=
  m.vertices.readVec3 (v * 8)

/-- The normal of vertex `v` of the torus: the floats `8v+3 .. 8v+5`. -/
def TorusMesh.normal {α : Type} (m : TorusMesh α) (v : Int) : Option (Vec3 α) :=
  m.vertices.readVec3 (v * 8 + 3)

/-! ## The store logs of the cone generator in closed form -/

section ConeLogsDefs

variable {α : Type} [Field α] (cos sin : α → α) (pi : α)

/-- The sixteen stores of one run of the vertex loop body, most recent first. -/
def coneVertexEntries (baseRadius topRadius height : α) (numSegments : Int) (i : Int) :
    List (Int × α) :=
  [ ((i + numSegments + 1) * 8 + 7, 1),
    ((i + numSegments + 1) * 8 + 6, (i : α) / (numSegments : α)),
    ((i + numSegments + 1) * 8 + 5, sin (2 * pi * (i : α) / (numSegments : α))),
    ((i + numSegments + 1) * 8 + 4, 0),
    ((i + numSegments + 1) * 8 + 3, cos (2 * pi * (i : α) / (numSegments : α))),
    ((i + numSegments + 1) * 8 + 2, sin (2 * pi * (i : α) / (numSegments : α)) * topRadius),
    ((i + numSegments + 1) * 8 + 1, height / 2),
    ((i + numSegments + 1) * 8, cos (2 * pi * (i : α) / (numSegments : α)) * topRadius),
    (i * 8 + 7, 0),
    (i * 8 + 6, (i : α) / (numSegments : α)),
    (i * 8 + 5, sin (2 * pi * (i : α) / (numSegments : α))),
    (i * 8 + 4, 0),
    (i * 8 + 3, cos (2 * pi * (i : α) / (numSegments : α))),
    (i * 8 + 2, sin (2 * pi * (i : α) / (numSegments : α)) * baseRadius),
    (i * 8 + 1, -height / 2),
    (i * 8, cos (2 * pi * (i : α) / (numSegments : α)) * baseRadius) ]

/-- The store log of the vertex array after `n` runs of the vertex loop body. -/
def coneVertexLog (baseRadius topRadius height : α) (numSegments : Int) : Nat → List (Int × α)
  | 0 => []
  | n + 1 => coneVertexEntries cos sin pi baseRadius topRadius height numSegments (n : Int)
      ++ coneVertexLog baseRadius topRadius height numSegments n

/-- The sixteen stores of the two centre vertices, most recent first. -/
def coneCenterEntries (height : α) (centerBottomIndex centerTopIndex : Int) : List (Int × α) :=
  [ (centerTopIndex * 8 + 7, 1),
    (centerTopIndex * 8 + 6, 0.5),
    (centerTopIndex * 8 + 5, 0),
    (centerTopIndex * 8 + 4, 1),
    (centerTopIndex * 8 + 3, 0),
    (centerTopIndex * 8 + 2, 0),
    (centerTopIndex * 8 + 1, height / 2),
    (centerTopIndex * 8, 0),
    (centerBottomIndex * 8 + 7, 0),
    (centerBottomIndex * 8 + 6, 0.5),
    (centerBottomIndex * 8 + 5, 0),
    (centerBottomIndex * 8 + 4, -1),
    (centerBottomIndex * 8 + 3, 0),
    (centerBottomIndex * 8 + 2, 0),
    (centerBottomIndex * 8 + 1, -height / 2),
    (centerBottomIndex * 8, 0) ]

/-- The twelve stores of one run of the index loop body, most recent first. -/
def coneIndexEntries (numSegments centerBottomIndex centerTopIndex : Int) (i : Int) :
    List (Int × Int) :=
  [ (12 * i + 11, i + numSegments + 1),
    (12 * i + 10, i + numSegments + 2),
    (12 * i + 9, centerTopIndex),
    (12 * i + 8, i + 1),
    (12 * i + 7, i),
    (12 * i + 6, centerBottomIndex),
    (12 * i + 5, i + 1),
    (12 * i + 4, i + numSegments + 2),
    (12 * i + 3, i),
    (12 * i + 2, i + numSegments + 2),
    (12 * i + 1, i + numSegments + 1),
    (12 * i, i) ]

/-- The store log of the index array after `n` runs of the index loop body. -/
def coneIndexLog (numSegments centerBottomIndex centerTopIndex : Int) : Nat → List (Int × Int)
  | 0 => []
  | n + 1 => coneIndexEntries numSegments centerBottomIndex centerTopIndex (n : Int)
      ++ coneIndexLog numSegments centerBottomIndex centerTopIndex n

/-- The vertex array the cone generator builds, in closed form. -/
def coneVertexBuffer (baseRadius topRadius height : α) (N : Nat) : Buffer α :=
  ⟨(((N : Int) + 1) * 2 + 2) * 8,
    coneCenterEntries height (((N : Int) + 1) * 2 + 2 - 2) (((N : Int) + 1) * 2 + 2 - 1)
      ++ coneVertexLog cos sin pi baseRadius topRadius height (N : Int) (N + 1)⟩

/-- The index array the cone generator builds, in closed form. -/
def coneIndexBuffer (N : Nat) : Buffer Int :=
  ⟨(N : Int) * 6 + (N : Int) * 3 * 2,
    coneIndexLog (N : Int) (((N : Int) + 1) * 2 + 2 - 2) (((N : Int) + 1) * 2 + 2 - 1) N⟩

/-- The result of the cone generator, in closed form. -/
def coneMeshOf (baseRadius topRadius height : α) (N : Nat) : ConeMesh α :=
  ⟨((N : Int) + 1) * 2 + 2, (N : Int) * 6 + (N : Int) * 3 * 2,
    coneVertexBuffer cos sin pi baseRadius topRadius height N, coneIndexBuffer N,
    12 * (N : Int), (N : Int) * 6 + (N : Int) * 3 * 2⟩

end ConeLogsDefs

/-! ## The store logs of the torus generator in closed form -/

section TorusLogsDefs

variable {α : Type} [Field α] (cos sin sqrt : α → α) (pi : α)

/-- The eight vertex stores of one run of the inner loop body, most recent first, when the
run starts with `vertexIndex = vi`. -/
def torusVertexEntries (torusRadius tubeRadius : α) (torusSegments tubeSegments : Int)
    (tubeAngleStep torusAngle : α) (i j vi : Int) : List (Int × α) :=
  [ (vi + 7, (j : α) / (tubeSegments : α)),
    (vi + 6, (i : α) / (torusSegments : α)),
    (vi + 5, (Vec3.normalize sqrt (torusPosition cos sin torusRadius tubeRadius torusAngle
      ((j : α) * tubeAngleStep))).z),
    (vi + 4, (Vec3.normalize sqrt (torusPosition cos sin torusRadius tubeRadius torusAngle
      ((j : α) * tubeAngleStep))).y),
    (vi + 3, (Vec3.normalize sqrt (torusPosition cos sin torusRadius tubeRadius torusAngle
      ((j : α) * tubeAngleStep))).x),
    (vi + 2, (torusPosition cos sin torusRadius tubeRadius torusAngle
      ((j : α) * tubeAngleStep)).z),
    (vi + 1, (torusPosition cos sin torusRadius tubeRadius torusAngle
      ((j : α) * tubeAngleStep)).y),
    (vi, (torusPosition cos sin torusRadius tubeRadius torusAngle
      ((j : α) * tubeAngleStep)).x) ]

/-- The six index stores of one run of the inner loop body, most recent first, when the run
starts with `indexIndex = ii`. -/
def torusIndexEntries (torusSegments tubeSegments : Int) (i j ii : Int) : List (Int × Int) :=
  [ (ii + 5, Int.tmod (i + 1) torusSegments * tubeSegments + Int.tmod (j + 1) tubeSegments),
    (ii + 4, i * tubeSegments + Int.tmod (j + 1) tubeSegments),
    (ii + 3, Int.tmod (i + 1) torusSegments * tubeSegments + j),
    (ii + 2, Int.tmod (i + 1) torusSegments * tubeSegments + j),
    (ii + 1, i * tubeSegments + Int.tmod (j + 1) tubeSegments),
    (ii, i * tubeSegments + j) ]

/-- The vertex store log of row `i` after `n` runs of the inner loop body. -/
def torusRowVertexLog (torusRadius tubeRadius : α) (M T : Int) (tubeAngleStep torusAngle : α)
    (i : Int) : Nat → List (Int × α)
  | 0 => []
  | n + 1 => torusVertexEntries cos sin sqrt torusRadius tubeRadius M T tubeAngleStep
      torusAngle i (n : Int) (8 * (i * T + (n : Int)))
      ++ torusRowVertexLog torusRadius tubeRadius M T tubeAngleStep torusAngle i n

/-- The index store log of row `i` after `n` runs of the inner loop body. -/
def torusRowIndexLog (M T : Int) (i : Int) : Nat → List (Int × Int)
  | 0 => []
  | n + 1 => torusIndexEntries M T i (n : Int) (6 * (i * T + (n : Int)))
      ++ torusRowIndexLog M T i n

/-- The vertex store log after `m` runs of the outer loop body. -/
def torusVertexLog (torusRadius tubeRadius : α) (M T : Nat) : Nat → List (Int × α)
  | 0 => []
  | m + 1 => torusRowVertexLog cos sin sqrt torusRadius tubeRadius (M : Int) (T : Int)
      (2 * pi / ((T : Int) : α)) (((m : Int) : α) * (2 * pi / ((M : Int) : α))) (m : Int) T
      ++ torusVertexLog torusRadius tubeRadius M T m

/-- The index store log after `m` runs of the outer loop body. -/
def torusIndexLog (M T : Nat) : Nat → List (Int × Int)
  | 0 => []
  | m + 1 => torusRowIndexLog (M : Int) (T : Int) (m : Int) T ++ torusIndexLog M T m

/-- The result of the torus generator, in closed form. -/
def torusMeshOf (torusRadius tubeRadius : α) (M T : Nat) : TorusMesh α :=
  ⟨(M : Int) * (T : Int), (M : Int) * (T : Int) * 6,
    ⟨(M : Int) * (T : Int) * 8, torusVertexLog cos sin sqrt pi torusRadius tubeRadius M T M⟩,
    ⟨(M : Int) * (T : Int) * 6, torusIndexLog M T M⟩,
    8 * ((M : Int) * (T : Int)), 6 * ((M : Int) * (T : Int)), (M : Int) * (T : Int) * 6⟩

/-- The slots `a, a+1, ..., a+n-1`. -/
def slotsFrom (a : Int) (n : Nat) : List Int := (List.range n).map (fun k : Nat => a + (k : Int))

end TorusLogsDefs

/-! ## Properties of the generated meshes stated by the theorems -/

/-- The cap triangles of segment `i` of the cone generated over the reals: the generator
completes; the bottom-fan triangle is `(centerBottom, i, i+1)` and the top-fan triangle is
`(centerTop, i+N+2, i+N+1)`; their cross products `(p1 - p0) x (p2 - p0)` are
`(0, -baseRadius^2 sin(2 pi/N), 0)` and `(0, topRadius^2 sin(2 pi/N), 0)`; the centre normals
are `(0,-1,0)` and `(0,1,0)`; for `N >= 3` each cross product is a positive multiple of the
centre normal of its cap, for `N <= 2` both cross products vanish. -/
def ConeCapWinding (baseRadius topRadius height : ℝ) (N i : Nat) : Prop :=
  ∃ m, createConeMesh Real.cos Real.sin Real.pi baseRadius topRadius height N = .ok m
    ∧ m.indices.read (12 * (i : Int) + 6) = some (m.numVertices - 2)
    ∧ m.indices.read (12 * (i : Int) + 6 + 1) = some (i : Int)
    ∧ m.indices.read (12 * (i : Int) + 6 + 2) = some ((i : Int) + 1)
    ∧ m.indices.read (12 * (i : Int) + 9) = some (m.numVertices - 1)
    ∧ m.indices.read (12 * (i : Int) + 9 + 1) = some ((i : Int) + (N : Int) + 2)
    ∧ m.indices.read (12 * (i : Int) + 9 + 2) = some ((i : Int) + (N : Int) + 1)
    ∧ m.triangleCross (12 * (i : Int) + 6)
        = some ⟨0, -(baseRadius ^ 2 * Real.sin (2 * Real.pi / (N : ℝ))), 0⟩
    ∧ m.triangleCross (12 * (i : Int) + 9)
        = some ⟨0, topRadius ^ 2 * Real.sin (2 * Real.pi / (N : ℝ)), 0⟩
    ∧ m.normal (m.numVertices - 2) = some ⟨0, -1, 0⟩
    ∧ m.normal (m.numVertices - 1) = some ⟨0, 1, 0⟩
    ∧ (3 ≤ N → ∃ c d : ℝ, 0 < c ∧ 0 < d
        ∧ m.triangleCross (12 * (i : Int) + 6) = some (Vec3.smul c ⟨0, -1, 0⟩)
        ∧ m.triangleCross (12 * (i : Int) + 9) = some (Vec3.smul d ⟨0, 1, 0⟩))
    ∧ (N ≤ 2 → m.triangleCross (12 * (i : Int) + 6) = some ⟨0, 0, 0⟩
        ∧ m.triangleCross (12 * (i : Int) + 9) = some ⟨0, 0, 0⟩)

/-- Vertex `(i, j)` of the torus generated over the reals: the generator completes, the
vertex sits in slot `i * T + j`, its position is the torus point of the angles
`i * (2 pi / M)` and `j * (2 pi / T)` and is not the origin, and the stored normal is the
normalized position and has Euclidean length exactly 1. -/
def TorusUnitNormal (torusRadius tubeRadius : ℝ) (M T i j : Nat) : Prop :=
  ∃ m p n, createTorusMesh Real.cos Real.sin Real.sqrt Real.pi torusRadius tubeRadius M T = .ok m
    ∧ m.position ((i : Int) * (T : Int) + (j : Int)) = some p
    ∧ m.normal ((i : Int) * (T : Int) + (j : Int)) = some n
    ∧ p = ⟨(torusRadius + tubeRadius * Real.cos ((j : ℝ) * (2 * Real.pi / (T : ℝ))))
              * Real.cos ((i : ℝ) * (2 * Real.pi / (M : ℝ))),
            tubeRadius * Real.sin ((j : ℝ) * (2 * Real.pi / (T : ℝ))),
            (torusRadius + tubeRadius * Real.cos ((j : ℝ) * (2 * Real.pi / (T : ℝ))))
              * Real.sin ((i : ℝ) * (2 * Real.pi / (M : ℝ)))⟩
    ∧ p ≠ ⟨0, 0, 0⟩
    ∧ 0 < Vec3.dot p p
    ∧ n = Vec3.normalize Real.sqrt p
    ∧ n.x ^ 2 + n.y ^ 2 + n.z ^ 2 = 1
    ∧ Real.sqrt (Vec3.dot n n) = 1

/-- The flat-panel contract: 36 vertices of eight floats drawn without an index array,
`nIndices = 36`, the normal of face `f` stored on the six vertices `6f .. 6f+5`, different
faces carrying different normals (so the normals take exactly six values), and every normal
one of the six axis-aligned unit vectors. -/
def PanelContract (m : TableMesh) : Prop :=
  m.vertices.length = 36 * 8 ∧ m.stride = 8 ∧ m.vertexCount = 36 ∧ m.nIndices = 36
    ∧ m.indices = []
    ∧ (∀ f k : Fin 6, m.normal (6 * f.val + k.val) = m.normal (6 * f.val))
    ∧ (∀ f g : Fin 6, f = g ∨ m.normal (6 * f.val) ≠ m.normal (6 * g.val))
    ∧ ((List.range 36).map m.normal).dedup.length = 6
    ∧ (∀ k : Fin 36, m.normal k.val ∈ axisUnits)

instance (m : TableMesh) : Decidable (PanelContract m) := by
  unfold PanelContract
  infer_instance

/-- Triangle `k` of a non-indexed mesh winds counter-clockwise seen from outside: the cross
product `(p1 - p0) x (p2 - p0)` is a positive multiple of the normal stored on its corners. -/
def WindsOutward (m : TableMesh) (k : Nat) : Prop :=
  m.normal (3 * k + 1) = m.normal (3 * k) ∧ m.normal (3 * k + 2) = m.normal (3 * k) ∧
    ∃ c : ℚ, 0 < c ∧ m.triangleCross k = Vec3.smul c (m.normal (3 * k))

/-- Triangle `k` of a non-indexed mesh winds clockwise seen from outside: the cross product
`(p1 - p0) x (p2 - p0)` is a negative multiple of the normal stored on its corners. -/
def WindsInward (m : TableMesh) (k : Nat) : Prop :=
  m.normal (3 * k + 1) = m.normal (3 * k) ∧ m.normal (3 * k + 2) = m.normal (3 * k) ∧
    ∃ c : ℚ, c < 0 ∧ m.triangleCross k = Vec3.smul c (m.normal (3 * k))

/-- The triangles of the front, left and bottom faces of a paper panel. -/
def outwardTriangles : List Nat := [0, 1, 4, 5, 10, 11]

/-- Decidable form of the winding of triangle `k`: the multiple is the dot product of the
cross product with the stored normal. -/
def windingCheck (m : TableMesh) (k : Nat) : Prop :=
  m.normal (3 * k + 1) = m.normal (3 * k) ∧ m.normal (3 * k + 2) = m.normal (3 * k) ∧
    m.triangleCross k
      = Vec3.smul (Vec3.dot (m.triangleCross k) (m.normal (3 * k))) (m.normal (3 * k)) ∧
    (if k ∈ outwardTriangles then 0 < Vec3.dot (m.triangleCross k) (m.normal (3 * k))
      else Vec3.dot (m.triangleCross k) (m.normal (3 * k)) < 0)

instance (m : TableMesh) (k : Nat) : Decidable (windingCheck m k) := by
  unfold windingCheck
  infer_instance

/-- Ring vertex `i` of a cone generated over the reals with `baseRadius = topRadius = r`: the
generator completes, and both the bottom ring vertex `i` and the top ring vertex `i + N + 1`
lie at distance exactly `r` from the Y axis. -/
def ConeRingRadius (r height : ℝ) (N i : Nat) : Prop :=
  ∃ m pb pt, createConeMesh Real.cos Real.sin Real.pi r r height N = .ok m
    ∧ m.position (i : Int) = some pb
    ∧ m.position ((i : Int) + (N : Int) + 1) = some pt
    ∧ Real.sqrt (pb.x ^ 2 + pb.z ^ 2) = r
    ∧ Real.sqrt (pt.x ^ 2 + pt.z ^ 2) = r

/-- The seam of a cone generated over the reals is closed by duplication: on the bottom
ring and on the top ring, vertex `N` has the position and the normal of vertex `0`, while
the texture coordinate `u` (float 6 of the vertex) is `1` on vertex `N` and `0` on
vertex `0`. -/
def ConeSeamClosed (baseRadius topRadius height : ℝ) (N : Nat) : Prop :=
  ∃ m, createConeMesh Real.cos Real.sin Real.pi baseRadius topRadius height N = .ok m
    ∧ m.position 0 = some ⟨baseRadius, -height / 2, 0⟩
    ∧ m.position (N : Int) = m.position 0
    ∧ m.normal 0 = some ⟨1, 0, 0⟩
    ∧ m.normal (N : Int) = m.normal 0
    ∧ m.vertices.read (0 * 8 + 6) = some 0
    ∧ m.vertices.read ((N : Int) * 8 + 6) = some 1
    ∧ m.position (0 + (N : Int) + 1) = some ⟨topRadius, height / 2, 0⟩
    ∧ m.position ((N : Int) + (N : Int) + 1) = m.position (0 + (N : Int) + 1)
    ∧ m.normal (0 + (N : Int) + 1) = some ⟨1, 0, 0⟩
    ∧ m.normal ((N : Int) + (N : Int) + 1) = m.normal (0 + (N : Int) + 1)
    ∧ m.vertices.read ((0 + (N : Int) + 1) * 8 + 6) = some 0
    ∧ m.vertices.read (((N : Int) + (N : Int) + 1) * 8 + 6) = some 1

/-- The torus generator run with a segment count of zero: it completes without error, with
nothing allocated, nothing stored and both cursors at zero. -/
def TorusEmpty {α : Type} [Field α] (cos sin sqrt : α → α) (pi torusRadius tubeRadius : α)
    (M T : Nat) : Prop :=
  ∃ m, createTorusMesh cos sin sqrt pi torusRadius tubeRadius M T = .ok m
    ∧ m.numVertices = 0 ∧ m.numIndices = 0
    ∧ m.vertices.size = 0 ∧ m.indices.size = 0
    ∧ m.vertices.writes = [] ∧ m.indices.writes = []
    ∧ m.vertexIndex = 0 ∧ m.indexIndex = 0 ∧ m.nIndices = 0

/-- The six index entries of cell `(i, j)` of the generated torus and the vertex they start
from: the generator completes; the positions `6(iT+j) .. 6(iT+j)+5` of the index array hold
`[a, b, c, c, b, d]` with `a = iT+j`, `b = iT+((j+1) mod T)`, `c = ((i+1) mod M)T+j`,
`d = ((i+1) mod M)T+((j+1) mod T)`; and vertex slot `a` holds the position and the texture
coordinates computed for `(i, j)`. -/
def TorusQuadIndices {α : Type} [Field α] (cos sin sqrt : α → α)
    (pi torusRadius tubeRadius : α) (M T i j : Nat) : Prop :=
  ∃ m, createTorusMesh cos sin sqrt pi torusRadius tubeRadius M T = .ok m
    ∧ m.indices.read (6 * ((i : Int) * (T : Int) + (j : Int)))
        = some ((i : Int) * (T : Int) + (j : Int))
    ∧ m.indices.read (6 * ((i : Int) * (T : Int) + (j : Int)) + 1)
        = some ((i : Int) * (T : Int) + ((j : Int) + 1) % (T : Int))
    ∧ m.indices.read (6 * ((i : Int) * (T : Int) + (j : Int)) + 2)
        = some (((i : Int) + 1) % (M : Int) * (T : Int) + (j : Int))
    ∧ m.indices.read (6 * ((i : Int) * (T : Int) + (j : Int)) + 3)
        = some (((i : Int) + 1) % (M : Int) * (T : Int) + (j : Int))
    ∧ m.indices.read (6 * ((i : Int) * (T : Int) + (j : Int)) + 4)
        = some ((i : Int) * (T : Int) + ((j : Int) + 1) % (T : Int))
    ∧ m.indices.read (6 * ((i : Int) * (T : Int) + (j : Int)) + 5)
        = some (((i : Int) + 1) % (M : Int) * (T : Int) + ((j : Int) + 1) % (T : Int))
    ∧ m.position ((i : Int) * (T : Int) + (j : Int))
        = some (torusPosition cos sin torusRadius tubeRadius
            (((i : Int) : α) * (2 * pi / ((M : Int) : α)))
            (((j : Int) : α) * (2 * pi / ((T : Int) : α))))
    ∧ m.vertices.read (((i : Int) * (T : Int) + (j : Int)) * 8 + 6)
        = some (((i : Int) : α) / ((M : Int) : α))
    ∧ m.vertices.read (((i : Int) * (T : Int) + (j : Int)) * 8 + 7)
        = some (((j : Int) : α) / ((T : Int) : α))

/-- The counts of the cone generator run in `int` with `N` segments: it completes; it
declares `2(N+1)+2` vertices and allocates eight floats for each; its index loop makes
`6N + 6N = 12N` stores, into the positions `0, 1, ..., 12N-1` in this order; and the final
write position is `numIndices = N*6 + N*3*2`, the value left in `mesh.nIndices`. -/
def ConeCounts32 {α : Type} [Field α] (cos sin : α → α) (pi baseRadius topRadius height : α)
    (N : Nat) : Prop :=
  ∃ m, createConeMesh32 cos sin pi baseRadius topRadius height N = .ok m
    ∧ m.numVertices = 2 * ((N : Int) + 1) + 2
    ∧ m.vertices.size = m.numVertices * 8
    ∧ m.indices.writes.length = 6 * N + 6 * N
    ∧ m.indices.writes.length = 12 * N
    ∧ (m.indices.writes.map Prod.fst).reverse
        = (List.range (12 * N)).map (fun k : Nat => (k : Int))
    ∧ m.numIndices = (N : Int) * 6 + (N : Int) * 3 * 2
    ∧ m.indices.size = m.numIndices
    ∧ m.index = m.numIndices
    ∧ m.nIndices = m.numIndices

/-- The index range of the cone generator run in `int` with `N` segments: it completes, and
every index it stores (side wall, bottom fan and top fan) is `>= 0` and strictly below the
vertex count `2(N+1)+2`; so are the two centre indices `numVertices - 2` and
`numVertices - 1`, and for `N >= 1` the centre index `numVertices - 1` is among the stored
ones. -/
def ConeIndicesInRange32 {α : Type} [Field α] (cos sin : α → α)
    (pi baseRadius topRadius height : α) (N : Nat) : Prop :=
  ∃ m, createConeMesh32 cos sin pi baseRadius topRadius height N = .ok m
    ∧ m.numVertices = 2 * ((N : Int) + 1) + 2
    ∧ (∀ w ∈ m.indices.writes, 0 ≤ w.2 ∧ w.2 < m.numVertices)
    ∧ (0 ≤ m.numVertices - 2 ∧ m.numVertices - 1 < m.numVertices)
    ∧ (1 ≤ N → ∃ w ∈ m.indices.writes, w.2 = m.numVertices - 1)

/-- The vertex stores of the cone generator run in `int` with `N` segments: it completes;
every float slot of the allocation of `8 * numVertices` floats is stored exactly once and no
slot outside it is stored; no store is out of bounds; every store goes to a bottom ring
vertex `0 .. N`, a top ring vertex `N+1 .. 2N+1` or one of the centres `numVertices - 2`,
`numVertices - 1`; and these are all the vertices `0 .. numVertices - 1`. -/
def ConeVerticesWrittenOnce32 {α : Type} [Field α] (cos sin : α → α)
    (pi baseRadius topRadius height : α) (N : Nat) : Prop :=
  ∃ m, createConeMesh32 cos sin pi baseRadius topRadius height N = .ok m
    ∧ m.numVertices = 2 * ((N : Int) + 1) + 2
    ∧ m.vertices.size = m.numVertices * 8
    ∧ (∀ s : Int, 0 ≤ s ∧ s < m.numVertices * 8 → m.vertices.storeCount s = 1)
    ∧ (∀ s : Int, s < 0 ∨ m.numVertices * 8 ≤ s → m.vertices.storeCount s = 0)
    ∧ (∀ w ∈ m.vertices.writes, 0 ≤ w.1 ∧ w.1 < m.vertices.size)
    ∧ (∀ w ∈ m.vertices.writes,
        (0 ≤ w.1 / 8 ∧ w.1 / 8 ≤ (N : Int))
        ∨ ((N : Int) + 1 ≤ w.1 / 8 ∧ w.1 / 8 ≤ (N : Int) + (N : Int) + 1)
        ∨ w.1 / 8 = m.numVertices - 2 ∨ w.1 / 8 = m.numVertices - 1)
    ∧ (∀ v : Int, 0 ≤ v ∧ v < m.numVertices →
        (0 ≤ v ∧ v ≤ (N : Int)) ∨ ((N : Int) + 1 ≤ v ∧ v ≤ (N : Int) + (N : Int) + 1)
        ∨ v = m.numVertices - 2 ∨ v = m.numVertices - 1)

/-- The counts of the torus generator run in `int` with `M` by `T` segments: it completes;
it stores `M*T` vertices of eight floats (the slots `0 .. 8*M*T - 1`, in this order) and
`6*M*T` index entries (the positions `0 .. 6*M*T - 1`, in this order), which are the
`numVertices` and `numIndices` it declared and allocated. -/
def TorusCounts32 {α : Type} [Field α] (cos sin sqrt : α → α) (pi torusRadius tubeRadius : α)
    (M T : Nat) : Prop :=
  ∃ m, createTorusMesh32 cos sin sqrt pi torusRadius tubeRadius M T = .ok m
    ∧ m.numVertices = (M : Int) * (T : Int)
    ∧ m.numIndices = 6 * (M : Int) * (T : Int)
    ∧ m.vertices.size = m.numVertices * 8
    ∧ m.indices.size = m.numIndices
    ∧ m.vertices.writes.length = 8 * (M * T)
    ∧ (m.vertices.writes.map Prod.fst).reverse
        = (List.range (8 * (M * T))).map (fun k : Nat => (k : Int))
    ∧ m.vertexIndex = 8 * m.numVertices
    ∧ m.indices.writes.length = 6 * (M * T)
    ∧ (m.indices.writes.map Prod.fst).reverse
        = (List.range (6 * (M * T))).map (fun k : Nat => (k : Int))
    ∧ m.indexIndex = m.numIndices
    ∧ m.nIndices = m.numIndices

/-- The counts of the handle (`M = 50`, `T = 20`): run in `int` the torus generator gives
what `UCreateHandleMesh` gives over exact integers, 1000 vertices and 6000 indices. -/
def HandleCounts32 {α : Type} [Field α] (cos sin sqrt : α → α) (pi : α) : Prop :=
  ∃ h, createTorusMesh32 cos sin sqrt pi 0.4 0.05 50 20 = .ok h
    ∧ UCreateHandleMesh cos sin sqrt pi = .ok h
    ∧ h.numVertices = 1000 ∧ h.numIndices = 6000
    ∧ h.vertices.writes.length = 8 * 1000 ∧ h.indices.writes.length = 6000
    ∧ h.vertexIndex = 8 * 1000 ∧ h.indexIndex = 6000 ∧ h.nIndices = 6000

/-- The index range of the torus generator run in `int` with `M` by `T` segments: it
completes, and every index it stores (`topLeft`, `topRight`, `bottomLeft`, `bottomRight` of
every cell) is `>= 0` and strictly below the vertex count `M*T`; and the last index stored,
`bottomRight` of the wrap-around corner `(M-1, T-1)`, is `0`. -/
def TorusIndicesInRange32 {α : Type} [Field α] (cos sin sqrt : α → α)
    (pi torusRadius tubeRadius : α) (M T : Nat) : Prop :=
  ∃ m, createTorusMesh32 cos sin sqrt pi torusRadius tubeRadius M T = .ok m
    ∧ m.numVertices = (M : Int) * (T : Int)
    ∧ (∀ w ∈ m.indices.writes, 0 ≤ w.2 ∧ w.2 < m.numVertices)
    ∧ ((6 * (M : Int) * (T : Int) - 1, (0 : Int)) ∈ m.indices.writes)

/-- The six index entries of cell `(i, j)` of the torus generated in `int` and the vertex
they start from: the generator completes; the positions `6(iT+j) .. 6(iT+j)+5` of the index
array hold `[a, b, c, c, b, d]` with `a = iT+j`, `b = iT+((j+1) mod T)`,
`c = ((i+1) mod M)T+j`, `d = ((i+1) mod M)T+((j+1) mod T)`; and vertex slot `a` holds the
position and the texture coordinates computed for `(i, j)`. -/
def TorusQuadIndices32 {α : Type} [Field α] (cos sin sqrt : α → α)
    (pi torusRadius tubeRadius : α) (M T i j : Nat) : Prop :=
  ∃ m, createTorusMesh32 cos sin sqrt pi torusRadius tubeRadius M T = .ok m
    ∧ m.indices.read (6 * ((i : Int) * (T : Int) + (j : Int)))
        = some ((i : Int) * (T : Int) + (j : Int))
    ∧ m.indices.read (6 * ((i : Int) * (T : Int) + (j : Int)) + 1)
        = some ((i : Int) * (T : Int) + ((j : Int) + 1) % (T : Int))
    ∧ m.indices.read (6 * ((i : Int) * (T : Int) + (j : Int)) + 2)
        = some (((i : Int) + 1) % (M : Int) * (T : Int) + (j : Int))
    ∧ m.indices.read (6 * ((i : Int) * (T : Int) + (j : Int)) + 3)
        = some (((i : Int) + 1) % (M : Int) * (T : Int) + (j : Int))
    ∧ m.indices.read (6 * ((i : Int) * (T : Int) + (j : Int)) + 4)
        = some ((i : Int) * (T : Int) + ((j : Int) + 1) % (T : Int))
    ∧ m.indices.read (6 * ((i : Int) * (T : Int) + (j : Int)) + 5)
        = some (((i : Int) + 1) % (M : Int) * (T : Int) + ((j : Int) + 1) % (T : Int))
    ∧ m.position ((i : Int) * (T : Int) + (j : Int))
        = some (torusPosition cos sin torusRadius tubeRadius
            (((i : Int) : α) * (2 * pi / ((M : Int) : α)))
            (((j : Int) : α) * (2 * pi / ((T : Int) : α))))
    ∧ m.vertices.read (((i : Int) * (T : Int) + (j : Int)) * 8 + 6)
        = some (((i : Int) : α) / ((M : Int) : α))
    ∧ m.vertices.read (((i : Int) * (T : Int) + (j : Int)) * 8 + 7)
        = some (((j : Int) : α) / ((T : Int) : α))

/-- The outward unit normal of the tube of a torus at the given angles, as the claim about
the stored normals writes it:
`(cos(tubeAngle) cos(torusAngle), sin(tubeAngle), cos(tubeAngle) sin(torusAngle))`. -/
def tubeNormal {α : Type} [Field α] (cos sin : α → α) (torusAngle tubeAngle : α) : Vec3 α :=
  ⟨cos tubeAngle * cos torusAngle, sin tubeAngle, cos tubeAngle * sin torusAngle⟩

/-- A scroll event leaves everything but `cameraSpeed` as it was: both cameras (the zoom
among their fields), the cursor reference, the flags and the times. -/
def ScrollKeepsCameras {α ρ : Type} (before after : AppState α ρ) : Prop :=
  after.camera = before.camera ∧ after.camera.Zoom = before.camera.Zoom
    ∧ after.birdEyeCamera = before.birdEyeCamera
    ∧ after.lastX = before.lastX ∧ after.lastY = before.lastY
    ∧ after.firstMouse = before.firstMouse
    ∧ after.birdEyeView = before.birdEyeView
    ∧ after.birdEyeKeyPressed = before.birdEyeKeyPressed
    ∧ after.deltaTime = before.deltaTime ∧ after.lastFrame = before.lastFrame
    ∧ after.windowShouldClose = before.windowShouldClose

/-- The first mouse event: the camera receives the offsets `(0, 0)`, the cursor reference is
the event's position, `firstMouse` is `false`, and nothing else changes. -/
def FirstMouseSeeded {α ρ μ : Type} [LinearOrderedField α] (cam : CameraMethods α ρ μ)
    (st : AppState α ρ) (xpos ypos : α) : Prop :=
  (mouse_callback cam st xpos ypos).camera = cam.ProcessMouseMovement st.camera 0 0
    ∧ (mouse_callback cam st xpos ypos).lastX = xpos
    ∧ (mouse_callback cam st xpos ypos).lastY = ypos
    ∧ (mouse_callback cam st xpos ypos).firstMouse = false
    ∧ (mouse_callback cam st xpos ypos).birdEyeCamera = st.birdEyeCamera
    ∧ (mouse_callback cam st xpos ypos).cameraSpeed = st.cameraSpeed
    ∧ (mouse_callback cam st xpos ypos).birdEyeView = st.birdEyeView

/-- A frame rendered in bird's-eye view: the view matrix handed to the shader is the one of
the bird's-eye camera after its `Position`, `Front` and `Up` were set to `(0, 10, 0)`,
`(0, -1, 0)` and `(0, 0, -1)` (its other members as the input step left them), that camera is
what the frame leaves in `birdEyeCamera`, and the first-person camera, from which the zoom
of the projection is taken, is as the input step left it. -/
def BirdsEyePinned {α ρ μ : Type} [LinearOrderedField α] (cam : CameraMethods α ρ μ)
    (currentFrame : α) (keys : KeyState) (st : AppState α ρ) : Prop :=
  (frame cam currentFrame keys st).2.view
      = cam.GetViewMatrix ⟨⟨0, 10, 0⟩, ⟨0, -1, 0⟩, ⟨0, 0, -1⟩,
          (processInput cam keys (timeStep currentFrame st)).birdEyeCamera.Zoom,
          (processInput cam keys (timeStep currentFrame st)).birdEyeCamera.rest⟩
    ∧ (frame cam currentFrame keys st).1.birdEyeCamera
      = ⟨⟨0, 10, 0⟩, ⟨0, -1, 0⟩, ⟨0, 0, -1⟩,
          (processInput cam keys (timeStep currentFrame st)).birdEyeCamera.Zoom,
          (processInput cam keys (timeStep currentFrame st)).birdEyeCamera.rest⟩
    ∧ (frame cam currentFrame keys st).1.camera
      = (processInput cam keys (timeStep currentFrame st)).camera
    ∧ (frame cam currentFrame keys st).2.zoom
      = (processInput cam keys (timeStep currentFrame st)).camera.Zoom
    ∧ (frame cam currentFrame keys st).1.birdEyeView = true

/-- A camera over the rationals at the position `Source.cpp` passes to the constructor,
`(0, 0, 3)`, looking along `-z` with `y` up and a zoom of 45 degrees; used to evaluate the
callbacks at a concrete state. -/
def sampleCamera : Camera ℚ Unit := ⟨⟨0, 0, 3⟩, ⟨0, 0, -1⟩, ⟨0, 1, 0⟩, 45, ()⟩

/-- Camera methods over the rationals that make their arguments visible: `ProcessKeyboard`
moves the position along `x` by the amount, `ProcessMouseMovement` adds the offsets to the
`x` and `y` of the front vector, `GetViewMatrix` returns position, front and up; used to
evaluate the callbacks at a concrete state. -/
def sampleMethods : CameraMethods ℚ Unit (Vec3 ℚ × Vec3 ℚ × Vec3 ℚ) :=
  { ProcessKeyboard := fun c _ amount =>
      { c with Position := ⟨c.Position.x + amount, c.Position.y, c.Position.z⟩ }
    ProcessMouseMovement := fun c dx dy =>
      { c with Front := ⟨c.Front.x + dx, c.Front.y + dy, c.Front.z⟩ }
    GetViewMatrix := fun c => (c.Position, c.Front, c.Up) }

/-- The keys `W` and `P` down, all others up. -/
def keysWP : KeyState :=
  { escape := false, w := true, s := false, a := false, d := false, p := true, q := false,
    e := false }

/-- A sequence of scroll events, each given by its `(xoffset, yoffset)`, delivered in order
to `scroll_callback`. -/
def scrollEvents {α ρ : Type} [LinearOrderedField α] (events : List (α × α))
    (st : AppState α ρ) : AppState α ρ :=
  events.foldl (fun s ev => scroll_callback s ev.1 ev.2) st

/-- A sequence of passes of the render loop, each given by its `glfwGetTime()` value and the
state of the keys, run in order. -/
def runFrames {α ρ μ : Type} [LinearOrderedField α] (cam : CameraMethods α ρ μ)
    (frames : List (α × KeyState)) (st : AppState α ρ) : AppState α ρ :=
  frames.foldl (fun s f => (frame cam f.1 f.2 s).1) st

/-- The number of passes of a sequence in which `birdEyeView` changes its value. -/
def viewFlips {α ρ μ : Type} [LinearOrderedField α] (cam : CameraMethods α ρ μ) :
    List (α × KeyState) → AppState α ρ → Nat
  | [], _ => 0
  | f :: fs, st =>
    (if (frame cam f.1 f.2 st).1.birdEyeView = st.birdEyeView then 0 else 1)
      + viewFlips cam fs (frame cam f.1 f.2 st).1

/-- The number of rising edges of a key: the entries of the sequence that are down (`true`)
while the entry before them, `previous` for the first one, is up. -/
def risingEdges : Bool → List Bool → Nat
  | _, [] => 0
  | previous, p :: ps => (if p = true ∧ previous = false then 1 else 0) + risingEdges p ps

/-- The calls `ProcessKeyboard(direction, amount)` that `processInput` makes for the keys
`W`, `S`, `A`, `D`, in order. -/
def wasdCalls {α : Type} [LinearOrderedField α] (keys : KeyState) (deltaTime cameraSpeed : α) :
    List (Camera_Movement × α) :=
  (if keys.w then [(Camera_Movement.FORWARD, deltaTime * cameraSpeed)] else [])
    ++ (if keys.s then [(Camera_Movement.BACKWARD, deltaTime * cameraSpeed)] else [])
    ++ (if keys.a then [(Camera_Movement.LEFT, deltaTime * cameraSpeed)] else [])
    ++ (if keys.d then [(Camera_Movement.RIGHT, deltaTime * cameraSpeed)] else [])

/-- The calls `ProcessKeyboard(direction, amount)` that `processInput` makes for the keys
`Q`, `E`, in order. -/
def qeCalls {α : Type} (keys : KeyState) (deltaTime : α) : List (Camera_Movement × α) :=
  (if keys.q then [(Camera_Movement.UP, deltaTime)] else [])
    ++ (if keys.e then [(Camera_Movement.DOWN, deltaTime)] else [])

/-- A camera after it received the given `ProcessKeyboard` calls in order. -/
def applyCalls {α ρ μ : Type} (cam : CameraMethods α ρ μ) (calls : List (Camera_Movement × α))
    (c : Camera α ρ) : Camera α ρ :=
  calls.foldl (fun c call => cam.ProcessKeyboard c call.1 call.2) c

/-! # Part II: theorems -/

/-! ## Execution lemmas -/

theorem ok_bind {σ τ : Type} (a : σ) (f : σ → Except String τ) :
    (Except.ok a >>= f) = f a := rfl

theorem forLoop_succ {σ : Type} (n : Nat) (body : Int → σ → Except String σ) (s : σ) :
    forLoop (n + 1) body s = (forLoop n body s >>= body (n : Int)) := rfl

theorem Buffer.store_ok {α : Type} (sz : Int) (ws : List (Int × α)) (k : Int) (v : α)
    (h0 : 0 ≤ k) (h1 : k < sz) :
    Buffer.store ⟨sz, ws⟩ k v = .ok ⟨sz, (k, v) :: ws⟩ := by
  simp [Buffer.store, h0, h1]

theorem IndexCursor.push_ok (sz : Int) (ws : List (Int × Int)) (idx v : Int)
    (h0 : 0 ≤ idx) (h1 : idx < sz) :
    IndexCursor.push ⟨⟨sz, ws⟩, idx⟩ v = .ok ⟨⟨sz, (idx, v) :: ws⟩, idx + 1⟩ := by
  simp [IndexCursor.push, Buffer.store_ok sz ws idx v h0 h1, ok_bind, pure, Except.pure]

/-! ## The cone generator runs to completion -/

section ConeLogs

variable {α : Type} [Field α] (cos sin : α → α) (pi : α)

theorem coneVertexBody_ok (baseRadius topRadius height : α) (N : Int) (i : Int)
    (sz : Int) (ws : List (Int × α)) (hi : 0 ≤ i) (hN : 0 ≤ N)
    (hsz : (i + N + 2) * 8 ≤ sz) :
    coneVertexBody cos sin pi baseRadius topRadius height N i ⟨sz, ws⟩
      = .ok ⟨sz, coneVertexEntries cos sin pi baseRadius topRadius height N i ++ ws⟩ := by
  simp (disch := omega) only [coneVertexBody, Buffer.store_ok, ok_bind, bind_pure_comp]
  rfl

theorem coneCenters_ok (height : α) (cb ct : Int) (sz : Int) (ws : List (Int × α))
    (hb : 0 ≤ cb) (ht : 0 ≤ ct) (hbs : (cb + 1) * 8 ≤ sz) (hts : (ct + 1) * 8 ≤ sz) :
    coneCenters height cb ct ⟨sz, ws⟩ = .ok ⟨sz, coneCenterEntries height cb ct ++ ws⟩ := by
  simp (disch := omega) only [coneCenters, Buffer.store_ok, ok_bind]
  rfl

theorem coneIndexBody_ok (N cb ct : Int) (i : Int) (sz : Int) (ws : List (Int × Int))
    (hi : 0 ≤ i) (hsz : 12 * i + 12 ≤ sz) :
    coneIndexBody N cb ct i ⟨⟨sz, ws⟩, 12 * i⟩
      = .ok ⟨⟨sz, coneIndexEntries N cb ct i ++ ws⟩, 12 * (i + 1)⟩ := by
  simp (disch := omega) only [coneIndexBody, IndexCursor.push_ok, ok_bind, add_assoc]
  simp [coneIndexEntries, add_assoc]
  omega

theorem coneVertexLoop_ok (baseRadius topRadius height : α) (N : Nat) (sz : Int) (n : Nat)
    (hn : n ≤ N + 1) (hsz : (2 * (N : Int) + 2) * 8 ≤ sz) :
    forLoop n (coneVertexBody cos sin pi baseRadius topRadius height (N : Int)) ⟨sz, []⟩
      = .ok ⟨sz, coneVertexLog cos sin pi baseRadius topRadius height (N : Int) n⟩ := by
  induction n with
  | zero => rfl
  | succ k ih =>
    rw [forLoop_succ, ih (by omega), ok_bind,
      coneVertexBody_ok cos sin pi baseRadius topRadius height (N : Int) (k : Int) sz _
        (by omega) (by omega) (by omega)]
    rfl

theorem coneIndexLoop_ok (N cb ct : Int) (sz : Int) (n : Nat) (hsz : 12 * (n : Int) ≤ sz) :
    forLoop n (coneIndexBody N cb ct) ⟨⟨sz, []⟩, 0⟩
      = .ok ⟨⟨sz, coneIndexLog N cb ct n⟩, 12 * (n : Int)⟩ := by
  induction n with
  | zero => rfl
  | succ k ih =>
    rw [forLoop_succ, ih (by omega), ok_bind,
      coneIndexBody_ok N cb ct (k : Int) sz _ (by omega) (by omega)]
    simp [coneIndexLog]

/-- The cone generator runs to completion for every segment count, and what it builds is
given by the closed-form store logs. -/
theorem createConeMesh_eq (baseRadius topRadius height : α) (N : Nat) :
    createConeMesh cos sin pi baseRadius topRadius height N
      = .ok (coneMeshOf cos sin pi baseRadius topRadius height N) := by
  unfold createConeMesh
  simp only [Buffer.alloc]
  rw [coneVertexLoop_ok cos sin pi baseRadius topRadius height N _ (N + 1) (le_refl _)
      (by omega), ok_bind,
    coneCenters_ok height _ _ _ _ (by omega) (by omega) (by omega) (by omega), ok_bind,
    coneIndexLoop_ok (N : Int) _ _ _ N (by omega), ok_bind]
  rfl

theorem coneIndexLog_length (N cb ct : Int) (n : Nat) :
    (coneIndexLog N cb ct n).length = 12 * n := by
  induction n with
  | zero => rfl
  | succ k ih => simp [coneIndexLog, coneIndexEntries, ih]; omega

theorem coneIndexLog_slots (N cb ct : Int) (n : Nat) :
    (coneIndexLog N cb ct n).map Prod.fst
      = ((List.range (12 * n)).map (fun k : Nat => (k : Int))).reverse := by
  induction n with
  | zero => rfl
  | succ k ih =>
    have h : 12 * (k + 1) = 12 * k + 1 + 1 + 1 + 1 + 1 + 1 + 1 + 1 + 1 + 1 + 1 + 1 := by ring
    rw [h]
    simp only [List.range_succ, coneIndexLog, coneIndexEntries, List.map_append, List.map_cons,
      List.map_nil, List.reverse_append, List.reverse_cons, List.reverse_nil, List.nil_append,
      List.cons_append, List.append_assoc, ih]
    simp [add_assoc]

theorem coneIndexLog_mem (N cb ct : Int) (n : Nat) (w : Int × Int)
    (hw : w ∈ coneIndexLog N cb ct n) :
    ∃ i : Nat, i < n ∧ w ∈ coneIndexEntries N cb ct (i : Int) := by
  induction n with
  | zero => simp [coneIndexLog] at hw
  | succ k ih =>
    simp only [coneIndexLog, List.mem_append] at hw
    rcases hw with h | h
    · exact ⟨k, by omega, h⟩
    · obtain ⟨i, hi, hmem⟩ := ih h
      exact ⟨i, by omega, hmem⟩

theorem coneIndexEntries_bound (N : Nat) (i : Nat) (hi : i < N) (w : Int × Int)
    (hw : w ∈ coneIndexEntries (N : Int) (((N : Int) + 1) * 2 + 2 - 2)
      (((N : Int) + 1) * 2 + 2 - 1) (i : Int)) :
    0 ≤ w.2 ∧ w.2 < ((N : Int) + 1) * 2 + 2 := by
  simp only [coneIndexEntries, List.mem_cons, List.mem_singleton, List.mem_nil_iff,
    or_false] at hw
  rcases hw with h | h | h | h | h | h | h | h | h | h | h | h <;>
    (subst h; constructor <;> simp only <;> omega)

end ConeLogs

/-! ## Reading the arrays of the cone generator -/

theorem Buffer.lookup_cons {β : Type} (k' : Int) (v : β) (ws : List (Int × β)) (k : Int) :
    Buffer.lookup ((k', v) :: ws) k = if k = k' then some v else Buffer.lookup ws k := rfl

theorem Buffer.lookup_cons_ne {β : Type} (k' : Int) (v : β) (ws : List (Int × β)) (k : Int)
    (h : k ≠ k') : Buffer.lookup ((k', v) :: ws) k = Buffer.lookup ws k := by
  rw [Buffer.lookup_cons, if_neg h]

theorem Buffer.lookup_cons_eq {β : Type} (k' : Int) (v : β) (ws : List (Int × β)) (k : Int)
    (h : k = k') : Buffer.lookup ((k', v) :: ws) k = some v := by
  rw [Buffer.lookup_cons, if_pos h]

section ConeReads

variable {α : Type} [Field α] (cos sin : α → α) (pi : α)

/-- A slot outside the two vertices written by run `n` of the vertex loop is not touched by
that run. -/
theorem coneVertexEntries_skip (baseRadius topRadius height : α) (N n s : Int)
    (rest : List (Int × α)) (hN : 0 ≤ N)
    (h : s < n * 8 ∨ (n * 8 + 8 ≤ s ∧ s < (n + N + 1) * 8) ∨ (n + N + 1) * 8 + 8 ≤ s) :
    Buffer.lookup (coneVertexEntries cos sin pi baseRadius topRadius height N n ++ rest) s
      = Buffer.lookup rest s := by
  simp (disch := omega) only [coneVertexEntries, List.cons_append, List.nil_append,
    Buffer.lookup_cons_ne]

/-- A slot of the two vertices written by run `n` of the vertex loop holds what that run
stored, whatever was stored before. -/
theorem coneVertexEntries_hit (baseRadius topRadius height : α) (N n s : Int)
    (rest : List (Int × α)) (hN : 0 ≤ N)
    (h : (n * 8 ≤ s ∧ s < n * 8 + 8) ∨ ((n + N + 1) * 8 ≤ s ∧ s < (n + N + 1) * 8 + 8)) :
    Buffer.lookup (coneVertexEntries cos sin pi baseRadius topRadius height N n ++ rest) s
      = Buffer.lookup (coneVertexEntries cos sin pi baseRadius topRadius height N n) s := by
  have hs : s = n * 8 ∨ s = n * 8 + 1 ∨ s = n * 8 + 2 ∨ s = n * 8 + 3 ∨ s = n * 8 + 4
      ∨ s = n * 8 + 5 ∨ s = n * 8 + 6 ∨ s = n * 8 + 7
      ∨ s = (n + N + 1) * 8 ∨ s = (n + N + 1) * 8 + 1 ∨ s = (n + N + 1) * 8 + 2
      ∨ s = (n + N + 1) * 8 + 3 ∨ s = (n + N + 1) * 8 + 4 ∨ s = (n + N + 1) * 8 + 5
      ∨ s = (n + N + 1) * 8 + 6 ∨ s = (n + N + 1) * 8 + 7 := by omega
  rcases hs with h | h | h | h | h | h | h | h | h | h | h | h | h | h | h | h <;> subst h <;>
    simp (disch := omega) only [coneVertexEntries, List.cons_append, List.nil_append,
      Buffer.lookup_cons_ne, Buffer.lookup_cons_eq]

/-- After `n` runs of the vertex loop, the slots of the ring vertices `i` and `i + N + 1`
with `i < n` hold what run `i` stored. -/
theorem coneVertexLog_lookup (baseRadius topRadius height : α) (N : Nat) (n i : Nat) (s : Int)
    (hn : n ≤ N + 1) (hi : i < n)
    (h : ((i : Int) * 8 ≤ s ∧ s < (i : Int) * 8 + 8)
      ∨ (((i : Int) + (N : Int) + 1) * 8 ≤ s ∧ s < ((i : Int) + (N : Int) + 1) * 8 + 8)) :
    Buffer.lookup (coneVertexLog cos sin pi baseRadius topRadius height (N : Int) n) s
      = Buffer.lookup
          (coneVertexEntries cos sin pi baseRadius topRadius height (N : Int) (i : Int)) s := by
  induction n with
  | zero => omega
  | succ k ih =>
    simp only [coneVertexLog]
    by_cases hik : i = k
    · subst hik
      exact coneVertexEntries_hit cos sin pi baseRadius topRadius height _ _ s _ (by omega) h
    · rw [coneVertexEntries_skip cos sin pi baseRadius topRadius height _ _ s _ (by omega)
        (by omega)]
      exact ih (by omega) (by omega)

/-- The centre stores do not touch the slots of the ring vertices. -/
theorem coneCenterEntries_skip (height : α) (cb ct s : Int) (rest : List (Int × α))
    (h : s < cb * 8 ∧ s < ct * 8) :
    Buffer.lookup (coneCenterEntries height cb ct ++ rest) s = Buffer.lookup rest s := by
  simp (disch := omega) only [coneCenterEntries, List.cons_append, List.nil_append,
    Buffer.lookup_cons_ne]

/-- A slot outside the twelve positions written by run `n` of the index loop is not touched
by that run. -/
theorem coneIndexEntries_skip (N cb ct n s : Int) (rest : List (Int × Int))
    (h : s < 12 * n ∨ 12 * n + 12 ≤ s) :
    Buffer.lookup (coneIndexEntries N cb ct n ++ rest) s = Buffer.lookup rest s := by
  simp (disch := omega) only [coneIndexEntries, List.cons_append, List.nil_append,
    Buffer.lookup_cons_ne]

theorem coneIndexEntries_hit (N cb ct n s : Int) (rest : List (Int × Int))
    (h : 12 * n ≤ s ∧ s < 12 * n + 12) :
    Buffer.lookup (coneIndexEntries N cb ct n ++ rest) s
      = Buffer.lookup (coneIndexEntries N cb ct n) s := by
  have hs : s = 12 * n ∨ s = 12 * n + 1 ∨ s = 12 * n + 2 ∨ s = 12 * n + 3 ∨ s = 12 * n + 4
      ∨ s = 12 * n + 5 ∨ s = 12 * n + 6 ∨ s = 12 * n + 7 ∨ s = 12 * n + 8 ∨ s = 12 * n + 9
      ∨ s = 12 * n + 10 ∨ s = 12 * n + 11 := by omega
  rcases hs with h | h | h | h | h | h | h | h | h | h | h | h <;> subst h <;>
    simp (disch := omega) only [coneIndexEntries, List.cons_append, List.nil_append,
      Buffer.lookup_cons_ne, Buffer.lookup_cons_eq]

/-- After `n` runs of the index loop, the twelve positions of run `i < n` hold what that run
stored. -/
theorem coneIndexLog_lookup (N cb ct : Int) (n i : Nat) (s : Int) (hi : i < n)
    (h : 12 * (i : Int) ≤ s ∧ s < 12 * (i : Int) + 12) :
    Buffer.lookup (coneIndexLog N cb ct n) s
      = Buffer.lookup (coneIndexEntries N cb ct (i : Int)) s := by
  induction n with
  | zero => omega
  | succ k ih =>
    simp only [coneIndexLog]
    by_cases hik : i = k
    · subst hik
      exact coneIndexEntries_hit _ _ _ _ s _ h
    · rw [coneIndexEntries_skip _ _ _ _ s _ (by omega)]
      exact ih (by omega)

/-- In the finished vertex array, the slots of the ring vertices `i` and `i + N + 1` hold
what run `i` of the vertex loop stored. -/
theorem coneVertices_lookup (baseRadius topRadius height : α) (N i : Nat) (cb ct s : Int)
    (hi : i ≤ N) (hcb : 2 * (N : Int) + 2 ≤ cb) (hct : 2 * (N : Int) + 2 ≤ ct)
    (h : ((i : Int) * 8 ≤ s ∧ s < (i : Int) * 8 + 8)
      ∨ (((i : Int) + (N : Int) + 1) * 8 ≤ s ∧ s < ((i : Int) + (N : Int) + 1) * 8 + 8)) :
    Buffer.lookup (coneCenterEntries height cb ct
        ++ coneVertexLog cos sin pi baseRadius topRadius height (N : Int) (N + 1)) s
      = Buffer.lookup
          (coneVertexEntries cos sin pi baseRadius topRadius height (N : Int) (i : Int)) s := by
  rw [coneCenterEntries_skip height cb ct s _ (by omega)]
  exact coneVertexLog_lookup cos sin pi baseRadius topRadius height N (N + 1) i s (le_refl _)
    (by omega) h

/-- The position stored for the bottom ring vertex `i`. -/
theorem coneMesh_position_bottom (baseRadius topRadius height : α) (N i : Nat) (hi : i ≤ N) :
    (coneMeshOf cos sin pi baseRadius topRadius height N).position (i : Int)
      = some ⟨cos (2 * pi * ((i : Int) : α) / ((N : Int) : α)) * baseRadius, -height / 2,
          sin (2 * pi * ((i : Int) : α) / ((N : Int) : α)) * baseRadius⟩ := by
  simp only [ConeMesh.position, coneMeshOf, coneVertexBuffer, Buffer.readVec3, Buffer.read]
  rw [coneVertices_lookup cos sin pi baseRadius topRadius height N i _ _ _ hi (by omega)
      (by omega) (by omega),
    coneVertices_lookup cos sin pi baseRadius topRadius height N i _ _ _ hi (by omega)
      (by omega) (by omega),
    coneVertices_lookup cos sin pi baseRadius topRadius height N i _ _ _ hi (by omega)
      (by omega) (by omega)]
  simp (disch := omega) only [coneVertexEntries, Buffer.lookup_cons_ne, Buffer.lookup_cons_eq]
  rfl

/-- The normal and the texture coordinate `u` stored for the bottom ring vertex `i`. -/
theorem coneMesh_normal_bottom (baseRadius topRadius height : α) (N i : Nat) (hi : i ≤ N) :
    (coneMeshOf cos sin pi baseRadius topRadius height N).normal (i : Int)
        = some ⟨cos (2 * pi * ((i : Int) : α) / ((N : Int) : α)), 0,
            sin (2 * pi * ((i : Int) : α) / ((N : Int) : α))⟩
      ∧ (coneMeshOf cos sin pi baseRadius topRadius height N).vertices.read ((i : Int) * 8 + 6)
        = some (((i : Int) : α) / ((N : Int) : α)) := by
  simp only [ConeMesh.normal, coneMeshOf, coneVertexBuffer, Buffer.readVec3, Buffer.read]
  rw [coneVertices_lookup cos sin pi baseRadius topRadius height N i _ _ _ hi (by omega)
      (by omega) (by omega),
    coneVertices_lookup cos sin pi baseRadius topRadius height N i _ _ _ hi (by omega)
      (by omega) (by omega),
    coneVertices_lookup cos sin pi baseRadius topRadius height N i _ _ _ hi (by omega)
      (by omega) (by omega),
    coneVertices_lookup cos sin pi baseRadius topRadius height N i _ _ _ hi (by omega)
      (by omega) (by omega)]
  simp (disch := omega) only [coneVertexEntries, Buffer.lookup_cons_ne, Buffer.lookup_cons_eq]
  exact ⟨rfl, trivial⟩

/-- The position stored for the top ring vertex `i + N + 1`. -/
theorem coneMesh_position_top (baseRadius topRadius height : α) (N i : Nat) (hi : i ≤ N) :
    (coneMeshOf cos sin pi baseRadius topRadius height N).position ((i : Int) + (N : Int) + 1)
      = some ⟨cos (2 * pi * ((i : Int) : α) / ((N : Int) : α)) * topRadius, height / 2,
          sin (2 * pi * ((i : Int) : α) / ((N : Int) : α)) * topRadius⟩ := by
  simp only [ConeMesh.position, coneMeshOf, coneVertexBuffer, Buffer.readVec3, Buffer.read]
  rw [coneVertices_lookup cos sin pi baseRadius topRadius height N i _ _ _ hi (by omega)
      (by omega) (by omega),
    coneVertices_lookup cos sin pi baseRadius topRadius height N i _ _ _ hi (by omega)
      (by omega) (by omega),
    coneVertices_lookup cos sin pi baseRadius topRadius height N i _ _ _ hi (by omega)
      (by omega) (by omega)]
  simp (disch := omega) only [coneVertexEntries, Buffer.lookup_cons_ne, Buffer.lookup_cons_eq]
  rfl

/-- The normal and the texture coordinate `u` stored for the top ring vertex `i + N + 1`. -/
theorem coneMesh_normal_top (baseRadius topRadius height : α) (N i : Nat) (hi : i ≤ N) :
    (coneMeshOf cos sin pi baseRadius topRadius height N).normal ((i : Int) + (N : Int) + 1)
        = some ⟨cos (2 * pi * ((i : Int) : α) / ((N : Int) : α)), 0,
            sin (2 * pi * ((i : Int) : α) / ((N : Int) : α))⟩
      ∧ (coneMeshOf cos sin pi baseRadius topRadius height N).vertices.read
          (((i : Int) + (N : Int) + 1) * 8 + 6)
        = some (((i : Int) : α) / ((N : Int) : α)) := by
  simp only [ConeMesh.normal, coneMeshOf, coneVertexBuffer, Buffer.readVec3, Buffer.read]
  rw [coneVertices_lookup cos sin pi baseRadius topRadius height N i _ _ _ hi (by omega)
      (by omega) (by omega),
    coneVertices_lookup cos sin pi baseRadius topRadius height N i _ _ _ hi (by omega)
      (by omega) (by omega),
    coneVertices_lookup cos sin pi baseRadius topRadius height N i _ _ _ hi (by omega)
      (by omega) (by omega),
    coneVertices_lookup cos sin pi baseRadius topRadius height N i _ _ _ hi (by omega)
      (by omega) (by omega)]
  simp (disch := omega) only [coneVertexEntries, Buffer.lookup_cons_ne, Buffer.lookup_cons_eq]
  exact ⟨rfl, trivial⟩

/-- The position and the normal stored for the two centre vertices. -/
theorem coneMesh_centers (baseRadius topRadius height : α) (N : Nat) :
    (coneMeshOf cos sin pi baseRadius topRadius height N).position (((N : Int) + 1) * 2 + 2 - 2)
        = some ⟨0, -height / 2, 0⟩
      ∧ (coneMeshOf cos sin pi baseRadius topRadius height N).normal
          (((N : Int) + 1) * 2 + 2 - 2) = some ⟨0, -1, 0⟩
      ∧ (coneMeshOf cos sin pi baseRadius topRadius height N).position
          (((N : Int) + 1) * 2 + 2 - 1) = some ⟨0, height / 2, 0⟩
      ∧ (coneMeshOf cos sin pi baseRadius topRadius height N).normal
          (((N : Int) + 1) * 2 + 2 - 1) = some ⟨0, 1, 0⟩ := by
  simp only [ConeMesh.position, ConeMesh.normal, coneMeshOf, coneVertexBuffer,
    Buffer.readVec3, Buffer.read]
  simp (disch := omega) only [coneCenterEntries, List.cons_append, List.nil_append,
    Buffer.lookup_cons_ne, Buffer.lookup_cons_eq]
  exact ⟨rfl, rfl, rfl, rfl⟩

/-- The six cap indices stored by run `i` of the index loop. -/
theorem coneMesh_cap_indices (baseRadius topRadius height : α) (N i : Nat) (hi : i < N) :
    (coneMeshOf cos sin pi baseRadius topRadius height N).indices.read (12 * (i : Int) + 6)
        = some (((N : Int) + 1) * 2 + 2 - 2)
      ∧ (coneMeshOf cos sin pi baseRadius topRadius height N).indices.read
          (12 * (i : Int) + 6 + 1) = some (i : Int)
      ∧ (coneMeshOf cos sin pi baseRadius topRadius height N).indices.read
          (12 * (i : Int) + 6 + 2) = some ((i : Int) + 1)
      ∧ (coneMeshOf cos sin pi baseRadius topRadius height N).indices.read (12 * (i : Int) + 9)
          = some (((N : Int) + 1) * 2 + 2 - 1)
      ∧ (coneMeshOf cos sin pi baseRadius topRadius height N).indices.read
          (12 * (i : Int) + 9 + 1) = some ((i : Int) + (N : Int) + 2)
      ∧ (coneMeshOf cos sin pi baseRadius topRadius height N).indices.read
          (12 * (i : Int) + 9 + 2) = some ((i : Int) + (N : Int) + 1) := by
  simp only [coneMeshOf, coneIndexBuffer, Buffer.read]
  rw [coneIndexLog_lookup _ _ _ N i _ hi (by omega),
    coneIndexLog_lookup _ _ _ N i _ hi (by omega),
    coneIndexLog_lookup _ _ _ N i _ hi (by omega),
    coneIndexLog_lookup _ _ _ N i _ hi (by omega),
    coneIndexLog_lookup _ _ _ N i _ hi (by omega),
    coneIndexLog_lookup _ _ _ N i _ hi (by omega)]
  simp (disch := omega) only [coneIndexEntries, Buffer.lookup_cons_ne, Buffer.lookup_cons_eq]
  refine ⟨?_, ?_, ?_, ?_, ?_, ?_⟩ <;> trivial

end ConeReads

/-! ## The torus generator runs to completion -/

theorem cmod_ok (a b : Int) (hb : b ≠ 0) : cmod a b = .ok (Int.tmod a b) := by
  simp [cmod, hb]

section TorusLogs

variable {α : Type} [Field α] (cos sin sqrt : α → α) (pi : α)

theorem torusInnerBody_ok (torusRadius tubeRadius : α) (M T : Int)
    (tubeAngleStep torusAngle : α) (i j : Int) (szv szi vi ii : Int)
    (wv : List (Int × α)) (wi : List (Int × Int)) (hM : M ≠ 0) (hT : T ≠ 0)
    (hv0 : 0 ≤ vi) (hv1 : vi + 8 ≤ szv) (hi0 : 0 ≤ ii) (hi1 : ii + 6 ≤ szi) :
    torusInnerBody cos sin sqrt torusRadius tubeRadius M T tubeAngleStep torusAngle i j
        ⟨⟨szv, wv⟩, ⟨szi, wi⟩, vi, ii⟩
      = .ok ⟨⟨szv, torusVertexEntries cos sin sqrt torusRadius tubeRadius M T tubeAngleStep
                torusAngle i j vi ++ wv⟩,
             ⟨szi, torusIndexEntries M T i j ii ++ wi⟩, vi + 8, ii + 6⟩ := by
  simp (disch := omega) only [torusInnerBody, Buffer.store_ok, IndexCursor.push_ok, ok_bind,
    cmod_ok, add_assoc]
  simp [torusVertexEntries, torusIndexEntries, pure, Except.pure, add_assoc]

theorem torusInnerLoop_ok (torusRadius tubeRadius : α) (M T : Int)
    (tubeAngleStep torusAngle : α) (i : Int) (szv szi : Int)
    (wv : List (Int × α)) (wi : List (Int × Int)) (n : Nat) (hM : M ≠ 0) (hn : (n : Int) ≤ T)
    (hb : 0 ≤ i * T) (hv : 8 * (i * T + T) ≤ szv) (hi : 6 * (i * T + T) ≤ szi) :
    forLoop n (torusInnerBody cos sin sqrt torusRadius tubeRadius M T tubeAngleStep
        torusAngle i) ⟨⟨szv, wv⟩, ⟨szi, wi⟩, 8 * (i * T), 6 * (i * T)⟩
      = .ok ⟨⟨szv, torusRowVertexLog cos sin sqrt torusRadius tubeRadius M T tubeAngleStep
                torusAngle i n ++ wv⟩,
             ⟨szi, torusRowIndexLog M T i n ++ wi⟩,
             8 * (i * T + (n : Int)), 6 * (i * T + (n : Int))⟩ := by
  induction n with
  | zero => simp [forLoop, torusRowVertexLog, torusRowIndexLog]
  | succ k ih =>
    rw [forLoop_succ, ih (by omega), ok_bind,
      torusInnerBody_ok cos sin sqrt torusRadius tubeRadius M T tubeAngleStep torusAngle i
        (k : Int) szv szi _ _ _ _ hM (by omega) (by omega) (by omega) (by omega) (by omega)]
    simp only [torusRowVertexLog, torusRowIndexLog, List.append_assoc]
    congr 2 <;> push_cast <;> ring

theorem torusOuterLoop_ok (torusRadius tubeRadius : α) (M T : Nat) (szv szi : Int)
    (m : Nat) (hm : m ≤ M) (hv : 8 * ((M : Int) * (T : Int)) ≤ szv)
    (hi : 6 * ((M : Int) * (T : Int)) ≤ szi) :
    forLoop m (torusOuterBody cos sin sqrt torusRadius tubeRadius M T
        (2 * pi / ((M : Int) : α)) (2 * pi / ((T : Int) : α))) ⟨⟨szv, []⟩, ⟨szi, []⟩, 0, 0⟩
      = .ok ⟨⟨szv, torusVertexLog cos sin sqrt pi torusRadius tubeRadius M T m⟩,
             ⟨szi, torusIndexLog M T m⟩,
             8 * ((m : Int) * (T : Int)), 6 * ((m : Int) * (T : Int))⟩ := by
  induction m with
  | zero => simp [forLoop, torusVertexLog, torusIndexLog]
  | succ k ih =>
    have hk : ((k : Int) + 1) * (T : Int) ≤ (M : Int) * (T : Int) :=
      mul_le_mul_of_nonneg_right (by omega) (by omega)
    have hk0 : 0 ≤ (k : Int) * (T : Int) := mul_nonneg (by omega) (by omega)
    have hk1 : ((k : Int) + 1) * (T : Int) = (k : Int) * (T : Int) + (T : Int) := by ring
    rw [forLoop_succ, ih (by omega), ok_bind]
    unfold torusOuterBody
    rw [torusInnerLoop_ok cos sin sqrt torusRadius tubeRadius (M : Int) (T : Int) _ _ (k : Int)
      szv szi _ _ T (by omega) (le_refl _) hk0 (by omega) (by omega)]
    simp only [torusVertexLog, torusIndexLog]
    congr 2 <;> push_cast <;> ring

/-- The torus generator runs to completion for all segment counts, and what it builds is
given by the closed-form store logs. -/
theorem createTorusMesh_eq (torusRadius tubeRadius : α) (M T : Nat) :
    createTorusMesh cos sin sqrt pi torusRadius tubeRadius M T
      = .ok (torusMeshOf cos sin sqrt pi torusRadius tubeRadius M T) := by
  unfold createTorusMesh
  simp only [Buffer.alloc]
  rw [torusOuterLoop_ok cos sin sqrt pi torusRadius tubeRadius M T _ _ M (le_refl _)
    (by omega) (by omega), ok_bind]
  rfl

theorem slotsFrom_add (a : Int) (n k : Nat) :
    slotsFrom a (n + k) = slotsFrom a n ++ slotsFrom (a + (n : Int)) k := by
  simp [slotsFrom, List.range_add, add_assoc]

theorem slotsFrom_zero (n : Nat) :
    slotsFrom 0 n = (List.range n).map (fun k : Nat => (k : Int)) := by
  simp [slotsFrom]

theorem torusRowVertexLog_slots (torusRadius tubeRadius : α) (M T : Int)
    (tubeAngleStep torusAngle : α) (i : Int) (n : Nat) :
    ((torusRowVertexLog cos sin sqrt torusRadius tubeRadius M T tubeAngleStep torusAngle i
        n).map Prod.fst).reverse = slotsFrom (8 * (i * T)) (8 * n) := by
  induction n with
  | zero => rfl
  | succ k ih =>
    have h : 8 * (k + 1) = 8 * k + 8 := by ring
    rw [h, slotsFrom_add, ← ih]
    simp [torusRowVertexLog, torusVertexEntries, slotsFrom, List.range_succ]
    ring

theorem torusRowIndexLog_slots (M T : Int) (i : Int) (n : Nat) :
    ((torusRowIndexLog M T i n).map Prod.fst).reverse = slotsFrom (6 * (i * T)) (6 * n) := by
  induction n with
  | zero => rfl
  | succ k ih =>
    have h : 6 * (k + 1) = 6 * k + 6 := by ring
    rw [h, slotsFrom_add, ← ih]
    simp [torusRowIndexLog, torusIndexEntries, slotsFrom, List.range_succ]
    ring

theorem torusVertexLog_slots (torusRadius tubeRadius : α) (M T : Nat) (m : Nat) :
    ((torusVertexLog cos sin sqrt pi torusRadius tubeRadius M T m).map Prod.fst).reverse
      = slotsFrom 0 (8 * (m * T)) := by
  induction m with
  | zero => simp [torusVertexLog, slotsFrom]
  | succ k ih =>
    have h : 8 * ((k + 1) * T) = 8 * (k * T) + 8 * T := by ring
    rw [h, slotsFrom_add, ← ih]
    simp only [torusVertexLog, List.map_append, List.reverse_append, torusRowVertexLog_slots]
    congr 2
    push_cast; ring

theorem torusIndexLog_slots (M T : Nat) (m : Nat) :
    ((torusIndexLog M T m).map Prod.fst).reverse = slotsFrom 0 (6 * (m * T)) := by
  induction m with
  | zero => simp [torusIndexLog, slotsFrom]
  | succ k ih =>
    have h : 6 * ((k + 1) * T) = 6 * (k * T) + 6 * T := by ring
    rw [h, slotsFrom_add, ← ih]
    simp only [torusIndexLog, List.map_append, List.reverse_append, torusRowIndexLog_slots]
    congr 2
    push_cast; ring

theorem slots_length {β : Type} (ws : List (Int × β)) (a : Int) (n : Nat)
    (h : (ws.map Prod.fst).reverse = slotsFrom a n) : ws.length = n := by
  have := congrArg List.length h
  simpa [slotsFrom] using this

theorem torusRowIndexLog_mem (M T : Int) (i : Int) (n : Nat) (w : Int × Int)
    (hw : w ∈ torusRowIndexLog M T i n) :
    ∃ j : Nat, j < n ∧ w ∈ torusIndexEntries M T i (j : Int) (6 * (i * T + (j : Int))) := by
  induction n with
  | zero => simp [torusRowIndexLog] at hw
  | succ k ih =>
    simp only [torusRowIndexLog, List.mem_append] at hw
    rcases hw with h | h
    · exact ⟨k, by omega, h⟩
    · obtain ⟨j, hj, hmem⟩ := ih h
      exact ⟨j, by omega, hmem⟩

theorem torusIndexLog_mem (M T : Nat) (m : Nat) (w : Int × Int)
    (hw : w ∈ torusIndexLog M T m) :
    ∃ i j : Nat, i < m ∧ j < T ∧
      w ∈ torusIndexEntries (M : Int) (T : Int) (i : Int) (j : Int)
        (6 * ((i : Int) * (T : Int) + (j : Int))) := by
  induction m with
  | zero => simp [torusIndexLog] at hw
  | succ k ih =>
    simp only [torusIndexLog, List.mem_append] at hw
    rcases hw with h | h
    · obtain ⟨j, hj, hmem⟩ := torusRowIndexLog_mem _ _ _ _ w h
      exact ⟨k, j, by omega, hj, hmem⟩
    · obtain ⟨i, j, hi, hj, hmem⟩ := ih h
      exact ⟨i, j, by omega, hj, hmem⟩

/-- A cell `(x, y)` of an `M × T` grid has row-major number `x * T + y` in `[0, M * T)`. -/
theorem grid_slot_bound (x y M T : Int) (hx0 : 0 ≤ x) (hx : x < M) (hy0 : 0 ≤ y) (hy : y < T) :
    0 ≤ x * T + y ∧ x * T + y < M * T := by
  have h1 : 0 ≤ x * T := mul_nonneg hx0 (by omega)
  have h2 : (x + 1) * T ≤ M * T := mul_le_mul_of_nonneg_right (by omega) (by omega)
  have h3 : (x + 1) * T = x * T + T := by ring
  constructor <;> omega

theorem torusIndexEntries_bound (M T : Nat) (i j : Nat) (hi : i < M) (hj : j < T)
    (w : Int × Int)
    (hw : w ∈ torusIndexEntries (M : Int) (T : Int) (i : Int) (j : Int)
      (6 * ((i : Int) * (T : Int) + (j : Int)))) :
    0 ≤ w.2 ∧ w.2 < (M : Int) * (T : Int) := by
  have hnt0 : 0 ≤ Int.tmod ((j : Int) + 1) (T : Int) := Int.tmod_nonneg _ (by omega)
  have hnt1 : Int.tmod ((j : Int) + 1) (T : Int) < (T : Int) := Int.tmod_lt_of_pos _ (by omega)
  have hnr0 : 0 ≤ Int.tmod ((i : Int) + 1) (M : Int) := Int.tmod_nonneg _ (by omega)
  have hnr1 : Int.tmod ((i : Int) + 1) (M : Int) < (M : Int) := Int.tmod_lt_of_pos _ (by omega)
  simp only [torusIndexEntries, List.mem_cons, List.mem_singleton, List.mem_nil_iff,
    or_false] at hw
  rcases hw with h | h | h | h | h | h <;> subst h <;>
    apply grid_slot_bound <;> omega

end TorusLogs

/-! ## Reading the vertex array of the torus generator -/

section TorusReads

variable {α : Type} [Field α] (cos sin sqrt : α → α) (pi : α)

theorem torusVertexEntries_skip (torusRadius tubeRadius : α) (M T : Int)
    (tubeAngleStep torusAngle : α) (i j vi s : Int) (rest : List (Int × α))
    (h : s < vi ∨ vi + 8 ≤ s) :
    Buffer.lookup (torusVertexEntries cos sin sqrt torusRadius tubeRadius M T tubeAngleStep
        torusAngle i j vi ++ rest) s = Buffer.lookup rest s := by
  simp (disch := omega) only [torusVertexEntries, List.cons_append, List.nil_append,
    Buffer.lookup_cons_ne]

theorem torusVertexEntries_hit (torusRadius tubeRadius : α) (M T : Int)
    (tubeAngleStep torusAngle : α) (i j vi s : Int) (rest : List (Int × α))
    (h : vi ≤ s ∧ s < vi + 8) :
    Buffer.lookup (torusVertexEntries cos sin sqrt torusRadius tubeRadius M T tubeAngleStep
        torusAngle i j vi ++ rest) s
      = Buffer.lookup (torusVertexEntries cos sin sqrt torusRadius tubeRadius M T tubeAngleStep
        torusAngle i j vi) s := by
  have hs : s = vi ∨ s = vi + 1 ∨ s = vi + 2 ∨ s = vi + 3 ∨ s = vi + 4 ∨ s = vi + 5
      ∨ s = vi + 6 ∨ s = vi + 7 := by omega
  rcases hs with h | h | h | h | h | h | h | h <;> subst h <;>
    simp (disch := omega) only [torusVertexEntries, List.cons_append, List.nil_append,
      Buffer.lookup_cons_ne, Buffer.lookup_cons_eq]

/-- The stores of row `i` leave every slot outside the row as it was. -/
theorem torusRowVertexLog_skip (torusRadius tubeRadius : α) (M T : Int)
    (tubeAngleStep torusAngle : α) (i : Int) (n : Nat) (s : Int) (rest : List (Int × α))
    (h : s < 8 * (i * T) ∨ 8 * (i * T + (n : Int)) ≤ s) :
    Buffer.lookup (torusRowVertexLog cos sin sqrt torusRadius tubeRadius M T tubeAngleStep
        torusAngle i n ++ rest) s = Buffer.lookup rest s := by
  induction n with
  | zero => rfl
  | succ k ih =>
    simp only [torusRowVertexLog, List.append_assoc]
    rw [torusVertexEntries_skip cos sin sqrt torusRadius tubeRadius M T tubeAngleStep
      torusAngle i _ _ s _ (by push_cast at h; omega)]
    exact ih (by push_cast at h; omega)

/-- After `n` runs of the inner loop in row `i`, the eight slots of vertex `(i, j)` with
`j < n` hold what run `j` stored. -/
theorem torusRowVertexLog_lookup (torusRadius tubeRadius : α) (M T : Int)
    (tubeAngleStep torusAngle : α) (i : Int) (n j : Nat) (s : Int) (rest : List (Int × α))
    (hj : j < n) (h : 8 * (i * T + (j : Int)) ≤ s ∧ s < 8 * (i * T + (j : Int)) + 8) :
    Buffer.lookup (torusRowVertexLog cos sin sqrt torusRadius tubeRadius M T tubeAngleStep
        torusAngle i n ++ rest) s
      = Buffer.lookup (torusVertexEntries cos sin sqrt torusRadius tubeRadius M T tubeAngleStep
          torusAngle i (j : Int) (8 * (i * T + (j : Int)))) s := by
  induction n with
  | zero => omega
  | succ k ih =>
    simp only [torusRowVertexLog, List.append_assoc]
    by_cases hjk : j = k
    · subst hjk
      exact torusVertexEntries_hit cos sin sqrt torusRadius tubeRadius M T tubeAngleStep
        torusAngle i _ _ s _ h
    · rw [torusVertexEntries_skip cos sin sqrt torusRadius tubeRadius M T tubeAngleStep
        torusAngle i _ _ s _ (by omega)]
      exact ih (by omega)

/-- In the finished vertex array, the eight slots of vertex `(i, j)` hold what the run of
the inner loop for `(i, j)` stored. -/
theorem torusVertexLog_lookup (torusRadius tubeRadius : α) (M T : Nat) (m i j : Nat) (s : Int)
    (hi : i < m) (hj : j < T)
    (h : 8 * ((i : Int) * (T : Int) + (j : Int)) ≤ s
      ∧ s < 8 * ((i : Int) * (T : Int) + (j : Int)) + 8) :
    Buffer.lookup (torusVertexLog cos sin sqrt pi torusRadius tubeRadius M T m) s
      = Buffer.lookup (torusVertexEntries cos sin sqrt torusRadius tubeRadius (M : Int) (T : Int)
          (2 * pi / ((T : Int) : α)) (((i : Int) : α) * (2 * pi / ((M : Int) : α)))
          (i : Int) (j : Int) (8 * ((i : Int) * (T : Int) + (j : Int)))) s := by
  induction m with
  | zero => omega
  | succ k ih =>
    simp only [torusVertexLog]
    by_cases hik : i = k
    · subst hik
      exact torusRowVertexLog_lookup cos sin sqrt torusRadius tubeRadius _ _ _ _ _ T j s _ hj h
    · have h1 : ((i : Int) + 1) * (T : Int) ≤ (k : Int) * (T : Int) :=
        mul_le_mul_of_nonneg_right (by omega) (by omega)
      have h2 : ((i : Int) + 1) * (T : Int) = (i : Int) * (T : Int) + (T : Int) := by ring
      rw [torusRowVertexLog_skip cos sin sqrt torusRadius tubeRadius _ _ _ _ _ T s _
        (by omega)]
      exact ih (by omega)

/-- The position and the normal stored for the torus vertex `(i, j)`. -/
theorem torusMesh_vertex (torusRadius tubeRadius : α) (M T i j : Nat) (hi : i < M)
    (hj : j < T) :
    (torusMeshOf cos sin sqrt pi torusRadius tubeRadius M T).position
        ((i : Int) * (T : Int) + (j : Int))
        = some (torusPosition cos sin torusRadius tubeRadius
            (((i : Int) : α) * (2 * pi / ((M : Int) : α)))
            (((j : Int) : α) * (2 * pi / ((T : Int) : α))))
      ∧ (torusMeshOf cos sin sqrt pi torusRadius tubeRadius M T).normal
        ((i : Int) * (T : Int) + (j : Int))
        = some (Vec3.normalize sqrt (torusPosition cos sin torusRadius tubeRadius
            (((i : Int) : α) * (2 * pi / ((M : Int) : α)))
            (((j : Int) : α) * (2 * pi / ((T : Int) : α))))) := by
  simp only [TorusMesh.position, TorusMesh.normal, torusMeshOf, Buffer.readVec3, Buffer.read]
  rw [torusVertexLog_lookup cos sin sqrt pi torusRadius tubeRadius M T M i j _ hi hj (by omega),
    torusVertexLog_lookup cos sin sqrt pi torusRadius tubeRadius M T M i j _ hi hj (by omega),
    torusVertexLog_lookup cos sin sqrt pi torusRadius tubeRadius M T M i j _ hi hj (by omega),
    torusVertexLog_lookup cos sin sqrt pi torusRadius tubeRadius M T M i j _ hi hj (by omega),
    torusVertexLog_lookup cos sin sqrt pi torusRadius tubeRadius M T M i j _ hi hj (by omega),
    torusVertexLog_lookup cos sin sqrt pi torusRadius tubeRadius M T M i j _ hi hj (by omega)]
  simp (disch := omega) only [torusVertexEntries, Buffer.lookup_cons_ne, Buffer.lookup_cons_eq]
  exact ⟨rfl, rfl⟩

end TorusReads

/-! ## The cone generator: counts and index range -/

section ConeClaims

variable {α : Type} [Field α]

/-- Over exact integers, for every segment count `N`: the truncated-cone generator declares
`2(N+1)+2` vertices (and allocates eight floats for each), its index loop makes exactly
`6N + 6N = 12N` stores, into the positions `0, 1, ..., 12N-1` in this order, and the final
write position is `numIndices = N*6 + N*3*2`, the value left in `mesh.nIndices`. -/
theorem cone_vertex_and_index_counts (cos sin : α → α) (pi baseRadius topRadius height : α)
    (N : Nat) :
    ∃ m, createConeMesh cos sin pi baseRadius topRadius height N = .ok m
      ∧ m.numVertices = 2 * ((N : Int) + 1) + 2
      ∧ m.vertices.size = m.numVertices * 8
      ∧ m.indices.writes.length = 6 * N + 6 * N
      ∧ m.indices.writes.length = 12 * N
      ∧ (m.indices.writes.map Prod.fst).reverse
          = (List.range (12 * N)).map (fun k : Nat => (k : Int))
      ∧ m.numIndices = (N : Int) * 6 + (N : Int) * 3 * 2
      ∧ m.indices.size = m.numIndices
      ∧ m.index = m.numIndices
      ∧ m.nIndices = m.numIndices := by
  refine ⟨_, createConeMesh_eq cos sin pi baseRadius topRadius height N, ?_, rfl, ?_, ?_, ?_,
    rfl, rfl, ?_, rfl⟩
  · show ((N : Int) + 1) * 2 + 2 = 2 * ((N : Int) + 1) + 2
    omega
  · show (coneIndexLog _ _ _ N).length = 6 * N + 6 * N
    rw [coneIndexLog_length]; omega
  · exact coneIndexLog_length _ _ _ N
  · show ((coneIndexLog _ _ _ N).map Prod.fst).reverse = _
    rw [coneIndexLog_slots, List.reverse_reverse]
  · show 12 * (N : Int) = (N : Int) * 6 + (N : Int) * 3 * 2
    omega

/-- Over exact integers, for every segment count `N`: every index the truncated-cone
generator emits (side wall, bottom fan and top fan, the two centre indices `numVertices - 2`
and `numVertices - 1` among them) is `>= 0` and strictly below the vertex count `2(N+1)+2`;
the centre indices themselves lie in that range. -/
theorem cone_indices_below_vertex_count (cos sin : α → α)
    (pi baseRadius topRadius height : α) (N : Nat) :
    ∃ m, createConeMesh cos sin pi baseRadius topRadius height N = .ok m
      ∧ m.numVertices = 2 * ((N : Int) + 1) + 2
      ∧ (∀ w ∈ m.indices.writes, 0 ≤ w.2 ∧ w.2 < m.numVertices)
      ∧ (0 ≤ m.numVertices - 2 ∧ m.numVertices - 1 < m.numVertices)
      ∧ (1 ≤ N → ∃ w ∈ m.indices.writes, w.2 = m.numVertices - 1) := by
  refine ⟨_, createConeMesh_eq cos sin pi baseRadius topRadius height N, ?_, ?_, ?_, ?_⟩
  · show ((N : Int) + 1) * 2 + 2 = 2 * ((N : Int) + 1) + 2
    omega
  · intro w hw
    obtain ⟨i, hi, hmem⟩ := coneIndexLog_mem _ _ _ N w hw
    exact coneIndexEntries_bound N i hi w hmem
  · constructor <;> simp only [coneMeshOf] <;> omega
  · intro hN
    obtain ⟨k, rfl⟩ : ∃ k, N = k + 1 := ⟨N - 1, by omega⟩
    refine ⟨(12 * (k : Int) + 9, _), ?_, rfl⟩
    simp [coneMeshOf, coneIndexBuffer, coneIndexLog, coneIndexEntries]

/-- C3 (as amended): the cup generator (`baseRadius = 0.4`, `topRadius = 0.5`,
`height = 1.0`, `numSegments = 50`) declares 104 vertices and 600 indices, makes 600 index
stores and leaves 600 in `mesh.nIndices`. -/
theorem cup_counts_104_and_600 (cos sin : α → α) (pi : α) :
    ∃ m, UCreateCupMesh cos sin pi = .ok m
      ∧ m.numVertices = 104
      ∧ m.numIndices = 600
      ∧ m.indices.writes.length = 600
      ∧ m.index = 600
      ∧ m.nIndices = 600 := by
  refine ⟨_, createConeMesh_eq cos sin pi 0.4 0.5 1.0 50, rfl, rfl, ?_, rfl, rfl⟩
  exact coneIndexLog_length _ _ _ 50

/-- C3 (as stated) fails: run over the reals, the cup generator completes with 104
vertices, and none of its index counts (declared, stored, reported) is 900. -/
theorem cup_index_count_ne_900 :
    ∃ m, UCreateCupMesh Real.cos Real.sin Real.pi = .ok m
      ∧ m.numVertices = 104
      ∧ m.numIndices ≠ 900
      ∧ m.indices.writes.length ≠ 900
      ∧ m.nIndices ≠ 900 := by
  refine ⟨_, createConeMesh_eq Real.cos Real.sin Real.pi 0.4 0.5 1.0 50, rfl, by decide, ?_,
    by decide⟩
  show (coneIndexLog _ _ _ 50).length ≠ 900
  rw [coneIndexLog_length]
  decide

end ConeClaims

/-! ## The torus generator: counts and index range -/

section TorusClaims

variable {α : Type} [Field α]

/-- Over exact integers, for all segment counts `M` and `T`: the torus generator stores
exactly `M*T` vertices of eight floats (the slots `0 .. 8*M*T - 1`, in this order) and exactly
`6*M*T` index entries (the positions `0 .. 6*M*T - 1`, in this order), which are the
`numVertices` and `numIndices` it declared and allocated; `UCreateHandleMesh` (`M = 50`,
`T = 20`) gives 1000 vertices and 6000 indices. -/
theorem torus_vertex_and_index_counts (cos sin sqrt : α → α) (pi torusRadius tubeRadius : α)
    (M T : Nat) :
    (∃ m, createTorusMesh cos sin sqrt pi torusRadius tubeRadius M T = .ok m
      ∧ m.numVertices = (M : Int) * (T : Int)
      ∧ m.numIndices = 6 * (M : Int) * (T : Int)
      ∧ m.vertices.size = m.numVertices * 8
      ∧ m.indices.size = m.numIndices
      ∧ m.vertices.writes.length = 8 * (M * T)
      ∧ (m.vertices.writes.map Prod.fst).reverse
          = (List.range (8 * (M * T))).map (fun k : Nat => (k : Int))
      ∧ m.vertexIndex = 8 * m.numVertices
      ∧ m.indices.writes.length = 6 * (M * T)
      ∧ (m.indices.writes.map Prod.fst).reverse
          = (List.range (6 * (M * T))).map (fun k : Nat => (k : Int))
      ∧ m.indexIndex = m.numIndices
      ∧ m.nIndices = m.numIndices)
    ∧ (∃ h, UCreateHandleMesh cos sin sqrt pi = .ok h
      ∧ h.numVertices = 1000 ∧ h.numIndices = 6000
      ∧ h.vertices.writes.length = 8 * 1000 ∧ h.indices.writes.length = 6000
      ∧ h.vertexIndex = 8 * 1000 ∧ h.indexIndex = 6000 ∧ h.nIndices = 6000) := by
  have hv := torusVertexLog_slots cos sin sqrt pi
  have hi := torusIndexLog_slots
  constructor
  · refine ⟨_, createTorusMesh_eq cos sin sqrt pi torusRadius tubeRadius M T, rfl, ?_, rfl, rfl,
      ?_, ?_, rfl, ?_, ?_, ?_, rfl⟩
    · show (M : Int) * (T : Int) * 6 = 6 * (M : Int) * (T : Int)
      ring
    · exact slots_length _ _ _ (hv torusRadius tubeRadius M T M)
    · exact (hv torusRadius tubeRadius M T M).trans (slotsFrom_zero _)
    · exact slots_length _ _ _ (hi M T M)
    · exact (hi M T M).trans (slotsFrom_zero _)
    · show 6 * ((M : Int) * (T : Int)) = (M : Int) * (T : Int) * 6
      ring
  · refine ⟨_, createTorusMesh_eq cos sin sqrt pi 0.4 0.05 50 20, rfl, rfl, ?_, ?_, rfl, rfl,
      rfl⟩
    · exact slots_length _ _ _ (hv 0.4 0.05 50 20 50)
    · exact slots_length _ _ _ (hi 50 20 50)

/-- Over exact integers, for all segment counts `M` and `T`: every index the torus
generator emits (`topLeft`, `topRight`, `bottomLeft`, `bottomRight` of every cell, the
wrap-around row `i = M-1` and column `j = T-1` included) is `>= 0` and strictly below the
vertex count `M*T`; at the wrap-around corner `(M-1, T-1)` the emitted `bottomRight`
is `0`. -/
theorem torus_indices_below_vertex_count (cos sin sqrt : α → α)
    (pi torusRadius tubeRadius : α) (M T : Nat) :
    ∃ m, createTorusMesh cos sin sqrt pi torusRadius tubeRadius M T = .ok m
      ∧ m.numVertices = (M : Int) * (T : Int)
      ∧ (∀ w ∈ m.indices.writes, 0 ≤ w.2 ∧ w.2 < m.numVertices)
      ∧ (1 ≤ M → 1 ≤ T →
          ((6 * (M : Int) * (T : Int) - 1, (0 : Int)) ∈ m.indices.writes)) := by
  refine ⟨_, createTorusMesh_eq cos sin sqrt pi torusRadius tubeRadius M T, rfl, ?_, ?_⟩
  · intro w hw
    obtain ⟨i, j, hi, hj, hmem⟩ := torusIndexLog_mem M T M w hw
    exact torusIndexEntries_bound M T i j hi hj w hmem
  · intro hM hT
    obtain ⟨a, rfl⟩ : ∃ a, M = a + 1 := ⟨M - 1, by omega⟩
    obtain ⟨b, rfl⟩ : ∃ b, T = b + 1 := ⟨T - 1, by omega⟩
    show _ ∈ torusIndexLog (a + 1) (b + 1) (a + 1)
    simp only [torusIndexLog, torusRowIndexLog, torusIndexEntries, List.mem_append,
      List.mem_cons]
    left; left; left
    simp only [Prod.mk.injEq]
    constructor
    · push_cast; ring
    · push_cast
      simp [Int.tmod_self]

end TorusClaims

/-! ## The cone generator over the reals: winding of the caps -/

section ConeCaps

/-- The sine of the angle between consecutive ring vertices. -/
theorem ring_angle_sin (N i : Nat) (hN : 0 < N) :
    Real.sin (2 * Real.pi * (i : ℝ) / (N : ℝ)) * Real.cos (2 * Real.pi * ((i : ℝ) + 1) / (N : ℝ))
      - Real.cos (2 * Real.pi * (i : ℝ) / (N : ℝ))
        * Real.sin (2 * Real.pi * ((i : ℝ) + 1) / (N : ℝ))
      = -Real.sin (2 * Real.pi / (N : ℝ)) := by
  have hN0 : (N : ℝ) ≠ 0 := by exact_mod_cast hN.ne.symm
  rw [← Real.sin_sub, ← Real.sin_neg]
  congr 1
  field_simp
  ring

theorem sin_segment_pos (N : Nat) (hN : 3 ≤ N) : 0 < Real.sin (2 * Real.pi / (N : ℝ)) := by
  have hN3 : (3 : ℝ) ≤ (N : ℝ) := by exact_mod_cast hN
  have hpi := Real.pi_pos
  apply Real.sin_pos_of_pos_of_lt_pi
  · positivity
  · rw [div_lt_iff₀ (by linarith)]
    nlinarith

theorem sin_segment_zero (N : Nat) (hN : N ≤ 2) : Real.sin (2 * Real.pi / (N : ℝ)) = 0 := by
  interval_cases N
  · simp
  · simp
  · have : 2 * Real.pi / ((2 : ℕ) : ℝ) = Real.pi := by push_cast; ring
    rw [this, Real.sin_pi]

end ConeCaps

/-! ## The torus generator over the reals: unit normals -/

section TorusNormals

/-- A torus point with `0 < r < R` has positive squared distance from the origin. -/
theorem torusPosition_dot_pos (R r a b : ℝ) (hr : 0 < r) (hR : r < R) :
    0 < Vec3.dot (torusPosition Real.cos Real.sin R r a b)
      (torusPosition Real.cos Real.sin R r a b) := by
  have hc : -1 ≤ Real.cos b := Real.neg_one_le_cos b
  have h1 : 0 < R + r * Real.cos b := by nlinarith
  have h2 := Real.sin_sq_add_cos_sq a
  have h3 : Vec3.dot (torusPosition Real.cos Real.sin R r a b)
      (torusPosition Real.cos Real.sin R r a b)
      = (R + r * Real.cos b) ^ 2 + (r * Real.sin b) ^ 2 := by
    simp only [Vec3.dot, torusPosition]
    linear_combination (R + r * Real.cos b) ^ 2 * h2
  rw [h3]
  positivity

/-- Normalizing a real vector of positive squared length gives a vector of squared length
one. -/
theorem normalize_dot_eq_one (v : Vec3 ℝ) (hv : 0 < Vec3.dot v v) :
    Vec3.dot (Vec3.normalize Real.sqrt v) (Vec3.normalize Real.sqrt v) = 1 := by
  have hs : 0 < Real.sqrt (Vec3.dot v v) := Real.sqrt_pos.mpr hv
  have hsq : Real.sqrt (Vec3.dot v v) ^ 2 = Vec3.dot v v := Real.sq_sqrt hv.le
  have h : Vec3.dot (Vec3.normalize Real.sqrt v) (Vec3.normalize Real.sqrt v)
      = Vec3.dot v v / Real.sqrt (Vec3.dot v v) ^ 2 := by
    simp only [Vec3.normalize, Vec3.dot]
    field_simp
    ring
  rw [h, hsq, div_self hv.ne.symm]

end TorusNormals

/-! ## The table generators: layout and winding -/

section TableClaims

theorem winding_of_check (m : TableMesh) (k : Nat) (h : windingCheck m k) :
    if k ∈ outwardTriangles then WindsOutward m k else WindsInward m k := by
  obtain ⟨h1, h2, h3, h4⟩ := h
  split_ifs with hk
  · rw [if_pos hk] at h4
    exact ⟨h1, h2, _, h4, h3⟩
  · rw [if_neg hk] at h4
    exact ⟨h1, h2, _, h4, h3⟩

/-- C6: each of the three paper tables holds exactly 36 vertices of eight floats, the
normals take exactly six values, the value of face `f` sitting on the six consecutive
vertices `6f .. 6f+5`, every normal is one of the six axis-aligned unit vectors, and the
reported draw count `nIndices` is 36. -/
theorem paper_panels_contract :
    PanelContract UCreatePaper1Mesh ∧ PanelContract UCreatePaper2Mesh
      ∧ PanelContract UCreatePaper3Mesh := by
  refine ⟨?_, ?_, ?_⟩ <;> decide!

/-- C7 (as amended): `UCreatePlaneMesh` emits a flat quad, not a box: four vertices of five
floats (a position and texture coordinates, no normal attribute), all at `y = -0.5` with
`x` and `z` in `{-3, 3}`, and the six indices `0, 1, 2, 0, 2, 3` of two triangles, with
`nIndices = 6`. -/
theorem plane_is_indexed_quad :
    UCreatePlaneMesh.vertices.length = 4 * 5 ∧ UCreatePlaneMesh.stride = 5
      ∧ UCreatePlaneMesh.vertexCount = 4
      ∧ UCreatePlaneMesh.attributes = [(3, 0), (2, 3)]
      ∧ UCreatePlaneMesh.indices = [0, 1, 2, 0, 2, 3]
      ∧ UCreatePlaneMesh.nIndices = 6
      ∧ (∀ k : Fin 4, (UCreatePlaneMesh.position k.val).y = -0.5
          ∧ ((UCreatePlaneMesh.position k.val).x = -3 ∨ (UCreatePlaneMesh.position k.val).x = 3)
          ∧ ((UCreatePlaneMesh.position k.val).z = -3 ∨ (UCreatePlaneMesh.position k.val).z = 3))
      ∧ (∀ i ∈ UCreatePlaneMesh.indices, i < UCreatePlaneMesh.vertexCount) := by
  decide!

/-- C7 (as stated) fails: the plane does not satisfy the contract of the paper panels; it
has 4 vertices instead of 36, an index array, no normal attribute, and reports 6. -/
theorem plane_not_panel_contract :
    ¬ PanelContract UCreatePlaneMesh ∧ UCreatePlaneMesh.vertexCount ≠ 36
      ∧ UCreatePlaneMesh.indices ≠ [] ∧ UCreatePlaneMesh.attributes.length ≠ 3
      ∧ UCreatePlaneMesh.nIndices ≠ 36 := by
  decide!

/-- C8 (as amended): in each paper panel every one of the 12 triangles carries one normal on
its three corners and its cross product `(p1 - p0) x (p2 - p0)` is a non-zero multiple of
that normal: a positive one (counter-clockwise seen from outside) for the triangles
0, 1, 4, 5, 10, 11 of the front, left and bottom faces, a negative one (clockwise seen from
outside) for the triangles 2, 3, 6, 7, 8, 9 of the back, right and top faces. -/
theorem paper_triangle_winding (k : Fin 12) :
    (if k.val ∈ outwardTriangles then WindsOutward UCreatePaper1Mesh k.val
      else WindsInward UCreatePaper1Mesh k.val)
    ∧ (if k.val ∈ outwardTriangles then WindsOutward UCreatePaper2Mesh k.val
      else WindsInward UCreatePaper2Mesh k.val)
    ∧ (if k.val ∈ outwardTriangles then WindsOutward UCreatePaper3Mesh k.val
      else WindsInward UCreatePaper3Mesh k.val) := by
  have h : ∀ j : Fin 12, windingCheck UCreatePaper1Mesh j.val
      ∧ windingCheck UCreatePaper2Mesh j.val ∧ windingCheck UCreatePaper3Mesh j.val := by
    decide!
  exact ⟨winding_of_check _ _ (h k).1, winding_of_check _ _ (h k).2.1,
    winding_of_check _ _ (h k).2.2⟩

/-- C8 (as stated) fails: triangle 2 of `UCreatePaper1Mesh`, the first triangle of the back
face, has cross product `(0, 0, 0.04)` and stored normal `(0, 0, -1)`, so no positive
multiple of the normal equals the cross product. -/
theorem paper1_back_face_not_outward :
    UCreatePaper1Mesh.triangleCross 2 = ⟨0, 0, 0.04⟩
      ∧ UCreatePaper1Mesh.normal 6 = ⟨0, 0, -1⟩
      ∧ ¬ WindsOutward UCreatePaper1Mesh 2 := by
  have hc : UCreatePaper1Mesh.triangleCross 2 = ⟨0, 0, 0.04⟩ := by decide!
  have hn : UCreatePaper1Mesh.normal (3 * 2) = ⟨0, 0, -1⟩ := by decide!
  refine ⟨hc, hn, ?_⟩
  rintro ⟨-, -, c, hc0, h⟩
  rw [hc, hn] at h
  simp only [Vec3.smul, Vec3.mk.injEq] at h
  have h3 := h.2.2
  norm_num at h3
  linarith

end TableClaims

/-! ## The cone generator over the reals: ring radius and seam -/

section ConeRing

end ConeRing

/-! ## The torus generator: zero segment counts and the index pattern -/

section TorusIndexReads

variable {α : Type} [Field α] (cos sin sqrt : α → α) (pi : α)

theorem torusIndexEntries_skip (M T i j ii s : Int) (rest : List (Int × Int))
    (h : s < ii ∨ ii + 6 ≤ s) :
    Buffer.lookup (torusIndexEntries M T i j ii ++ rest) s = Buffer.lookup rest s := by
  simp (disch := omega) only [torusIndexEntries, List.cons_append, List.nil_append,
    Buffer.lookup_cons_ne]

theorem torusIndexEntries_hit (M T i j ii s : Int) (rest : List (Int × Int))
    (h : ii ≤ s ∧ s < ii + 6) :
    Buffer.lookup (torusIndexEntries M T i j ii ++ rest) s
      = Buffer.lookup (torusIndexEntries M T i j ii) s := by
  have hs : s = ii ∨ s = ii + 1 ∨ s = ii + 2 ∨ s = ii + 3 ∨ s = ii + 4 ∨ s = ii + 5 := by
    omega
  rcases hs with h | h | h | h | h | h <;> subst h <;>
    simp (disch := omega) only [torusIndexEntries, List.cons_append, List.nil_append,
      Buffer.lookup_cons_ne, Buffer.lookup_cons_eq]

/-- The index stores of row `i` leave every position outside the row as it was. -/
theorem torusRowIndexLog_skip (M T : Int) (i : Int) (n : Nat) (s : Int)
    (rest : List (Int × Int)) (h : s < 6 * (i * T) ∨ 6 * (i * T + (n : Int)) ≤ s) :
    Buffer.lookup (torusRowIndexLog M T i n ++ rest) s = Buffer.lookup rest s := by
  induction n with
  | zero => rfl
  | succ k ih =>
    simp only [torusRowIndexLog, List.append_assoc]
    rw [torusIndexEntries_skip M T i _ _ s _ (by push_cast at h; omega)]
    exact ih (by push_cast at h; omega)

/-- After `n` runs of the inner loop in row `i`, the six index positions of cell `(i, j)`
with `j < n` hold what run `j` stored. -/
theorem torusRowIndexLog_lookup (M T : Int) (i : Int) (n j : Nat) (s : Int)
    (rest : List (Int × Int)) (hj : j < n)
    (h : 6 * (i * T + (j : Int)) ≤ s ∧ s < 6 * (i * T + (j : Int)) + 6) :
    Buffer.lookup (torusRowIndexLog M T i n ++ rest) s
      = Buffer.lookup (torusIndexEntries M T i (j : Int) (6 * (i * T + (j : Int)))) s := by
  induction n with
  | zero => omega
  | succ k ih =>
    simp only [torusRowIndexLog, List.append_assoc]
    by_cases hjk : j = k
    · subst hjk
      exact torusIndexEntries_hit M T i _ _ s _ h
    · rw [torusIndexEntries_skip M T i _ _ s _ (by omega)]
      exact ih (by omega)

/-- In the finished index array, the six positions of cell `(i, j)` hold what the run of the
inner loop for `(i, j)` stored. -/
theorem torusIndexLog_lookup (M T : Nat) (m i j : Nat) (s : Int) (hi : i < m) (hj : j < T)
    (h : 6 * ((i : Int) * (T : Int) + (j : Int)) ≤ s
      ∧ s < 6 * ((i : Int) * (T : Int) + (j : Int)) + 6) :
    Buffer.lookup (torusIndexLog M T m) s
      = Buffer.lookup (torusIndexEntries (M : Int) (T : Int) (i : Int) (j : Int)
          (6 * ((i : Int) * (T : Int) + (j : Int)))) s := by
  induction m with
  | zero => omega
  | succ k ih =>
    simp only [torusIndexLog]
    by_cases hik : i = k
    · subst hik
      exact torusRowIndexLog_lookup (M : Int) (T : Int) (i : Int) T j s
        (torusIndexLog M T i) hj h
    · have h1 : ((i : Int) + 1) * (T : Int) ≤ (k : Int) * (T : Int) :=
        mul_le_mul_of_nonneg_right (by omega) (by omega)
      have h2 : ((i : Int) + 1) * (T : Int) = (i : Int) * (T : Int) + (T : Int) := by ring
      rw [torusRowIndexLog_skip (M : Int) (T : Int) (k : Int) T s _ (by omega)]
      exact ih (by omega)

/-- The texture coordinates stored for the torus vertex `(i, j)`. -/
theorem torusMesh_uv (torusRadius tubeRadius : α) (M T i j : Nat) (hi : i < M) (hj : j < T) :
    (torusMeshOf cos sin sqrt pi torusRadius tubeRadius M T).vertices.read
        (((i : Int) * (T : Int) + (j : Int)) * 8 + 6)
        = some (((i : Int) : α) / ((M : Int) : α))
      ∧ (torusMeshOf cos sin sqrt pi torusRadius tubeRadius M T).vertices.read
        (((i : Int) * (T : Int) + (j : Int)) * 8 + 7)
        = some (((j : Int) : α) / ((T : Int) : α)) := by
  simp only [torusMeshOf, Buffer.read]
  rw [torusVertexLog_lookup cos sin sqrt pi torusRadius tubeRadius M T M i j _ hi hj (by omega),
    torusVertexLog_lookup cos sin sqrt pi torusRadius tubeRadius M T M i j _ hi hj (by omega)]
  simp (disch := omega) only [torusVertexEntries, Buffer.lookup_cons_ne, Buffer.lookup_cons_eq]
  exact ⟨trivial, trivial⟩

/-- The six index entries stored for cell `(i, j)`, with the C++ remainders written as
mathematical remainders. -/
theorem torusMesh_quad (torusRadius tubeRadius : α) (M T i j : Nat) (hi : i < M)
    (hj : j < T) :
    (torusMeshOf cos sin sqrt pi torusRadius tubeRadius M T).indices.read
        (6 * ((i : Int) * (T : Int) + (j : Int)))
        = some ((i : Int) * (T : Int) + (j : Int))
      ∧ (torusMeshOf cos sin sqrt pi torusRadius tubeRadius M T).indices.read
        (6 * ((i : Int) * (T : Int) + (j : Int)) + 1)
        = some ((i : Int) * (T : Int) + ((j : Int) + 1) % (T : Int))
      ∧ (torusMeshOf cos sin sqrt pi torusRadius tubeRadius M T).indices.read
        (6 * ((i : Int) * (T : Int) + (j : Int)) + 2)
        = some (((i : Int) + 1) % (M : Int) * (T : Int) + (j : Int))
      ∧ (torusMeshOf cos sin sqrt pi torusRadius tubeRadius M T).indices.read
        (6 * ((i : Int) * (T : Int) + (j : Int)) + 3)
        = some (((i : Int) + 1) % (M : Int) * (T : Int) + (j : Int))
      ∧ (torusMeshOf cos sin sqrt pi torusRadius tubeRadius M T).indices.read
        (6 * ((i : Int) * (T : Int) + (j : Int)) + 4)
        = some ((i : Int) * (T : Int) + ((j : Int) + 1) % (T : Int))
      ∧ (torusMeshOf cos sin sqrt pi torusRadius tubeRadius M T).indices.read
        (6 * ((i : Int) * (T : Int) + (j : Int)) + 5)
        = some (((i : Int) + 1) % (M : Int) * (T : Int) + ((j : Int) + 1) % (T : Int)) := by
  have eT : Int.tmod ((j : Int) + 1) (T : Int) = ((j : Int) + 1) % (T : Int) :=
    Int.tmod_eq_emod (by omega) (by omega)
  have eM : Int.tmod ((i : Int) + 1) (M : Int) = ((i : Int) + 1) % (M : Int) :=
    Int.tmod_eq_emod (by omega) (by omega)
  simp only [torusMeshOf, Buffer.read]
  rw [torusIndexLog_lookup M T M i j _ hi hj (by omega),
    torusIndexLog_lookup M T M i j _ hi hj (by omega),
    torusIndexLog_lookup M T M i j _ hi hj (by omega),
    torusIndexLog_lookup M T M i j _ hi hj (by omega),
    torusIndexLog_lookup M T M i j _ hi hj (by omega),
    torusIndexLog_lookup M T M i j _ hi hj (by omega)]
  simp (disch := omega) only [torusIndexEntries, Buffer.lookup_cons_ne, Buffer.lookup_cons_eq,
    eT, eM]
  refine ⟨?_, ?_, ?_, ?_, ?_, ?_⟩ <;> trivial

end TorusIndexReads

section TorusIndexClaims

variable {α : Type} [Field α]

theorem bind_error_of_forall {σ τ : Type} (x : Except String σ) (f : σ → Except String τ)
    (h : ∀ a, ∃ e, f a = .error e) : ∃ e, (x >>= f) = .error e := by
  cases x with
  | error e => exact ⟨e, rfl⟩
  | ok a => exact h a

/-- Were the inner loop body entered with a segment count of zero, it would end in an error:
at the latest when it reaches `(j + 1) % tubeSegments` or `(i + 1) % torusSegments`. -/
theorem torusInnerBody_zero_divisor (cos sin sqrt : α → α) (torusRadius tubeRadius : α)
    (M T : Int) (tubeAngleStep torusAngle : α) (i j : Int) (s : TorusState α)
    (h : M = 0 ∨ T = 0) :
    ∃ e, torusInnerBody cos sin sqrt torusRadius tubeRadius M T tubeAngleStep torusAngle i j s
      = .error e := by
  simp only [torusInnerBody]
  iterate 8 refine bind_error_of_forall _ _ (fun _ => ?_)
  by_cases hT : T = 0
  · rw [cmod, if_pos hT]
    exact ⟨_, rfl⟩
  · rw [cmod_ok _ _ hT, ok_bind, cmod, if_pos (h.resolve_right hT)]
    exact ⟨_, rfl⟩

/-- C15: run with a segment count of zero (`M = 0` or `T = 0`), the torus generator reports
no error and completes with zero vertices and zero indices stored; since the model makes a
remainder by zero an error, no `(j+1) % T` or `(i+1) % M` with a zero divisor is
evaluated. -/
theorem torus_zero_segments (cos sin sqrt : α → α) (pi torusRadius tubeRadius : α)
    (M T : Nat) (h : M = 0 ∨ T = 0) :
    TorusEmpty cos sin sqrt pi torusRadius tubeRadius M T := by
  have hMT : M * T = 0 := by rcases h with h | h <;> simp [h]
  have hz : (M : Int) * (T : Int) = 0 := by exact_mod_cast hMT
  have hv := slots_length _ _ _
    (torusVertexLog_slots cos sin sqrt pi torusRadius tubeRadius M T M)
  have hi := slots_length _ _ _ (torusIndexLog_slots M T M)
  rw [hMT] at hv hi
  refine ⟨_, createTorusMesh_eq cos sin sqrt pi torusRadius tubeRadius M T, ?_, ?_, ?_, ?_,
    ?_, ?_, ?_, ?_, ?_⟩
  · exact hz
  · show (M : Int) * (T : Int) * 6 = 0
    rw [hz]; rfl
  · show (M : Int) * (T : Int) * 8 = 0
    rw [hz]; rfl
  · show (M : Int) * (T : Int) * 6 = 0
    rw [hz]; rfl
  · exact List.length_eq_zero.mp hv
  · exact List.length_eq_zero.mp hi
  · show 8 * ((M : Int) * (T : Int)) = 0
    rw [hz]; rfl
  · show 6 * ((M : Int) * (T : Int)) = 0
    rw [hz]; rfl
  · show (M : Int) * (T : Int) * 6 = 0
    rw [hz]; rfl

/-- Witness of C15: the handle's radii with `M = 50`, `T = 0`, over the reals; and in the
model the remainder by zero is an error. -/
theorem torus_zero_segments_witness :
    (50 = 0 ∨ 0 = 0) ∧ TorusEmpty Real.cos Real.sin Real.sqrt Real.pi 0.4 0.05 50 0
      ∧ cmod (19 + 1) 0 = .error "remainder by zero" :=
  ⟨Or.inr rfl, torus_zero_segments Real.cos Real.sin Real.sqrt Real.pi 0.4 0.05 50 0
    (Or.inr rfl), rfl⟩

/-- Over exact integers, for every cell `(i, j)` with `i < M`, `j < T`: the torus generator
stores at the index positions `6(iT+j) .. 6(iT+j)+5` the entries `[a, b, c, c, b, d]` with
`a = iT+j`, `b = iT+((j+1) mod T)`, `c = ((i+1) mod M)T+j`,
`d = ((i+1) mod M)T+((j+1) mod T)`, and vertex slot `a` holds the position and the texture
coordinates computed for `(i, j)`. -/
theorem torus_quad_indices (cos sin sqrt : α → α) (pi torusRadius tubeRadius : α)
    (M T i j : Nat) (hi : i < M) (hj : j < T) :
    TorusQuadIndices cos sin sqrt pi torusRadius tubeRadius M T i j := by
  obtain ⟨q0, q1, q2, q3, q4, q5⟩ :=
    torusMesh_quad cos sin sqrt pi torusRadius tubeRadius M T i j hi hj
  obtain ⟨u, v⟩ := torusMesh_uv cos sin sqrt pi torusRadius tubeRadius M T i j hi hj
  exact ⟨_, createTorusMesh_eq cos sin sqrt pi torusRadius tubeRadius M T, q0, q1, q2, q3, q4,
    q5, (torusMesh_vertex cos sin sqrt pi torusRadius tubeRadius M T i j hi hj).1, u, v⟩

/-- The index entries of the handle over the reals at the wrap-around cell `(49, 19)`. -/
theorem torus_quad_indices_witness :
    49 < 50 ∧ 19 < 20
      ∧ TorusQuadIndices Real.cos Real.sin Real.sqrt Real.pi 0.4 0.05 50 20 49 19 :=
  ⟨by decide, by decide,
    torus_quad_indices Real.cos Real.sin Real.sqrt Real.pi 0.4 0.05 50 20 49 19 (by decide)
      (by decide)⟩

end TorusIndexClaims

/-! ## The torus generator over the reals: stored normal against the tube normal -/

section TorusTubeNormal

/-- C18 evaluated on the code: in the handle generated over the reals (`R = 0.4`,
`r = 0.05`, `M = 50`, `T = 20`), vertex `(0, 10)` lies on the inner side of the tube at
`(0.35, 0, 0)`; the stored normal, the normalized position, is `(1, 0, 0)`, the outward tube
normal there is `(-1, 0, 0)`, and their dot product is `-1`. -/
theorem handle_normal_against_tube_normal :
    ∃ m p n, UCreateHandleMesh Real.cos Real.sin Real.sqrt Real.pi = .ok m
      ∧ m.position (0 * 20 + 10) = some p
      ∧ m.normal (0 * 20 + 10) = some n
      ∧ p = ⟨0.35, 0, 0⟩
      ∧ n = ⟨1, 0, 0⟩
      ∧ tubeNormal Real.cos Real.sin (0 * (2 * Real.pi / 50)) (10 * (2 * Real.pi / 20))
          = ⟨-1, 0, 0⟩
      ∧ Vec3.dot n
          (tubeNormal Real.cos Real.sin (0 * (2 * Real.pi / 50)) (10 * (2 * Real.pi / 20)))
          = -1 := by
  obtain ⟨hp, hn⟩ := torusMesh_vertex Real.cos Real.sin Real.sqrt Real.pi 0.4 0.05 50 20 0 10
    (by decide) (by decide)
  have e0 : (((0 : Nat) : Int) : ℝ) * (2 * Real.pi / (((50 : Nat) : Int) : ℝ)) = 0 := by simp
  have e1 : (((10 : Nat) : Int) : ℝ) * (2 * Real.pi / (((20 : Nat) : Int) : ℝ)) = Real.pi := by
    push_cast; ring
  have e2 : (10 : ℝ) * (2 * Real.pi / 20) = Real.pi := by ring
  have hpos : torusPosition Real.cos Real.sin (0.4 : ℝ) 0.05 0 Real.pi = ⟨0.35, 0, 0⟩ := by
    simp only [torusPosition, Real.cos_pi, Real.sin_pi, Real.cos_zero, Real.sin_zero]
    norm_num
  have hsq : Real.sqrt (Vec3.dot (⟨0.35, 0, 0⟩ : Vec3 ℝ) ⟨0.35, 0, 0⟩) = 0.35 := by
    have : Vec3.dot (⟨0.35, 0, 0⟩ : Vec3 ℝ) ⟨0.35, 0, 0⟩ = 0.35 ^ 2 := by
      simp only [Vec3.dot]; ring
    rw [this, Real.sqrt_sq (by norm_num)]
  have hnorm : Vec3.normalize Real.sqrt (⟨0.35, 0, 0⟩ : Vec3 ℝ) = ⟨1, 0, 0⟩ := by
    simp only [Vec3.normalize, hsq]
    norm_num
  have ht : tubeNormal Real.cos Real.sin (0 * (2 * Real.pi / 50)) (10 * (2 * Real.pi / 20))
      = ⟨-1, 0, 0⟩ := by
    simp only [tubeNormal, e2, zero_mul, Real.cos_pi, Real.sin_pi, Real.cos_zero,
      Real.sin_zero]
    norm_num
  rw [e0, e1, hpos] at hp hn
  rw [hnorm] at hn
  have e3 : ((0 : Nat) : Int) * ((20 : Nat) : Int) + ((10 : Nat) : Int) = 0 * 20 + 10 := by
    norm_num
  rw [e3] at hp hn
  refine ⟨_, _, _, createTorusMesh_eq Real.cos Real.sin Real.sqrt Real.pi 0.4 0.05 50 20,
    hp, hn, rfl, rfl, ht, ?_⟩
  rw [ht]
  simp [Vec3.dot]

end TorusTubeNormal

/-! ## The paper generators as instances of one layout -/

section PaperLayout

/-- C19: the three paper generators are instances of one 36-vertex layout that differ only
in extents: each table is `panelLayout` at its half-extents; `UCreatePaper2Mesh` and
`UCreatePaper3Mesh` are identical, so `paper3Mesh`, which `main` creates with
`UCreatePaper2Mesh`, is the mesh of `UCreatePaper3Mesh`; and for every vertex `k < 36` the
tables of `UCreatePaper1Mesh` and `UCreatePaper2Mesh` have the same normal, the same UV and
the same `y`, with `x` in `{-1, 1}` against the same-signed `{-0.333, 0.333}` and `z` in
`{-1.5, 1.5}` against the same-signed `{-0.5, 0.5}`. -/
theorem paper_panels_one_layout :
    paper1Vertices = panelLayout 1 1.5 0.01
      ∧ paper2Vertices = panelLayout 0.333 0.5 0.01
      ∧ paper3Vertices = panelLayout 0.333 0.5 0.01
      ∧ paper2Vertices = paper3Vertices
      ∧ UCreatePaper2Mesh = UCreatePaper3Mesh
      ∧ main_paper3Mesh = UCreatePaper3Mesh
      ∧ (∀ k : Fin 36,
          UCreatePaper1Mesh.normal k.val = UCreatePaper2Mesh.normal k.val
          ∧ UCreatePaper1Mesh.uv k.val = UCreatePaper2Mesh.uv k.val
          ∧ (UCreatePaper1Mesh.position k.val).y = (UCreatePaper2Mesh.position k.val).y
          ∧ (((UCreatePaper1Mesh.position k.val).x = -1
                ∧ (UCreatePaper2Mesh.position k.val).x = -0.333)
              ∨ ((UCreatePaper1Mesh.position k.val).x = 1
                ∧ (UCreatePaper2Mesh.position k.val).x = 0.333))
          ∧ (((UCreatePaper1Mesh.position k.val).z = -1.5
                ∧ (UCreatePaper2Mesh.position k.val).z = -0.5)
              ∨ ((UCreatePaper1Mesh.position k.val).z = 1.5
                ∧ (UCreatePaper2Mesh.position k.val).z = 0.5))) := by
  refine ⟨?_, ?_, ?_, ?_, ?_, ?_, ?_⟩ <;> decide!

end PaperLayout

/-! ## The cone generator: every vertex slot is written exactly once -/

theorem Buffer.storeCount_cons_ne {β : Type} (sz : Int) (k' : Int) (v : β)
    (ws : List (Int × β)) (k : Int) (h : k' ≠ k) :
    Buffer.storeCount ⟨sz, (k', v) :: ws⟩ k = Buffer.storeCount ⟨sz, ws⟩ k := by
  simp [Buffer.storeCount, List.filter_cons, h]

theorem Buffer.storeCount_cons_eq {β : Type} (sz : Int) (k' : Int) (v : β)
    (ws : List (Int × β)) (k : Int) (h : k' = k) :
    Buffer.storeCount ⟨sz, (k', v) :: ws⟩ k = Buffer.storeCount ⟨sz, ws⟩ k + 1 := by
  simp [Buffer.storeCount, List.filter_cons, h]

theorem Buffer.storeCount_pos_of_mem {β : Type} (sz : Int) (ws : List (Int × β))
    (w : Int × β) (hw : w ∈ ws) : 0 < Buffer.storeCount ⟨sz, ws⟩ w.1 := by
  simp only [Buffer.storeCount]
  exact List.length_pos_of_mem (List.mem_filter.mpr ⟨hw, by simp⟩)

section ConeStoreCount

variable {α : Type} [Field α] (cos sin : α → α) (pi : α)

theorem coneVertexEntries_count_skip (baseRadius topRadius height : α) (N n s sz : Int)
    (rest : List (Int × α)) (hN : 0 ≤ N)
    (h : s < n * 8 ∨ (n * 8 + 8 ≤ s ∧ s < (n + N + 1) * 8) ∨ (n + N + 1) * 8 + 8 ≤ s) :
    Buffer.storeCount
        ⟨sz, coneVertexEntries cos sin pi baseRadius topRadius height N n ++ rest⟩ s
      = Buffer.storeCount ⟨sz, rest⟩ s := by
  simp (disch := omega) only [coneVertexEntries, List.cons_append, List.nil_append,
    Buffer.storeCount_cons_ne]

theorem coneVertexEntries_count_hit (baseRadius topRadius height : α) (N n s sz : Int)
    (rest : List (Int × α)) (hN : 0 ≤ N)
    (h : (n * 8 ≤ s ∧ s < n * 8 + 8) ∨ ((n + N + 1) * 8 ≤ s ∧ s < (n + N + 1) * 8 + 8)) :
    Buffer.storeCount
        ⟨sz, coneVertexEntries cos sin pi baseRadius topRadius height N n ++ rest⟩ s
      = Buffer.storeCount ⟨sz, rest⟩ s + 1 := by
  have hs : s = n * 8 ∨ s = n * 8 + 1 ∨ s = n * 8 + 2 ∨ s = n * 8 + 3 ∨ s = n * 8 + 4
      ∨ s = n * 8 + 5 ∨ s = n * 8 + 6 ∨ s = n * 8 + 7
      ∨ s = (n + N + 1) * 8 ∨ s = (n + N + 1) * 8 + 1 ∨ s = (n + N + 1) * 8 + 2
      ∨ s = (n + N + 1) * 8 + 3 ∨ s = (n + N + 1) * 8 + 4 ∨ s = (n + N + 1) * 8 + 5
      ∨ s = (n + N + 1) * 8 + 6 ∨ s = (n + N + 1) * 8 + 7 := by omega
  rcases hs with h | h | h | h | h | h | h | h | h | h | h | h | h | h | h | h <;> subst h <;>
    simp (disch := omega) only [coneVertexEntries, List.cons_append, List.nil_append,
      Buffer.storeCount_cons_ne, Buffer.storeCount_cons_eq]

/-- After `n` runs of the vertex loop every float slot of the ring vertices `0 .. n-1` and
`N+1 .. N+n` has been stored exactly once, and no other slot has been stored. -/
theorem coneVertexLog_count (baseRadius topRadius height : α) (N : Nat) (n : Nat) (s sz : Int)
    (hn : n ≤ N + 1) :
    Buffer.storeCount ⟨sz, coneVertexLog cos sin pi baseRadius topRadius height (N : Int) n⟩ s
      = if (0 ≤ s ∧ s < (n : Int) * 8)
          ∨ (((N : Int) + 1) * 8 ≤ s ∧ s < ((n : Int) + (N : Int) + 1) * 8) then 1 else 0 := by
  induction n with
  | zero =>
    rw [if_neg (by push_cast; omega)]
    rfl
  | succ k ih =>
    simp only [coneVertexLog]
    by_cases hk : ((k : Int) * 8 ≤ s ∧ s < (k : Int) * 8 + 8)
        ∨ (((k : Int) + (N : Int) + 1) * 8 ≤ s ∧ s < ((k : Int) + (N : Int) + 1) * 8 + 8)
    · rw [coneVertexEntries_count_hit cos sin pi baseRadius topRadius height _ _ s sz _
        (by omega) hk, ih (by omega), if_neg (by omega), if_pos (by push_cast; omega)]
    · rw [coneVertexEntries_count_skip cos sin pi baseRadius topRadius height _ _ s sz _
        (by omega) (by omega), ih (by omega)]
      by_cases hc : (0 ≤ s ∧ s < (k : Int) * 8)
          ∨ (((N : Int) + 1) * 8 ≤ s ∧ s < ((k : Int) + (N : Int) + 1) * 8)
      · rw [if_pos hc, if_pos (by push_cast; omega)]
      · rw [if_neg hc, if_neg (by push_cast; omega)]

theorem coneCenterEntries_count_skip (height : α) (cb s sz : Int) (rest : List (Int × α))
    (h : s < cb * 8 ∨ cb * 8 + 16 ≤ s) :
    Buffer.storeCount ⟨sz, coneCenterEntries height cb (cb + 1) ++ rest⟩ s
      = Buffer.storeCount ⟨sz, rest⟩ s := by
  simp (disch := omega) only [coneCenterEntries, List.cons_append, List.nil_append,
    Buffer.storeCount_cons_ne]

theorem coneCenterEntries_count_hit (height : α) (cb s sz : Int) (rest : List (Int × α))
    (h : cb * 8 ≤ s ∧ s < cb * 8 + 16) :
    Buffer.storeCount ⟨sz, coneCenterEntries height cb (cb + 1) ++ rest⟩ s
      = Buffer.storeCount ⟨sz, rest⟩ s + 1 := by
  have hs : s = cb * 8 ∨ s = cb * 8 + 1 ∨ s = cb * 8 + 2 ∨ s = cb * 8 + 3 ∨ s = cb * 8 + 4
      ∨ s = cb * 8 + 5 ∨ s = cb * 8 + 6 ∨ s = cb * 8 + 7
      ∨ s = (cb + 1) * 8 ∨ s = (cb + 1) * 8 + 1 ∨ s = (cb + 1) * 8 + 2
      ∨ s = (cb + 1) * 8 + 3 ∨ s = (cb + 1) * 8 + 4 ∨ s = (cb + 1) * 8 + 5
      ∨ s = (cb + 1) * 8 + 6 ∨ s = (cb + 1) * 8 + 7 := by omega
  rcases hs with h | h | h | h | h | h | h | h | h | h | h | h | h | h | h | h <;> subst h <;>
    simp (disch := omega) only [coneCenterEntries, List.cons_append, List.nil_append,
      Buffer.storeCount_cons_ne, Buffer.storeCount_cons_eq]

/-- In the finished vertex array every float slot of the allocation has been stored exactly
once, and no slot outside it has been stored. -/
theorem coneVertexBuffer_count (baseRadius topRadius height : α) (N : Nat) (s : Int) :
    (coneVertexBuffer cos sin pi baseRadius topRadius height N).storeCount s
      = if 0 ≤ s ∧ s < (((N : Int) + 1) * 2 + 2) * 8 then 1 else 0 := by
  have e : ((N : Int) + 1) * 2 + 2 - 1 = ((N : Int) + 1) * 2 + 2 - 2 + 1 := by ring
  simp only [coneVertexBuffer, e]
  by_cases hc : (((N : Int) + 1) * 2 + 2 - 2) * 8 ≤ s
      ∧ s < (((N : Int) + 1) * 2 + 2 - 2) * 8 + 16
  · rw [coneCenterEntries_count_hit height _ s _ _ hc,
      coneVertexLog_count cos sin pi baseRadius topRadius height N (N + 1) s _ (le_refl _),
      if_neg (by push_cast; omega), if_pos (by omega)]
  · rw [coneCenterEntries_count_skip height _ s _ _ (by omega),
      coneVertexLog_count cos sin pi baseRadius topRadius height N (N + 1) s _ (le_refl _)]
    by_cases hr : 0 ≤ s ∧ s < (((N : Int) + 1) * 2 + 2) * 8
    · rw [if_pos hr, if_pos (by push_cast; omega)]
    · rw [if_neg hr, if_neg (by push_cast; omega)]

end ConeStoreCount

section ConeStoreClaims

variable {α : Type} [Field α]

/-- Over exact integers, for every `N`: the vertex stores of the truncated-cone generator go
to the vertices `i` (bottom ring), `i + N + 1` (top ring), `i <= N`, and to the two centres
`numVertices - 2`, `numVertices - 1`, which together are exactly the vertices
`0 .. 2(N+1)+1`: every float slot of the allocation of `8 * numVertices` floats is stored
exactly once, no slot outside it is stored, and no store is out of bounds. -/
theorem cone_vertices_written_once (cos sin : α → α) (pi baseRadius topRadius height : α)
    (N : Nat) :
    ∃ m, createConeMesh cos sin pi baseRadius topRadius height N = .ok m
      ∧ m.numVertices = 2 * ((N : Int) + 1) + 2
      ∧ m.vertices.size = m.numVertices * 8
      ∧ (∀ s : Int, 0 ≤ s ∧ s < m.numVertices * 8 → m.vertices.storeCount s = 1)
      ∧ (∀ s : Int, s < 0 ∨ m.numVertices * 8 ≤ s → m.vertices.storeCount s = 0)
      ∧ (∀ w ∈ m.vertices.writes, 0 ≤ w.1 ∧ w.1 < m.vertices.size)
      ∧ (∀ w ∈ m.vertices.writes,
          (0 ≤ w.1 / 8 ∧ w.1 / 8 ≤ (N : Int))
          ∨ ((N : Int) + 1 ≤ w.1 / 8 ∧ w.1 / 8 ≤ (N : Int) + (N : Int) + 1)
          ∨ w.1 / 8 = m.numVertices - 2 ∨ w.1 / 8 = m.numVertices - 1)
      ∧ (∀ v : Int, 0 ≤ v ∧ v < m.numVertices →
          (0 ≤ v ∧ v ≤ (N : Int)) ∨ ((N : Int) + 1 ≤ v ∧ v ≤ (N : Int) + (N : Int) + 1)
          ∨ v = m.numVertices - 2 ∨ v = m.numVertices - 1) := by
  have hcount := coneVertexBuffer_count cos sin pi baseRadius topRadius height N
  have hin : ∀ w ∈ (coneVertexBuffer cos sin pi baseRadius topRadius height N).writes,
      0 ≤ w.1 ∧ w.1 < (((N : Int) + 1) * 2 + 2) * 8 := by
    intro w hw
    have hpos := Buffer.storeCount_pos_of_mem
      (coneVertexBuffer cos sin pi baseRadius topRadius height N).size _ w hw
    have hc := hcount w.1
    by_contra hcon
    rw [if_neg hcon] at hc
    have : (coneVertexBuffer cos sin pi baseRadius topRadius height N).storeCount w.1
        = Buffer.storeCount ⟨(coneVertexBuffer cos sin pi baseRadius topRadius height N).size,
            (coneVertexBuffer cos sin pi baseRadius topRadius height N).writes⟩ w.1 := rfl
    omega
  refine ⟨_, createConeMesh_eq cos sin pi baseRadius topRadius height N, ?_, rfl, ?_, ?_, ?_,
    ?_, ?_⟩
  · show ((N : Int) + 1) * 2 + 2 = 2 * ((N : Int) + 1) + 2
    omega
  · intro s hs
    show (coneVertexBuffer cos sin pi baseRadius topRadius height N).storeCount s = 1
    simp only [coneMeshOf] at hs
    rw [hcount, if_pos hs]
  · intro s hs
    show (coneVertexBuffer cos sin pi baseRadius topRadius height N).storeCount s = 0
    rw [hcount, if_neg]
    simp only [coneMeshOf] at hs
    omega
  · exact hin
  · intro w hw
    have := hin w hw
    simp only [coneMeshOf]
    omega
  · intro v hv
    simp only [coneMeshOf] at hv ⊢
    omega

end ConeStoreClaims

/-! ## The application: scroll, first mouse event and the bird's-eye view -/

section AppClaims

variable {α ρ μ : Type} [LinearOrderedField α]

/-- C12 (as amended): a scroll event does not adjust the zoom: `scroll_callback` leaves the
first-person camera, its zoom included, and every other global except `cameraSpeed` as they
were, so the zoom fed to the projection matrix is the same before and after the event. -/
theorem scroll_keeps_zoom (cam : CameraMethods α ρ μ) (st : AppState α ρ)
    (xoffset yoffset : α) :
    ScrollKeepsCameras st (scroll_callback st xoffset yoffset)
      ∧ (renderView cam (scroll_callback st xoffset yoffset)).2.zoom
          = (renderView cam st).2.zoom
      ∧ (renderView cam st).2.zoom = st.camera.Zoom := by
  have h : ScrollKeepsCameras st (scroll_callback st xoffset yoffset) := by
    simp only [scroll_callback, ScrollKeepsCameras]
    split_ifs <;> exact ⟨rfl, rfl, rfl, rfl, rfl, rfl, rfl, rfl, rfl, rfl, rfl⟩
  have hz : ∀ t : AppState α ρ, (renderView cam t).2.zoom = t.camera.Zoom := by
    intro t
    simp only [renderView]
    split_ifs <;> rfl
  exact ⟨h, by rw [hz, hz, h.2.1], hz st⟩

/-- C12 (as stated) fails: from the start state with a zoom of 45, the scroll events with
`deltaY = 1` and `deltaY = -1` both leave the zoom at 45, while an adjustment by `deltaY`
clamped to `[1, 45]` would give 44 for one of them. -/
theorem scroll_does_not_adjust_zoom :
    (scroll_callback (startState sampleCamera sampleCamera) 0 1).camera.Zoom = 45
      ∧ (scroll_callback (startState sampleCamera sampleCamera) 0 (-1)).camera.Zoom = 45
      ∧ (renderView sampleMethods
          (scroll_callback (startState sampleCamera sampleCamera) 0 (-1))).2.zoom = 45
      ∧ max 1 (min 45 ((45 : ℚ) + (-1))) = 44
      ∧ max 1 (min 45 ((45 : ℚ) - 1)) = 44 := by
  have h1 := (scroll_keeps_zoom sampleMethods (startState sampleCamera sampleCamera) 0 1).1.2.1
  have h2 := scroll_keeps_zoom sampleMethods (startState sampleCamera sampleCamera) 0 (-1)
  refine ⟨h1, h2.1.2.1, ?_, by norm_num, by norm_num⟩
  rw [h2.2.1, h2.2.2]
  rfl

/-- C13: on the first mouse event (`firstMouse = true`), for every cursor position,
`mouse_callback` seeds `lastX`/`lastY` with that position before it computes the deltas, so
the camera receives the offsets `(0, 0)` whatever `lastX`/`lastY` were, and `firstMouse` is
`false` afterwards. -/
theorem first_mouse_event_seeded (cam : CameraMethods α ρ μ) (st : AppState α ρ)
    (xpos ypos : α) (h : st.firstMouse = true) : FirstMouseSeeded cam st xpos ypos := by
  simp [FirstMouseSeeded, mouse_callback, h]

/-- Witness of C13: the start state (`lastX = 400`, `lastY = 300`) and the cursor position
`(123, 45)`; the sample `ProcessMouseMovement` leaves the front vector as it was. -/
theorem first_mouse_event_seeded_witness :
    (startState sampleCamera sampleCamera).firstMouse = true
      ∧ FirstMouseSeeded sampleMethods (startState sampleCamera sampleCamera) 123 45
      ∧ (mouse_callback sampleMethods (startState sampleCamera sampleCamera) 123 45).camera.Front
          = ⟨0, 0, -1⟩ := by
  have h := first_mouse_event_seeded sampleMethods (startState sampleCamera sampleCamera)
    123 45 rfl
  refine ⟨rfl, h, ?_⟩
  rw [h.1]
  simp [sampleMethods, startState, sampleCamera]

/-- C14: in every frame in which bird's-eye view is active at render time, whatever the
state before the frame and whatever the keys of its input step, the view matrix handed to
the shader is computed after `birdEyeCamera.Position`, `Front` and `Up` have been set to
`(0, 10, 0)`, `(0, -1, 0)` and `(0, 0, -1)`, and the first-person camera is not modified by
this override. -/
theorem birdseye_view_pinned (cam : CameraMethods α ρ μ) (currentFrame : α) (keys : KeyState)
    (st : AppState α ρ)
    (h : (processInput cam keys (timeStep currentFrame st)).birdEyeView = true) :
    BirdsEyePinned cam currentFrame keys st := by
  simp [BirdsEyePinned, frame, renderView, h]

/-- Witness of C14: from the start state, a frame with `W` and `P` down: `W` moves the
first-person camera, `P` switches to bird's-eye view, and the view handed over is the one of
the fixed pose. -/
theorem birdseye_view_pinned_witness :
    (processInput sampleMethods keysWP
        (timeStep 1 (startState sampleCamera sampleCamera))).birdEyeView = true
      ∧ BirdsEyePinned sampleMethods 1 keysWP (startState sampleCamera sampleCamera)
      ∧ (frame sampleMethods 1 keysWP (startState sampleCamera sampleCamera)).2.view
          = (⟨0, 10, 0⟩, ⟨0, -1, 0⟩, ⟨0, 0, -1⟩) :=
  ⟨by decide!,
    birdseye_view_pinned sampleMethods 1 keysWP (startState sampleCamera sampleCamera)
      (by decide!),
    by decide!⟩

end AppClaims

/-! ## The application: camera speed, the bird's-eye toggle and the keyboard amounts -/

theorem applyCalls_nil {α ρ μ : Type} (cam : CameraMethods α ρ μ) (c : Camera α ρ) :
    applyCalls cam [] c = c := rfl

theorem applyCalls_append {α ρ μ : Type} (cam : CameraMethods α ρ μ) (xs ys : List (Camera_Movement × α))
    (c : Camera α ρ) :
    applyCalls cam (xs ++ ys) c = applyCalls cam ys (applyCalls cam xs c) := by
  simp [applyCalls, List.foldl_append]

/-- One guarded call `if (key) (birdEyeView ? birdEyeCamera : camera).ProcessKeyboard(..)`,
as an update of the two cameras. -/
theorem guarded_call_eq {α ρ μ : Type} [LinearOrderedField α] (cam : CameraMethods α ρ μ) (key : Bool) (direction : Camera_Movement)
    (amount : α) (st : AppState α ρ) :
    (if key = true then processKeyboardSelected cam direction amount st else st)
      = { st with
          camera := applyCalls cam
            (if st.birdEyeView then [] else if key then [(direction, amount)] else [])
            st.camera
          birdEyeCamera := applyCalls cam
            (if st.birdEyeView then (if key then [(direction, amount)] else []) else [])
            st.birdEyeCamera } := by
  obtain ⟨c, lx, ly, fm, sp, bc, bv, bk, dt, lf, wc⟩ := st
  cases key <;> cases bv <;> simp [processKeyboardSelected, applyCalls]

/-- Negating once more changes the parity of the number of negations. -/
theorem flip_parity (n : Nat) (v' v : Bool) :
    (if n % 2 = 1 then !v' else v')
      = if ((if v' = v then 0 else 1) + n) % 2 = 1 then !v else v := by
  have hn : n % 2 = 0 ∨ n % 2 = 1 := Nat.mod_two_eq_zero_or_one n
  have h1 : (1 + n) % 2 = 1 ↔ n % 2 = 0 := by omega
  rcases hn with hn | hn <;> cases v' <;> cases v <;> simp [hn, h1]

/-- The calls that `qeCalls` lists: one per key that is down, with the amount `deltaTime`. -/
theorem mem_qeCalls {α : Type} (keys : KeyState) (deltaTime : α)
    (call : Camera_Movement × α) :
    call ∈ qeCalls keys deltaTime
      ↔ (keys.q = true ∧ call = (Camera_Movement.UP, deltaTime))
        ∨ (keys.e = true ∧ call = (Camera_Movement.DOWN, deltaTime)) := by
  obtain ⟨esc, w, s, a, d, p, q, e⟩ := keys
  cases q <;> cases e <;> simp [qeCalls]

section InputClaims

variable {α ρ μ : Type} [LinearOrderedField α]

/-- The value of `cameraSpeed` after one scroll event, as a function of its value before and
of `yoffset`. -/
theorem scroll_callback_speed (st : AppState α ρ) (xoffset yoffset : α) :
    (scroll_callback st xoffset yoffset).cameraSpeed
      = if 1 ≤ st.cameraSpeed ∧ st.cameraSpeed ≤ 10 then
          (if st.cameraSpeed + yoffset * 0.1 < 1 then 1
            else if st.cameraSpeed + yoffset * 0.1 > 10 then 10
            else st.cameraSpeed + yoffset * 0.1)
        else (if st.cameraSpeed < 1 then 1 else if st.cameraSpeed > 10 then 10
          else st.cameraSpeed) := by
  obtain ⟨c, lx, ly, fm, sp, bc, bv, bk, dt, lf, wc⟩ := st
  simp only [scroll_callback]
  split_ifs <;> first | rfl | (exfalso; simp only [gt_iff_lt, not_lt] at *; linarith)

/-- One scroll event leaves `cameraSpeed` in `[1, 10]`. -/
theorem scroll_callback_speed_range (st : AppState α ρ) (xoffset yoffset : α) :
    1 ≤ (scroll_callback st xoffset yoffset).cameraSpeed
      ∧ (scroll_callback st xoffset yoffset).cameraSpeed ≤ 10 := by
  rw [scroll_callback_speed]
  split_ifs <;> constructor <;> simp only [gt_iff_lt, not_lt, not_and] at * <;>
    first | assumption | linarith

/-- From a value in `[1, 10]`, one scroll event takes `cameraSpeed` to
`clamp(prior + 0.1 * yoffset, 1, 10)`. -/
theorem scroll_callback_speed_clamp (st : AppState α ρ) (xoffset yoffset : α)
    (h : 1 ≤ st.cameraSpeed ∧ st.cameraSpeed ≤ 10) :
    (scroll_callback st xoffset yoffset).cameraSpeed
      = max 1 (min 10 (st.cameraSpeed + 0.1 * yoffset)) := by
  rw [scroll_callback_speed, if_pos h, mul_comm yoffset]
  split_ifs with h1 h2
  · rw [max_eq_left]
    exact le_trans (min_le_right _ _) h1.le
  · rw [min_eq_left h2.le, max_eq_right]
    norm_num
  · rw [min_eq_right (not_lt.mp h2), max_eq_right (not_lt.mp h1)]

/-- Scroll events keep `cameraSpeed` in `[1, 10]` once it is there. -/
theorem scrollEvents_speed_range (events : List (α × α)) (st : AppState α ρ)
    (h : 1 ≤ st.cameraSpeed ∧ st.cameraSpeed ≤ 10) :
    1 ≤ (scrollEvents events st).cameraSpeed ∧ (scrollEvents events st).cameraSpeed ≤ 10 := by
  induction events generalizing st with
  | nil => exact h
  | cons ev evs ih =>
    exact ih (scroll_callback st ev.1 ev.2) (scroll_callback_speed_range st ev.1 ev.2)

/-- C21: for every prior value of `cameraSpeed` and every scroll offset, `cameraSpeed` after
`scroll_callback` lies in `[1, 10]`; when the prior value is in `[1, 10]` the new value is
exactly `clamp(prior + 0.1 * yoffset, 1, 10)`; and, starting from the initial `1.5`,
`cameraSpeed` is in `[1, 10]` after any sequence of scroll events. -/
theorem camera_speed_clamped (st : AppState α ρ) (xoffset yoffset : α)
    (camera birdEyeCamera : Camera α ρ) (events : List (α × α)) :
    (1 ≤ (scroll_callback st xoffset yoffset).cameraSpeed
        ∧ (scroll_callback st xoffset yoffset).cameraSpeed ≤ 10)
      ∧ (1 ≤ st.cameraSpeed ∧ st.cameraSpeed ≤ 10 →
          (scroll_callback st xoffset yoffset).cameraSpeed
            = max 1 (min 10 (st.cameraSpeed + 0.1 * yoffset)))
      ∧ (startState camera birdEyeCamera).cameraSpeed = 1.5
      ∧ (1 ≤ (scrollEvents events (startState camera birdEyeCamera)).cameraSpeed
        ∧ (scrollEvents events (startState camera birdEyeCamera)).cameraSpeed ≤ 10) := by
  refine ⟨scroll_callback_speed_range st xoffset yoffset,
    scroll_callback_speed_clamp st xoffset yoffset, rfl,
    scrollEvents_speed_range events _ ?_⟩
  show (1 : α) ≤ 1.5 ∧ (1.5 : α) ≤ 10
  constructor <;> norm_num

/-- What `processInput` does to the two bird's-eye flags and to the two cameras, for every
key state: the flag `birdEyeKeyPressed` becomes the state of `P`; `birdEyeView` is negated
when `P` is down and `birdEyeKeyPressed` was `false`; the `W`, `S`, `A`, `D` calls reach the
camera that `birdEyeView` selected on entry, the `Q`, `E` calls the camera it selects after
the toggle; the times and `cameraSpeed` are not touched. -/
theorem processInput_effect (cam : CameraMethods α ρ μ) (keys : KeyState) (st : AppState α ρ) :
    (processInput cam keys st).birdEyeKeyPressed = keys.p
      ∧ (processInput cam keys st).birdEyeView
          = (if keys.p = true ∧ st.birdEyeKeyPressed = false then !st.birdEyeView
              else st.birdEyeView)
      ∧ (processInput cam keys st).camera
          = applyCalls cam
              (if (processInput cam keys st).birdEyeView then []
                else qeCalls keys st.deltaTime)
              (applyCalls cam
                (if st.birdEyeView then [] else wasdCalls keys st.deltaTime st.cameraSpeed)
                st.camera)
      ∧ (processInput cam keys st).birdEyeCamera
          = applyCalls cam
              (if (processInput cam keys st).birdEyeView then qeCalls keys st.deltaTime
                else [])
              (applyCalls cam
                (if st.birdEyeView then wasdCalls keys st.deltaTime st.cameraSpeed else [])
                st.birdEyeCamera)
      ∧ (processInput cam keys st).deltaTime = st.deltaTime
      ∧ (processInput cam keys st).cameraSpeed = st.cameraSpeed
      ∧ (processInput cam keys st).lastFrame = st.lastFrame := by
  obtain ⟨c, lx, ly, fm, sp, bc, bv, bk, dt, lf, wc⟩ := st
  obtain ⟨esc, w, s, a, d, p, q, e⟩ := keys
  simp only [processInput, guarded_call_eq]
  cases bv <;> cases bk <;> cases p <;> cases esc <;>
    simp [applyCalls_nil, applyCalls_append, wasdCalls, qeCalls]

/-- The two bird's-eye flags after one pass of the render loop. -/
theorem frame_flags (cam : CameraMethods α ρ μ) (currentFrame : α) (keys : KeyState)
    (st : AppState α ρ) :
    (frame cam currentFrame keys st).1.birdEyeKeyPressed = keys.p
      ∧ (frame cam currentFrame keys st).1.birdEyeView
          = (if keys.p = true ∧ st.birdEyeKeyPressed = false then !st.birdEyeView
              else st.birdEyeView) := by
  obtain ⟨h1, h2, -⟩ := processInput_effect cam keys (timeStep currentFrame st)
  have e1 : (timeStep currentFrame st).birdEyeKeyPressed = st.birdEyeKeyPressed := rfl
  have e2 : (timeStep currentFrame st).birdEyeView = st.birdEyeView := rfl
  rw [e1, e2] at h2
  have hr : ∀ t : AppState α ρ, (renderView cam t).1.birdEyeKeyPressed = t.birdEyeKeyPressed
      ∧ (renderView cam t).1.birdEyeView = t.birdEyeView := by
    intro t
    simp only [renderView]
    split_ifs <;> exact ⟨rfl, rfl⟩
  simp only [frame]
  rw [(hr _).1, (hr _).2]
  exact ⟨h1, h2⟩

/-- In one pass `birdEyeView` changes exactly when `P` is down and `birdEyeKeyPressed` was
`false`. -/
theorem frame_flips_iff (cam : CameraMethods α ρ μ) (currentFrame : α) (keys : KeyState)
    (st : AppState α ρ) :
    (frame cam currentFrame keys st).1.birdEyeView ≠ st.birdEyeView
      ↔ (keys.p = true ∧ st.birdEyeKeyPressed = false) := by
  rw [(frame_flags cam currentFrame keys st).2]
  by_cases h : keys.p = true ∧ st.birdEyeKeyPressed = false
  · rw [if_pos h]
    simp [h]
  · rw [if_neg h]
    simp [h]

/-- The passes of a sequence in which `birdEyeView` changes are the rising edges of `P`. -/
theorem viewFlips_eq_risingEdges (cam : CameraMethods α ρ μ) (frames : List (α × KeyState))
    (st : AppState α ρ) :
    viewFlips cam frames st
      = risingEdges st.birdEyeKeyPressed (frames.map (fun f => f.2.p)) := by
  induction frames generalizing st with
  | nil => rfl
  | cons f fs ih =>
    simp only [viewFlips, List.map_cons, risingEdges, ih, (frame_flags cam f.1 f.2 st).1]
    congr 1
    by_cases h : f.2.p = true ∧ st.birdEyeKeyPressed = false
    · rw [if_pos h, if_neg ((frame_flips_iff cam f.1 f.2 st).mpr h)]
    · rw [if_neg h, if_pos (not_not.mp (fun hne => h ((frame_flips_iff cam f.1 f.2 st).mp hne)))]

/-- After a sequence of passes `birdEyeView` is negated when the number of passes that
changed it is odd. -/
theorem runFrames_view (cam : CameraMethods α ρ μ) (frames : List (α × KeyState))
    (st : AppState α ρ) :
    (runFrames cam frames st).birdEyeView
      = (if viewFlips cam frames st % 2 = 1 then !st.birdEyeView else st.birdEyeView) := by
  induction frames generalizing st with
  | nil => simp [runFrames, viewFlips]
  | cons f fs ih =>
    have ih' := ih (frame cam f.1 f.2 st).1
    simp only [runFrames, List.foldl_cons] at ih' ⊢
    rw [ih']
    simp only [viewFlips]
    exact flip_parity _ _ _

/-- A run of `P` held down has no rising edge after the frame that starts it. -/
theorem risingEdges_held (ps : List Bool) (h : ∀ p ∈ ps, p = true) :
    risingEdges true ps = 0 := by
  induction ps with
  | nil => rfl
  | cons p ps ih =>
    have hp : p = true := h p (List.mem_cons_self _ _)
    subst hp
    simp only [risingEdges]
    rw [ih (fun q hq => h q (List.mem_cons_of_mem _ hq))]
    simp

/-- The flag `birdEyeKeyPressed` after a non-empty run of passes with `P` held down. -/
theorem runFrames_held_pressed (cam : CameraMethods α ρ μ) (frames : List (α × KeyState))
    (st : AppState α ρ) (hne : frames ≠ []) (h : ∀ f ∈ frames, f.2.p = true) :
    (runFrames cam frames st).birdEyeKeyPressed = true := by
  induction frames generalizing st with
  | nil => exact absurd rfl hne
  | cons f fs ih =>
    by_cases hfs : fs = []
    · subst hfs
      simp only [runFrames, List.foldl_cons, List.foldl_nil]
      rw [(frame_flags cam f.1 f.2 st).1]
      exact h f (List.mem_cons_self _ _)
    · exact ih (frame cam f.1 f.2 st).1 hfs (fun g hg => h g (List.mem_cons_of_mem _ hg))

/-- C22: the bird's-eye toggle of `processInput` is edge-triggered. After every pass of the
render loop `birdEyeKeyPressed` equals that pass's `P` state; `birdEyeView` changes in a pass
if and only if `P` is down in it and `birdEyeKeyPressed` was `false`, that is, `P` was up in
the pass before; from the start state (`birdEyeView = false`, `birdEyeKeyPressed = false`) the
passes that change the view are the rising edges of `P`, and the view is `true` exactly when
their number is odd; and a non-empty run of passes with `P` held, entered with
`birdEyeKeyPressed = false`, changes the view exactly once. -/
theorem birdseye_toggle_edge_triggered (cam : CameraMethods α ρ μ) (currentFrame : α)
    (keys : KeyState) (st : AppState α ρ) (camera birdEyeCamera : Camera α ρ)
    (frames : List (α × KeyState)) :
    (frame cam currentFrame keys st).1.birdEyeKeyPressed = keys.p
      ∧ ((frame cam currentFrame keys st).1.birdEyeView ≠ st.birdEyeView
          ↔ (keys.p = true ∧ st.birdEyeKeyPressed = false))
      ∧ (startState camera birdEyeCamera).birdEyeView = false
      ∧ (startState camera birdEyeCamera).birdEyeKeyPressed = false
      ∧ viewFlips cam frames (startState camera birdEyeCamera)
          = risingEdges false (frames.map (fun f => f.2.p))
      ∧ (runFrames cam frames (startState camera birdEyeCamera)).birdEyeView
          = decide (risingEdges false (frames.map (fun f => f.2.p)) % 2 = 1)
      ∧ (st.birdEyeKeyPressed = false → frames ≠ [] → (∀ f ∈ frames, f.2.p = true) →
          viewFlips cam frames st = 1
            ∧ (runFrames cam frames st).birdEyeView = (!st.birdEyeView)
            ∧ (runFrames cam frames st).birdEyeKeyPressed = true) := by
  refine ⟨(frame_flags cam currentFrame keys st).1, frame_flips_iff cam currentFrame keys st,
    rfl, rfl, viewFlips_eq_risingEdges cam frames _, ?_, ?_⟩
  · rw [runFrames_view, viewFlips_eq_risingEdges]
    show (if risingEdges false _ % 2 = 1 then !false else false) = _
    by_cases h : risingEdges false (frames.map (fun f => f.2.p)) % 2 = 1
    · rw [if_pos h]; simp [h]
    · rw [if_neg h]; simp [h]
  · intro hk hne hall
    have hflips : viewFlips cam frames st = 1 := by
      rw [viewFlips_eq_risingEdges, hk]
      cases frames with
      | nil => exact absurd rfl hne
      | cons f fs =>
        have hf : f.2.p = true := hall f (List.mem_cons_self _ _)
        simp only [List.map_cons, risingEdges, hf]
        rw [risingEdges_held]
        · simp
        · intro p hp
          obtain ⟨g, hg, rfl⟩ := List.mem_map.mp hp
          exact hall g (List.mem_cons_of_mem _ hg)
    refine ⟨hflips, ?_, runFrames_held_pressed cam frames st hne hall⟩
    rw [runFrames_view, hflips]
    rfl

/-- The calls that `wasdCalls` lists: one per key that is down, with the amount
`deltaTime * cameraSpeed`. -/
theorem mem_wasdCalls (keys : KeyState) (deltaTime cameraSpeed : α)
    (call : Camera_Movement × α) :
    call ∈ wasdCalls keys deltaTime cameraSpeed
      ↔ (keys.w = true ∧ call = (Camera_Movement.FORWARD, deltaTime * cameraSpeed))
        ∨ (keys.s = true ∧ call = (Camera_Movement.BACKWARD, deltaTime * cameraSpeed))
        ∨ (keys.a = true ∧ call = (Camera_Movement.LEFT, deltaTime * cameraSpeed))
        ∨ (keys.d = true ∧ call = (Camera_Movement.RIGHT, deltaTime * cameraSpeed)) := by
  obtain ⟨esc, w, s, a, d, p, q, e⟩ := keys
  cases w <;> cases s <;> cases a <;> cases d <;> simp [wasdCalls]

/-- Witness of C22: from the start state, three consecutive passes with `P` held change the
view exactly once and leave bird's-eye view on. -/
theorem birdseye_toggle_edge_triggered_witness :
    (startState sampleCamera sampleCamera).birdEyeKeyPressed = false
      ∧ viewFlips sampleMethods [(1, keysWP), (2, keysWP), (3, keysWP)]
          (startState sampleCamera sampleCamera) = 1
      ∧ (runFrames sampleMethods [(1, keysWP), (2, keysWP), (3, keysWP)]
          (startState sampleCamera sampleCamera)).birdEyeView = true := by
  have h := (birdseye_toggle_edge_triggered sampleMethods 0 keysWP
    (startState sampleCamera sampleCamera) sampleCamera sampleCamera
    [(1, keysWP), (2, keysWP), (3, keysWP)]).2.2.2.2.2.2 rfl (by simp) (by simp [keysWP])
  exact ⟨rfl, h.1, h.2.1⟩

/-- C23: in `processInput`, for every key state, `deltaTime` and `cameraSpeed`, the calls
for `W`, `S`, `A`, `D` carry the amount `deltaTime * cameraSpeed` and reach the camera that
`birdEyeView` selects before the `P` toggle of the pass, the calls for `Q`, `E` carry the
amount `deltaTime`, whatever `cameraSpeed` is, and reach the camera selected after the
toggle. -/
theorem keyboard_amounts (cam : CameraMethods α ρ μ) (keys : KeyState) (st : AppState α ρ)
    (call : Camera_Movement × α) (speed : α) :
    (processInput cam keys st).birdEyeView
        = (if keys.p = true ∧ st.birdEyeKeyPressed = false then !st.birdEyeView
            else st.birdEyeView)
      ∧ (processInput cam keys st).camera
          = applyCalls cam
              (if (processInput cam keys st).birdEyeView then []
                else qeCalls keys st.deltaTime)
              (applyCalls cam
                (if st.birdEyeView then [] else wasdCalls keys st.deltaTime st.cameraSpeed)
                st.camera)
      ∧ (processInput cam keys st).birdEyeCamera
          = applyCalls cam
              (if (processInput cam keys st).birdEyeView then qeCalls keys st.deltaTime
                else [])
              (applyCalls cam
                (if st.birdEyeView then wasdCalls keys st.deltaTime st.cameraSpeed else [])
                st.birdEyeCamera)
      ∧ (call ∈ wasdCalls keys st.deltaTime st.cameraSpeed
          ↔ (keys.w = true ∧ call = (Camera_Movement.FORWARD, st.deltaTime * st.cameraSpeed))
            ∨ (keys.s = true
              ∧ call = (Camera_Movement.BACKWARD, st.deltaTime * st.cameraSpeed))
            ∨ (keys.a = true ∧ call = (Camera_Movement.LEFT, st.deltaTime * st.cameraSpeed))
            ∨ (keys.d = true ∧ call = (Camera_Movement.RIGHT, st.deltaTime * st.cameraSpeed)))
      ∧ (call ∈ qeCalls keys st.deltaTime
          ↔ (keys.q = true ∧ call = (Camera_Movement.UP, st.deltaTime))
            ∨ (keys.e = true ∧ call = (Camera_Movement.DOWN, st.deltaTime)))
      ∧ (keys.w = false ∧ keys.s = false ∧ keys.a = false ∧ keys.d = false →
          (processInput cam keys { st with cameraSpeed := speed }).camera
              = (processInput cam keys st).camera
            ∧ (processInput cam keys { st with cameraSpeed := speed }).birdEyeCamera
              = (processInput cam keys st).birdEyeCamera) := by
  obtain ⟨-, h2, h3, h4, -⟩ := processInput_effect cam keys st
  refine ⟨h2, h3, h4, mem_wasdCalls keys _ _ call, mem_qeCalls keys _ call, ?_⟩
  rintro ⟨hw, hs, ha, hd⟩
  obtain ⟨-, g2, g3, g4, -⟩ := processInput_effect cam keys { st with cameraSpeed := speed }
  have e : ∀ cs : α, wasdCalls keys st.deltaTime cs = [] := by
    intro cs
    simp [wasdCalls, hw, hs, ha, hd]
  dsimp only at g2 g3 g4
  rw [e] at g3 g4 h3 h4
  rw [g2] at g3 g4
  rw [h2] at h3 h4
  exact ⟨g3.trans h3.symm, g4.trans h4.symm⟩

end InputClaims

/-! ## The generators in `int` run to completion within the range of `int` -/

/-- The law `ok a >>= f = f a`, stated with a proof term (unlike `ok_bind`, which is `rfl`):
rewriting with it records each step, so that no step is left to evaluation, which the range
literals of `int32` make expensive. -/
theorem bind_ok {σ τ : Type} (a : σ) (f : σ → Except String τ) :
    (Except.ok a >>= f) = f a := by
  simp only [bind, Except.bind]

theorem int32_ok (v : Int) (h0 : -2147483648 ≤ v) (h1 : v ≤ 2147483647) :
    int32 v = .ok v := by
  simp [int32, INT_MIN, INT_MAX, h0, h1]

theorem int32_overflow (v : Int) (h : 2147483647 < v) : int32 v = .error "int overflow" := by
  have : ¬ v ≤ 2147483647 := by omega
  simp [int32, INT_MAX, this]

theorem slot32_ok (v k : Int) (h0 : 0 ≤ v) (hk : 0 ≤ k) (h1 : v * 8 + k ≤ 2147483647) :
    slot32 v k = .ok (v * 8 + k) := by
  simp (disch := omega) only [slot32, int32_ok, bind_ok]

theorem forLoop32_succ {σ : Type} (n : Nat) (body : Int → σ → Except String σ) (s : σ) :
    forLoop32 (n + 1) body s
      = (forLoop32 n body s >>= fun s => body (n : Int) s >>= fun s =>
          int32 ((n : Int) + 1) >>= fun _ => pure s) := rfl

theorem IndexCursor.push32_ok (sz : Int) (ws : List (Int × Int)) (idx v : Int)
    (h0 : 0 ≤ idx) (h1 : idx < sz) (h2 : sz ≤ 2147483647) :
    IndexCursor.push32 ⟨⟨sz, ws⟩, idx⟩ v = .ok ⟨⟨sz, (idx, v) :: ws⟩, idx + 1⟩ := by
  simp (disch := omega) only [IndexCursor.push32, Buffer.store_ok, int32_ok, bind_ok]
  rfl

section ConeLogs32

variable {α : Type} [Field α] (cos sin : α → α) (pi : α)

theorem coneVertexBody32_ok (baseRadius topRadius height : α) (N : Int) (i : Int)
    (sz : Int) (ws : List (Int × α)) (hi : 0 ≤ i) (hN : 0 ≤ N)
    (hsz : (i + N + 2) * 8 ≤ sz) (hmax : sz ≤ 2147483647) :
    coneVertexBody32 cos sin pi baseRadius topRadius height N i ⟨sz, ws⟩
      = .ok ⟨sz, coneVertexEntries cos sin pi baseRadius topRadius height N i ++ ws⟩ := by
  simp (disch := omega) only [coneVertexBody32, slot32_ok, int32_ok, Buffer.store_ok, bind_ok]
  rfl

theorem coneCenters32_ok (height : α) (cb ct : Int) (sz : Int) (ws : List (Int × α))
    (hb : 0 ≤ cb) (ht : 0 ≤ ct) (hbs : (cb + 1) * 8 ≤ sz) (hts : (ct + 1) * 8 ≤ sz)
    (hmax : sz ≤ 2147483647) :
    coneCenters32 height cb ct ⟨sz, ws⟩ = .ok ⟨sz, coneCenterEntries height cb ct ++ ws⟩ := by
  simp (disch := omega) only [coneCenters32, slot32_ok, int32_ok, Buffer.store_ok, bind_ok]
  rfl

theorem coneIndexBody32_ok (N cb ct : Int) (i : Int) (sz : Int) (ws : List (Int × Int))
    (hi : 0 ≤ i) (hN : 0 ≤ N) (hsz : 12 * i + 12 ≤ sz) (hmax : sz ≤ 2147483647)
    (hv : i + N + 2 ≤ 2147483647) :
    coneIndexBody32 N cb ct i ⟨⟨sz, ws⟩, 12 * i⟩
      = .ok ⟨⟨sz, coneIndexEntries N cb ct i ++ ws⟩, 12 * (i + 1)⟩ := by
  simp (disch := omega) only [coneIndexBody32, IndexCursor.push32_ok, int32_ok, bind_ok,
    add_assoc]
  simp [coneIndexEntries, add_assoc]
  omega

theorem coneVertexLoop32_ok (baseRadius topRadius height : α) (N : Nat) (sz : Int) (n : Nat)
    (hn : n ≤ N + 1) (hsz : (2 * (N : Int) + 2) * 8 ≤ sz) (hmax : sz ≤ 2147483647) :
    forLoop32 n (coneVertexBody32 cos sin pi baseRadius topRadius height (N : Int)) ⟨sz, []⟩
      = .ok ⟨sz, coneVertexLog cos sin pi baseRadius topRadius height (N : Int) n⟩ := by
  induction n with
  | zero => rfl
  | succ k ih =>
    rw [forLoop32_succ, ih (by omega), bind_ok,
      coneVertexBody32_ok cos sin pi baseRadius topRadius height (N : Int) (k : Int) sz _
        (by omega) (by omega) (by omega) hmax, bind_ok, int32_ok _ (by omega) (by omega),
      bind_ok]
    rfl

theorem coneIndexLoop32_ok (N : Nat) (cb ct : Int) (sz : Int) (n : Nat) (hn : n ≤ N)
    (hsz : 12 * (N : Int) ≤ sz) (hmax : sz ≤ 2147483647) (hN : 2 * (N : Int) + 2 ≤ 2147483647) :
    forLoop32 n (coneIndexBody32 (N : Int) cb ct) ⟨⟨sz, []⟩, 0⟩
      = .ok ⟨⟨sz, coneIndexLog (N : Int) cb ct n⟩, 12 * (n : Int)⟩ := by
  induction n with
  | zero => rfl
  | succ k ih =>
    rw [forLoop32_succ, ih (by omega), bind_ok,
      coneIndexBody32_ok (N : Int) cb ct (k : Int) sz _ (by omega) (by omega) (by omega) hmax
        (by omega), bind_ok, int32_ok _ (by omega) (by omega), bind_ok]
    simp [coneIndexLog, pure, Except.pure]

/-- Within the range of `int`, that is for `numVertices * 8 = (2(N+1)+2) * 8 <= INT_MAX`, the
cone generator in `int` runs to completion, and what it builds is given by the closed-form
store logs: it is the result of the generator over exact integers. -/
theorem createConeMesh32_eq (baseRadius topRadius height : α) (N : Nat) (hN : N ≤ 134217725) :
    createConeMesh32 cos sin pi baseRadius topRadius height N
      = .ok (coneMeshOf cos sin pi baseRadius topRadius height N) := by
  have h1 : int32 (N : Int) = .ok (N : Int) := int32_ok _ (by omega) (by omega)
  have h2 : int32 ((N : Int) + 1) = .ok ((N : Int) + 1) := int32_ok _ (by omega) (by omega)
  have h3 : int32 (((N : Int) + 1) * 2) = .ok (((N : Int) + 1) * 2) :=
    int32_ok _ (by omega) (by omega)
  have h4 : int32 (((N : Int) + 1) * 2 + 2) = .ok (((N : Int) + 1) * 2 + 2) :=
    int32_ok _ (by omega) (by omega)
  have h5 : int32 ((N : Int) * 6) = .ok ((N : Int) * 6) := int32_ok _ (by omega) (by omega)
  have h6 : int32 ((N : Int) * 3) = .ok ((N : Int) * 3) := int32_ok _ (by omega) (by omega)
  have h7 : int32 ((N : Int) * 3 * 2) = .ok ((N : Int) * 3 * 2) :=
    int32_ok _ (by omega) (by omega)
  have h8 : int32 ((N : Int) * 6 + (N : Int) * 3 * 2) = .ok ((N : Int) * 6 + (N : Int) * 3 * 2) :=
    int32_ok _ (by omega) (by omega)
  have h9 : int32 ((((N : Int) + 1) * 2 + 2) * 8) = .ok ((((N : Int) + 1) * 2 + 2) * 8) :=
    int32_ok _ (by omega) (by omega)
  have h10 : int32 (((N : Int) + 1) * 2 + 2 - 2) = .ok (((N : Int) + 1) * 2 + 2 - 2) :=
    int32_ok _ (by omega) (by omega)
  have h11 : int32 (((N : Int) + 1) * 2 + 2 - 1) = .ok (((N : Int) + 1) * 2 + 2 - 1) :=
    int32_ok _ (by omega) (by omega)
  unfold createConeMesh32
  simp only [h1, h2, h3, h4, h5, h6, h7, h8, h9, bind_ok, Buffer.alloc]
  rw [coneVertexLoop32_ok cos sin pi baseRadius topRadius height N _ (N + 1) (le_refl _)
      (by omega) (by omega), bind_ok, h10, bind_ok, h11, bind_ok,
    coneCenters32_ok height _ _ _ _ (by omega) (by omega) (by omega) (by omega) (by omega),
    bind_ok, coneIndexLoop32_ok N _ _ _ N (le_refl _) (by omega) (by omega) (by omega), bind_ok]
  rfl

theorem int32_bind {τ : Type} (v : Int) (f : Int → Except String τ) :
    (int32 v >>= f)
      = if -2147483648 ≤ v ∧ v ≤ 2147483647 then f v else .error "int overflow" := by
  unfold int32 INT_MIN INT_MAX
  split_ifs <;> simp only [bind, Except.bind]

/-- Beyond the range of `int`, that is for `numVertices * 8 = (2(N+1)+2) * 8 > INT_MAX`, the
cone generator in `int` ends with an overflow before it stores anything. -/
theorem createConeMesh32_overflow (baseRadius topRadius height : α) (N : Nat)
    (hN : 134217726 ≤ N) :
    createConeMesh32 cos sin pi baseRadius topRadius height N = .error "int overflow" := by
  unfold createConeMesh32
  iterate 9
    rw [int32_bind]
    split_ifs
    swap
    · rfl
  exfalso
  omega

end ConeLogs32

section TorusLogs32

variable {α : Type} [Field α] (cos sin sqrt : α → α) (pi : α)

theorem torusInnerBody32_ok (torusRadius tubeRadius : α) (M T : Int)
    (tubeAngleStep torusAngle : α) (i j : Int) (szv szi vi ii : Int)
    (wv : List (Int × α)) (wi : List (Int × Int))
    (hi0 : 0 ≤ i) (hi1 : i < M) (hj0 : 0 ≤ j) (hj1 : j < T)
    (hv0 : 0 ≤ vi) (hv1 : vi + 8 ≤ szv) (hvm : szv ≤ 2147483647)
    (hx0 : 0 ≤ ii) (hx1 : ii + 6 ≤ szi) (hxm : szi ≤ 2147483647)
    (hM : M ≤ 2147483647) (hT : T ≤ 2147483647) (hMT : M * T ≤ 2147483647) :
    torusInnerBody32 cos sin sqrt torusRadius tubeRadius M T tubeAngleStep torusAngle i j
        ⟨⟨szv, wv⟩, ⟨szi, wi⟩, vi, ii⟩
      = .ok ⟨⟨szv, torusVertexEntries cos sin sqrt torusRadius tubeRadius M T tubeAngleStep
                torusAngle i j vi ++ wv⟩,
             ⟨szi, torusIndexEntries M T i j ii ++ wi⟩, vi + 8, ii + 6⟩ := by
  have hnt0 : 0 ≤ Int.tmod (j + 1) T := Int.tmod_nonneg _ (by omega)
  have hnt1 : Int.tmod (j + 1) T < T := Int.tmod_lt_of_pos _ (by omega)
  have hnr0 : 0 ≤ Int.tmod (i + 1) M := Int.tmod_nonneg _ (by omega)
  have hnr1 : Int.tmod (i + 1) M < M := Int.tmod_lt_of_pos _ (by omega)
  have hrow0 : 0 ≤ i * T := mul_nonneg hi0 (by omega)
  have hrow1 : i * T + T ≤ M * T := by
    have h := mul_le_mul_of_nonneg_right (show i + 1 ≤ M by omega) (show (0 : Int) ≤ T by omega)
    have e : (i + 1) * T = i * T + T := by ring
    omega
  have hnext0 : 0 ≤ Int.tmod (i + 1) M * T := mul_nonneg hnr0 (by omega)
  have hnext1 : Int.tmod (i + 1) M * T + T ≤ M * T := by
    have h := mul_le_mul_of_nonneg_right (show Int.tmod (i + 1) M + 1 ≤ M by omega)
      (show (0 : Int) ≤ T by omega)
    have e : (Int.tmod (i + 1) M + 1) * T = Int.tmod (i + 1) M * T + T := by ring
    omega
  simp (disch := omega) only [torusInnerBody32, Buffer.store_ok, IndexCursor.push32_ok,
    int32_ok, bind_ok, cmod_ok]
  simp [torusVertexEntries, torusIndexEntries, pure, Except.pure, add_assoc]

theorem torusInnerLoop32_ok (torusRadius tubeRadius : α) (M T : Int)
    (tubeAngleStep torusAngle : α) (i : Int) (szv szi : Int)
    (wv : List (Int × α)) (wi : List (Int × Int)) (n : Nat) (hn : (n : Int) ≤ T)
    (hi0 : 0 ≤ i) (hi1 : i < M) (hb : 0 ≤ i * T) (hv : 8 * (i * T + T) ≤ szv)
    (hx : 6 * (i * T + T) ≤ szi) (hvm : szv ≤ 2147483647) (hxm : szi ≤ 2147483647)
    (hM : M ≤ 2147483647) (hT : T ≤ 2147483647) (hMT : M * T ≤ 2147483647) :
    forLoop32 n (torusInnerBody32 cos sin sqrt torusRadius tubeRadius M T tubeAngleStep
        torusAngle i) ⟨⟨szv, wv⟩, ⟨szi, wi⟩, 8 * (i * T), 6 * (i * T)⟩
      = .ok ⟨⟨szv, torusRowVertexLog cos sin sqrt torusRadius tubeRadius M T tubeAngleStep
                torusAngle i n ++ wv⟩,
             ⟨szi, torusRowIndexLog M T i n ++ wi⟩,
             8 * (i * T + (n : Int)), 6 * (i * T + (n : Int))⟩ := by
  induction n with
  | zero => simp [forLoop32, torusRowVertexLog, torusRowIndexLog]
  | succ k ih =>
    rw [forLoop32_succ, ih (by omega), bind_ok,
      torusInnerBody32_ok cos sin sqrt torusRadius tubeRadius M T tubeAngleStep torusAngle i
        (k : Int) szv szi _ _ _ _ hi0 hi1 (by omega) (by omega) (by omega) (by omega) hvm
        (by omega) (by omega) hxm hM hT hMT, bind_ok, int32_ok _ (by omega) (by omega), bind_ok]
    simp only [torusRowVertexLog, torusRowIndexLog, List.append_assoc, pure, Except.pure]
    congr 2 <;> push_cast <;> ring

theorem torusOuterLoop32_ok (torusRadius tubeRadius : α) (M T : Nat) (szv szi : Int)
    (m : Nat) (hm : m ≤ M) (hv : 8 * ((M : Int) * (T : Int)) ≤ szv)
    (hx : 6 * ((M : Int) * (T : Int)) ≤ szi) (hvm : szv ≤ 2147483647)
    (hxm : szi ≤ 2147483647) (hM : (M : Int) ≤ 2147483647) (hT : (T : Int) ≤ 2147483647) :
    forLoop32 m (torusOuterBody32 cos sin sqrt torusRadius tubeRadius M T
        (2 * pi / ((M : Int) : α)) (2 * pi / ((T : Int) : α))) ⟨⟨szv, []⟩, ⟨szi, []⟩, 0, 0⟩
      = .ok ⟨⟨szv, torusVertexLog cos sin sqrt pi torusRadius tubeRadius M T m⟩,
             ⟨szi, torusIndexLog M T m⟩,
             8 * ((m : Int) * (T : Int)), 6 * ((m : Int) * (T : Int))⟩ := by
  induction m with
  | zero => simp [forLoop32, torusVertexLog, torusIndexLog]
  | succ k ih =>
    have hk : ((k : Int) + 1) * (T : Int) ≤ (M : Int) * (T : Int) :=
      mul_le_mul_of_nonneg_right (by omega) (by omega)
    have hk0 : 0 ≤ (k : Int) * (T : Int) := mul_nonneg (by omega) (by omega)
    have hk1 : ((k : Int) + 1) * (T : Int) = (k : Int) * (T : Int) + (T : Int) := by ring
    rw [forLoop32_succ, ih (by omega), bind_ok]
    unfold torusOuterBody32
    rw [torusInnerLoop32_ok cos sin sqrt torusRadius tubeRadius (M : Int) (T : Int) _ _ (k : Int)
      szv szi _ _ T (le_refl _) (by omega) (by omega) hk0 (by omega) (by omega) hvm hxm hM hT
      (by omega), bind_ok, int32_ok _ (by omega) (by omega), bind_ok]
    simp only [torusVertexLog, torusIndexLog, pure, Except.pure]
    congr 2 <;> push_cast <;> ring

/-- Within the range of `int`, that is for `numVertices * 8 = M * T * 8 <= INT_MAX`, the torus
generator in `int` runs to completion, and what it builds is given by the closed-form store
logs: it is the result of the generator over exact integers. -/
theorem createTorusMesh32_eq (torusRadius tubeRadius : α) (M T : Nat)
    (hM : M ≤ 2147483647) (hT : T ≤ 2147483647) (hMT : M * T ≤ 268435455) :
    createTorusMesh32 cos sin sqrt pi torusRadius tubeRadius M T
      = .ok (torusMeshOf cos sin sqrt pi torusRadius tubeRadius M T) := by
  have h : (M : Int) * (T : Int) ≤ 268435455 := by exact_mod_cast hMT
  have h0 : 0 ≤ (M : Int) * (T : Int) := mul_nonneg (by omega) (by omega)
  unfold createTorusMesh32
  simp (disch := omega) only [int32_ok, bind_ok, Buffer.alloc]
  rw [torusOuterLoop32_ok cos sin sqrt pi torusRadius tubeRadius M T _ _ M (le_refl _)
    (by omega) (by omega) (by omega) (by omega) (by omega) (by omega), bind_ok]
  rfl

/-- Beyond the range of `int`, that is for `numVertices * 8 = M * T * 8 > INT_MAX`, the torus
generator in `int` ends with an overflow before it stores anything. -/
theorem createTorusMesh32_overflow (torusRadius tubeRadius : α) (M T : Nat)
    (hMT : 268435455 < M * T) :
    createTorusMesh32 cos sin sqrt pi torusRadius tubeRadius M T = .error "int overflow" := by
  have h : (268435455 : Int) < (M : Int) * (T : Int) := by exact_mod_cast hMT
  unfold createTorusMesh32
  iterate 5
    rw [int32_bind]
    split_ifs
    swap
    · rfl
  exfalso
  omega

end TorusLogs32

/-! ## The generators in `int`: counts, index range, index pattern and vertex stores -/

section Claims32

variable {α : Type} [Field α]

/-- Within the range of `int` the cone generator in `int` gives what the generator over
exact integers gives. -/
theorem createConeMesh32_exact (cos sin : α → α) (pi baseRadius topRadius height : α) (N : Nat)
    (hN : N ≤ 134217725) :
    createConeMesh32 cos sin pi baseRadius topRadius height N
      = createConeMesh cos sin pi baseRadius topRadius height N :=
  (createConeMesh32_eq cos sin pi baseRadius topRadius height N hN).trans
    (createConeMesh_eq cos sin pi baseRadius topRadius height N).symm

/-- Within the range of `int` the torus generator in `int` gives what the generator over
exact integers gives. -/
theorem createTorusMesh32_exact (cos sin sqrt : α → α) (pi torusRadius tubeRadius : α)
    (M T : Nat) (hM : M ≤ 2147483647) (hT : T ≤ 2147483647) (hMT : M * T ≤ 268435455) :
    createTorusMesh32 cos sin sqrt pi torusRadius tubeRadius M T
      = createTorusMesh cos sin sqrt pi torusRadius tubeRadius M T :=
  (createTorusMesh32_eq cos sin sqrt pi torusRadius tubeRadius M T hM hT hMT).trans
    (createTorusMesh_eq cos sin sqrt pi torusRadius tubeRadius M T).symm

/-- A factor of a product of positive numbers is at most the product. -/
theorem factors_le_of_mul_le (M T i j b : Nat) (hi : i < M) (hj : j < T) (h : M * T ≤ b) :
    M ≤ b ∧ T ≤ b := by
  have h1 : M * 1 ≤ M * T := Nat.mul_le_mul_left M (by omega)
  have h2 : 1 * T ≤ M * T := Nat.mul_le_mul_right T (by omega)
  omega

/-- C1 (as amended): for every segment count `N` with `numVertices * 8 <= INT_MAX`, that is
`N <= 134217725`, the truncated-cone generator, run with the 32-bit `int` of the source,
declares `2(N+1)+2` vertices, makes exactly `6N + 6N = 12N` index stores, into the positions
`0 .. 12N-1` in this order, and ends with the write position at `numIndices = N*6 + N*3*2`,
the value left in `mesh.nIndices`. -/
theorem cone_counts_within_int (cos sin : α → α) (pi baseRadius topRadius height : α)
    (N : Nat) (hN : N ≤ 134217725) :
    ConeCounts32 cos sin pi baseRadius topRadius height N := by
  unfold ConeCounts32
  rw [createConeMesh32_exact cos sin pi baseRadius topRadius height N hN]
  exact cone_vertex_and_index_counts cos sin pi baseRadius topRadius height N

/-- Witness of C1: the cup (`N = 50`) and the largest segment count within the range of `int`,
over the reals. -/
theorem cone_counts_within_int_witness :
    50 ≤ 134217725 ∧ ConeCounts32 Real.cos Real.sin Real.pi 0.4 0.5 1.0 50
      ∧ ConeCounts32 Real.cos Real.sin Real.pi 0.4 0.5 1.0 134217725 :=
  ⟨by norm_num, cone_counts_within_int Real.cos Real.sin Real.pi 0.4 0.5 1.0 50 (by norm_num),
    cone_counts_within_int Real.cos Real.sin Real.pi 0.4 0.5 1.0 134217725 (le_refl _)⟩

/-- C1 (as stated) fails: with the cup's radii and `N = 134217726` the allocation size
`numVertices * 8 = ((N + 1) * 2 + 2) * 8` is `2147483648 = INT_MAX + 1`, the generator run in
`int` ends with an overflow, and no vertex count is declared and no index stored. -/
theorem cone_counts_overflow_at_134217726 :
    createConeMesh32 Real.cos Real.sin Real.pi 0.4 0.5 1.0 134217726 = .error "int overflow"
      ∧ (((134217726 : Int) + 1) * 2 + 2) * 8 = INT_MAX + 1
      ∧ ¬ ConeCounts32 Real.cos Real.sin Real.pi 0.4 0.5 1.0 134217726 := by
  have h := createConeMesh32_overflow Real.cos Real.sin Real.pi 0.4 0.5 1.0 134217726
    (le_refl _)
  refine ⟨h, by decide, ?_⟩
  rintro ⟨m, hm, -⟩
  rw [h] at hm
  cases hm

/-- C2 (as amended): for every segment count `N` with `numVertices * 8 <= INT_MAX`, that is
`N <= 134217725`, every index the truncated-cone generator, run with the 32-bit `int` of the
source, emits (side wall, bottom fan and top fan, the two centre indices `numVertices - 2`
and `numVertices - 1` among them) is `>= 0` and strictly below the vertex count
`2(N+1)+2`. -/
theorem cone_indices_within_int (cos sin : α → α) (pi baseRadius topRadius height : α)
    (N : Nat) (hN : N ≤ 134217725) :
    ConeIndicesInRange32 cos sin pi baseRadius topRadius height N := by
  unfold ConeIndicesInRange32
  rw [createConeMesh32_exact cos sin pi baseRadius topRadius height N hN]
  exact cone_indices_below_vertex_count cos sin pi baseRadius topRadius height N

/-- Witness of C2: the pen (`N = 50`) over the reals. -/
theorem cone_indices_within_int_witness :
    50 ≤ 134217725 ∧ ConeIndicesInRange32 Real.cos Real.sin Real.pi 0.05 0.05 1.0 50 :=
  ⟨by norm_num,
    cone_indices_within_int Real.cos Real.sin Real.pi 0.05 0.05 1.0 50 (by norm_num)⟩

/-- C2 (as stated) fails: with the pen's radii and `N = 178956971` the index count
`numIndices = N*6 + N*3*2` is `2147483652 > INT_MAX`, the generator run in `int` ends with an
overflow, and it emits no index at all. -/
theorem cone_indices_overflow_at_178956971 :
    createConeMesh32 Real.cos Real.sin Real.pi 0.05 0.05 1.0 178956971
        = .error "int overflow"
      ∧ INT_MAX < (178956971 : Int) * 6 + (178956971 : Int) * 3 * 2
      ∧ ¬ ConeIndicesInRange32 Real.cos Real.sin Real.pi 0.05 0.05 1.0 178956971 := by
  have h := createConeMesh32_overflow Real.cos Real.sin Real.pi 0.05 0.05 1.0 178956971
    (by norm_num)
  refine ⟨h, by decide, ?_⟩
  rintro ⟨m, hm, -⟩
  rw [h] at hm
  cases hm

/-- C20 (as amended): for every `N` with `numVertices * 8 <= INT_MAX`, that is
`N <= 134217725`, the vertex stores of the truncated-cone generator, run with the 32-bit `int`
of the source, go to the vertices `i` (bottom ring), `i + N + 1` (top ring), `i <= N`, and to
the two centres `numVertices - 2`, `numVertices - 1`, which together are exactly the vertices
`0 .. 2(N+1)+1`: every float slot of the allocation of `8 * numVertices` floats is stored
exactly once, no slot outside it is stored, and no store is out of bounds. -/
theorem cone_vertices_once_within_int (cos sin : α → α) (pi baseRadius topRadius height : α)
    (N : Nat) (hN : N ≤ 134217725) :
    ConeVerticesWrittenOnce32 cos sin pi baseRadius topRadius height N := by
  unfold ConeVerticesWrittenOnce32
  rw [createConeMesh32_exact cos sin pi baseRadius topRadius height N hN]
  exact cone_vertices_written_once cos sin pi baseRadius topRadius height N

/-- Witness of C20: the cup (`N = 50`) and `N = 0`, over the reals. -/
theorem cone_vertices_once_within_int_witness :
    50 ≤ 134217725 ∧ ConeVerticesWrittenOnce32 Real.cos Real.sin Real.pi 0.4 0.5 1.0 50
      ∧ ConeVerticesWrittenOnce32 Real.cos Real.sin Real.pi 0.4 0.5 1.0 0 :=
  ⟨by norm_num,
    cone_vertices_once_within_int Real.cos Real.sin Real.pi 0.4 0.5 1.0 50 (by norm_num),
    cone_vertices_once_within_int Real.cos Real.sin Real.pi 0.4 0.5 1.0 0 (by norm_num)⟩

/-- C20 (as stated) fails: with the cup's radii and `N = 1073741822` the vertex count
`numVertices = (N + 1) * 2 + 2` is `2147483648 = INT_MAX + 1`, the generator run in `int` ends
with an overflow, and it stores no vertex at all. -/
theorem cone_vertices_overflow_at_1073741822 :
    createConeMesh32 Real.cos Real.sin Real.pi 0.4 0.5 1.0 1073741822 = .error "int overflow"
      ∧ ((1073741822 : Int) + 1) * 2 + 2 = INT_MAX + 1
      ∧ ¬ ConeVerticesWrittenOnce32 Real.cos Real.sin Real.pi 0.4 0.5 1.0 1073741822 := by
  have h := createConeMesh32_overflow Real.cos Real.sin Real.pi 0.4 0.5 1.0 1073741822
    (by norm_num)
  refine ⟨h, by decide, ?_⟩
  rintro ⟨m, hm, -⟩
  rw [h] at hm
  cases hm

/-- C4 (as amended): for all segment counts `M` and `T` that are values of `int` with
`numVertices * 8 = M*T*8 <= INT_MAX`, that is `M*T <= 268435455`, the torus generator, run
with the 32-bit `int` of the source, stores exactly `M*T` vertices of eight floats and exactly
`6*M*T` index entries, which are the `numVertices` and `numIndices` it declared and
allocated; for `M = 50`, `T = 20` that is 1000 vertices and 6000 indices. -/
theorem torus_counts_within_int (cos sin sqrt : α → α) (pi torusRadius tubeRadius : α)
    (M T : Nat) (hM : M ≤ 2147483647) (hT : T ≤ 2147483647) (hMT : M * T ≤ 268435455) :
    TorusCounts32 cos sin sqrt pi torusRadius tubeRadius M T
      ∧ HandleCounts32 cos sin sqrt pi := by
  obtain ⟨hc, h, hh, hrest⟩ :=
    torus_vertex_and_index_counts cos sin sqrt pi torusRadius tubeRadius M T
  constructor
  · unfold TorusCounts32
    rw [createTorusMesh32_exact cos sin sqrt pi torusRadius tubeRadius M T hM hT hMT]
    exact hc
  · exact ⟨h, (createTorusMesh32_exact cos sin sqrt pi 0.4 0.05 50 20 (by norm_num)
      (by norm_num) (by norm_num)).trans hh, hh, hrest⟩

/-- Witness of C4: the handle's radii with `M = 50`, `T = 20`, with one segment count zero
(`M = 2147483647`, `T = 0`) and with the largest product within the range of `int`
(`M = 268435455`, `T = 1`), over the reals. -/
theorem torus_counts_within_int_witness :
    50 ≤ 2147483647 ∧ 20 ≤ 2147483647 ∧ 50 * 20 ≤ 268435455
      ∧ TorusCounts32 Real.cos Real.sin Real.sqrt Real.pi 0.4 0.05 50 20
      ∧ HandleCounts32 Real.cos Real.sin Real.sqrt Real.pi
      ∧ TorusCounts32 Real.cos Real.sin Real.sqrt Real.pi 0.4 0.05 2147483647 0
      ∧ TorusCounts32 Real.cos Real.sin Real.sqrt Real.pi 0.4 0.05 268435455 1 :=
  ⟨by norm_num, by norm_num, by norm_num,
    (torus_counts_within_int Real.cos Real.sin Real.sqrt Real.pi 0.4 0.05 50 20 (by norm_num)
      (by norm_num) (by norm_num)).1,
    (torus_counts_within_int Real.cos Real.sin Real.sqrt Real.pi 0.4 0.05 50 20 (by norm_num)
      (by norm_num) (by norm_num)).2,
    (torus_counts_within_int Real.cos Real.sin Real.sqrt Real.pi 0.4 0.05 2147483647 0
      (by norm_num) (by norm_num) (by norm_num)).1,
    (torus_counts_within_int Real.cos Real.sin Real.sqrt Real.pi 0.4 0.05 268435455 1
      (by norm_num) (by norm_num) (by norm_num)).1⟩

/-- C4 (as stated) fails: with the handle's radii and `M = T = 16384` the allocation size
`numVertices * 8 = M*T*8` is `2147483648 = INT_MAX + 1`, the generator run in `int` ends with
an overflow, and it stores no vertex and no index. -/
theorem torus_counts_overflow_at_16384 :
    createTorusMesh32 Real.cos Real.sin Real.sqrt Real.pi 0.4 0.05 16384 16384
        = .error "int overflow"
      ∧ (16384 : Int) * 16384 * 8 = INT_MAX + 1
      ∧ ¬ TorusCounts32 Real.cos Real.sin Real.sqrt Real.pi 0.4 0.05 16384 16384 := by
  have h := createTorusMesh32_overflow Real.cos Real.sin Real.sqrt Real.pi 0.4 0.05 16384 16384
    (by norm_num)
  refine ⟨h, by decide, ?_⟩
  rintro ⟨m, hm, -⟩
  rw [h] at hm
  cases hm

/-- C5 (as amended): for all `M >= 1` and `T >= 1` with `numVertices * 8 = M*T*8 <= INT_MAX`,
that is `M*T <= 268435455`, every index the torus generator, run with the 32-bit `int` of the
source, emits (`topLeft`, `topRight`, `bottomLeft`, `bottomRight` of every cell, the
wrap-around row `i = M-1` and column `j = T-1` included) is `>= 0` and strictly below the
vertex count `M*T`; at the wrap-around corner `(M-1, T-1)` the emitted `bottomRight`
is `0`. -/
theorem torus_indices_within_int (cos sin sqrt : α → α) (pi torusRadius tubeRadius : α)
    (M T : Nat) (hM : 1 ≤ M) (hT : 1 ≤ T) (hMT : M * T ≤ 268435455) :
    TorusIndicesInRange32 cos sin sqrt pi torusRadius tubeRadius M T := by
  obtain ⟨hM1, hT1⟩ := factors_le_of_mul_le M T 0 0 268435455 (by omega) (by omega) hMT
  obtain ⟨m, hm, hv, hr, hc⟩ :=
    torus_indices_below_vertex_count cos sin sqrt pi torusRadius tubeRadius M T
  exact ⟨m, (createTorusMesh32_exact cos sin sqrt pi torusRadius tubeRadius M T (by omega)
    (by omega) hMT).trans hm, hv, hr, hc hM hT⟩

/-- Witness of C5: the handle's parameters over the reals. -/
theorem torus_indices_within_int_witness :
    1 ≤ 50 ∧ 1 ≤ 20 ∧ 50 * 20 ≤ 268435455
      ∧ TorusIndicesInRange32 Real.cos Real.sin Real.sqrt Real.pi 0.4 0.05 50 20 :=
  ⟨by norm_num, by norm_num, by norm_num,
    torus_indices_within_int Real.cos Real.sin Real.sqrt Real.pi 0.4 0.05 50 20 (by norm_num)
      (by norm_num) (by norm_num)⟩

/-- C5 (as stated) fails: with the handle's radii, `M = 32768` and `T = 65536` the vertex
count `numVertices = M*T` is `2147483648 = INT_MAX + 1`, the generator run in `int` ends with
an overflow, and it emits no index at all. -/
theorem torus_indices_overflow_at_32768_65536 :
    createTorusMesh32 Real.cos Real.sin Real.sqrt Real.pi 0.4 0.05 32768 65536
        = .error "int overflow"
      ∧ (32768 : Int) * 65536 = INT_MAX + 1
      ∧ ¬ TorusIndicesInRange32 Real.cos Real.sin Real.sqrt Real.pi 0.4 0.05 32768 65536 := by
  have h := createTorusMesh32_overflow Real.cos Real.sin Real.sqrt Real.pi 0.4 0.05 32768 65536
    (by norm_num)
  refine ⟨h, by decide, ?_⟩
  rintro ⟨m, hm, -⟩
  rw [h] at hm
  cases hm

/-- C17 (as amended): for all `M`, `T` with `numVertices * 8 = M*T*8 <= INT_MAX`, that is
`M*T <= 268435455`, and every cell `(i, j)` with `i < M`, `j < T`, the torus generator, run
with the 32-bit `int` of the source, stores at the index positions `6(iT+j) .. 6(iT+j)+5`
the entries `[a, b, c, c, b, d]` with `a = iT+j`, `b = iT+((j+1) mod T)`,
`c = ((i+1) mod M)T+j`, `d = ((i+1) mod M)T+((j+1) mod T)`, and vertex slot `a` holds the
position and the texture coordinates computed for `(i, j)`. -/
theorem torus_quad_within_int (cos sin sqrt : α → α) (pi torusRadius tubeRadius : α)
    (M T i j : Nat) (hi : i < M) (hj : j < T) (hMT : M * T ≤ 268435455) :
    TorusQuadIndices32 cos sin sqrt pi torusRadius tubeRadius M T i j := by
  obtain ⟨hM1, hT1⟩ := factors_le_of_mul_le M T i j 268435455 hi hj hMT
  unfold TorusQuadIndices32
  rw [createTorusMesh32_exact cos sin sqrt pi torusRadius tubeRadius M T (by omega) (by omega)
    hMT]
  exact torus_quad_indices cos sin sqrt pi torusRadius tubeRadius M T i j hi hj

/-- Witness of C17: the handle's parameters over the reals, the wrap-around cell
`(49, 19)`. -/
theorem torus_quad_within_int_witness :
    49 < 50 ∧ 19 < 20 ∧ 50 * 20 ≤ 268435455
      ∧ TorusQuadIndices32 Real.cos Real.sin Real.sqrt Real.pi 0.4 0.05 50 20 49 19 :=
  ⟨by norm_num, by norm_num, by norm_num,
    torus_quad_within_int Real.cos Real.sin Real.sqrt Real.pi 0.4 0.05 50 20 49 19
      (by norm_num) (by norm_num) (by norm_num)⟩

/-- C17 (as stated) fails: with the handle's radii, `M = 20000`, `T = 20000` and the cell
`(0, 0)` the index count `numIndices = M*T*6` is `2400000000 > INT_MAX`, the generator run in
`int` ends with an overflow, and no index entry is stored for the cell. -/
theorem torus_quad_overflow_at_20000 :
    createTorusMesh32 Real.cos Real.sin Real.sqrt Real.pi 0.4 0.05 20000 20000
        = .error "int overflow"
      ∧ INT_MAX < (20000 : Int) * 20000 * 6
      ∧ ¬ TorusQuadIndices32 Real.cos Real.sin Real.sqrt Real.pi 0.4 0.05 20000 20000 0 0 := by
  have h := createTorusMesh32_overflow Real.cos Real.sin Real.sqrt Real.pi 0.4 0.05 20000 20000
    (by norm_num)
  refine ⟨h, by decide, ?_⟩
  rintro ⟨m, hm, -⟩
  rw [h] at hm
  cases hm

end Claims32

/-! ## The stored normal of a torus vertex in `float` -/

namespace FloatArith

theorem ofExact_zero (F : FloatArith) (hF : F.Binary32Like) : F.ofExact 0 = .finite 0 := by
  obtain ⟨hmax, h0, -, -, -⟩ := hF
  simp [ofExact, h0, hmax]

/-- A positive exact result between `lo` and `hi`, well inside the range, is delivered as a
finite value between `lo / 2` and `2 * hi`. -/
theorem ofExact_finite (F : FloatArith) (hF : F.Binary32Like) (q lo hi : ℚ)
    (h0 : 1 / 2 ^ 126 ≤ lo) (h1 : lo ≤ q) (h2 : q ≤ hi) (h3 : 2 * hi ≤ F.largest) :
    ∃ v, F.ofExact q = .finite v ∧ lo / 2 ≤ v ∧ v ≤ 2 * hi := by
  obtain ⟨-, -, herr, -, -⟩ := hF
  have hq : 0 < q := lt_of_lt_of_le (by positivity) (h0.trans h1)
  have he := herr q (by rw [abs_of_pos hq]; exact h0.trans h1)
  rw [abs_of_pos hq, abs_le] at he
  have hs : q / 2 ^ 24 ≤ q / 2 := by
    apply div_le_div_of_nonneg_left hq.le (by norm_num) (by norm_num)
  have hv0 : 0 ≤ F.round q := by linarith
  refine ⟨F.round q, ?_, by linarith, by linarith⟩
  have : ¬ F.largest < |F.round q| := by
    rw [abs_of_nonneg hv0]
    linarith
  simp [ofExact, this]

/-- A positive exact result of at least `lo`, with `lo / 2` beyond `FLT_MAX`, is delivered as
`+infinity`. -/
theorem ofExact_overflow (F : FloatArith) (hF : F.Binary32Like) (q lo : ℚ)
    (h0 : 1 / 2 ^ 126 ≤ lo) (h1 : lo ≤ q) (h2 : F.largest < lo / 2) :
    F.ofExact q = .infinite false := by
  obtain ⟨-, -, herr, -, -⟩ := hF
  have hq : 0 < q := lt_of_lt_of_le (by positivity) (h0.trans h1)
  have he := herr q (by rw [abs_of_pos hq]; exact h0.trans h1)
  rw [abs_of_pos hq, abs_le] at he
  have hs : q / 2 ^ 24 ≤ q / 2 := by
    apply div_le_div_of_nonneg_left hq.le (by norm_num) (by norm_num)
  have hv0 : 0 ≤ F.round q := by linarith
  have : F.largest < |F.round q| := by
    rw [abs_of_nonneg hv0]
    linarith
  have hn : ¬ q < 0 := not_lt.mpr hq.le
  simp [ofExact, this, hn]

theorem mul_finite (F : FloatArith) (a b : ℚ) :
    F.mul (.finite a) (.finite b) = F.ofExact (a * b) := rfl

theorem add_finite (F : FloatArith) (a b : ℚ) :
    F.add (.finite a) (.finite b) = F.ofExact (a + b) := rfl

theorem add_infinite_finite (F : FloatArith) (s : Bool) (b : ℚ) :
    F.add (.infinite s) (.finite b) = .infinite s := rfl

theorem div_finite (F : FloatArith) (a b : ℚ) (hb : b ≠ 0) :
    F.div (.finite a) (.finite b) = F.ofExact (a / b) := by
  simp [div, hb]

theorem div_infinite (F : FloatArith) (a : ℚ) (s : Bool) :
    F.div (.finite a) (.infinite s) = .finite 0 := rfl

theorem sqrt_infinite (F : FloatArith) : F.sqrt (.infinite false) = .infinite false := rfl

theorem cos_finite (F : FloatArith) (q : ℚ) : F.cos (.finite q) = .finite (F.cosf q) := rfl

theorem sin_finite (F : FloatArith) (q : ℚ) : F.sin (.finite q) = .finite (F.sinf q) := rfl

end FloatArith

theorem exactArith_binary32Like : exactArith.Binary32Like := by
  refine ⟨rfl, rfl, ?_, ?_, rfl⟩
  · intro q _
    simp only [exactArith, sub_self, abs_zero]
    positivity
  · simp [exactArith]

/-- The zero vector is not within `1e-5` of unit length. -/
theorem zero_not_unitWithin : ¬ UnitWithin ⟨.finite 0, .finite 0, .finite 0⟩ (1 / 100000) := by
  rintro ⟨a, b, c, l, h, hl, hsq, habs⟩
  injection h with h1 h2 h3
  injection h1 with h1
  injection h2 with h2
  injection h3 with h3
  subst h1 h2 h3
  have h0 : l = 0 := by
    have : l ^ 2 = 0 := by rw [hsq]; norm_num
    exact pow_eq_zero_iff (by norm_num) |>.mp this
  rw [h0] at habs
  norm_num at habs

/-- In every arithmetic with the range and the rounding error of binary32, the normal stored
for vertex `(0, 0)` of a torus with `R = 2^67`, `r = 2^-4` is the zero vector. -/
theorem floatNormalVanishes_of_binary32Like : FloatNormalVanishes := by
  intro F hF
  have hmax : F.largest = 340282346638528859811704183484516925440 := hF.1
  have hc : F.cosf 0 = 1 := hF.2.2.2.1
  have hs : F.sinf 0 = 0 := hF.2.2.2.2
  have hz := F.ofExact_zero hF
  -- the angle steps are finite
  obtain ⟨a, ha, ha0, ha1⟩ := F.ofExact_finite hF (2 * (13176795 / 4194304)) 6 7
    (by norm_num) (by norm_num) (by norm_num) (by rw [hmax]; norm_num)
  obtain ⟨b, hb, hb0, hb1⟩ := F.ofExact_finite hF ((20 : Int) : ℚ) 20 20
    (by norm_num) (by norm_num) (by norm_num) (by rw [hmax]; norm_num)
  obtain ⟨b', hb', hb0', hb1'⟩ := F.ofExact_finite hF ((50 : Int) : ℚ) 50 50
    (by norm_num) (by norm_num) (by norm_num) (by rw [hmax]; norm_num)
  have hbne : b ≠ 0 := by linarith
  have hbne' : b' ≠ 0 := by linarith
  obtain ⟨s, hs1, -, -⟩ := F.ofExact_finite hF (a / b) (3 / 40) (14 / 10)
    (by norm_num) (by rw [div_le_div_iff₀ (by norm_num) (by linarith)]; linarith)
    (by rw [div_le_div_iff₀ (by linarith) (by norm_num)]; linarith) (by rw [hmax]; norm_num)
  obtain ⟨s', hs1', -, -⟩ := F.ofExact_finite hF (a / b') (3 / 100) (14 / 25)
    (by norm_num) (by rw [div_le_div_iff₀ (by norm_num) (by linarith)]; linarith)
    (by rw [div_le_div_iff₀ (by linarith) (by norm_num)]; linarith) (by rw [hmax]; norm_num)
  -- the radii
  obtain ⟨r, hr, hr0, hr1⟩ := F.ofExact_finite hF (1 / 16 * 1) (1 / 16) (1 / 16)
    (by norm_num) (by norm_num) (by norm_num) (by rw [hmax]; norm_num)
  obtain ⟨u, hu, hu0, hu1⟩ := F.ofExact_finite hF (2 ^ 67 + r) (2 ^ 67) (2 ^ 67 + 1)
    (by norm_num) (by linarith) (by linarith) (by rw [hmax]; norm_num)
  obtain ⟨x, hx, hx0, hx1⟩ := F.ofExact_finite hF (u * 1) (2 ^ 66) (2 ^ 69)
    (by norm_num) (by linarith) (by linarith) (by rw [hmax]; norm_num)
  have hxx : F.ofExact (x * x) = .infinite false :=
    F.ofExact_overflow hF (x * x) (2 ^ 130) (by norm_num) (by nlinarith)
      (by rw [hmax]; norm_num)
  have hx00 : x * 0 = 0 := mul_zero x
  have hpos : (torusVertexFloat F (.finite (2 ^ 67)) (.finite (1 / 16)) 50 20 0 0).1
      = ⟨.finite x, .finite 0, .finite 0⟩ := by
    simp only [torusVertexFloat, piFloat, FloatArith.ofInt, FloatArith.mul_finite, ha, hb, hb',
      F.div_finite a b hbne, F.div_finite a b' hbne', hs1, hs1', Int.cast_zero, zero_mul, hz,
      FloatArith.cos_finite, FloatArith.sin_finite, hc, hs, hr, FloatArith.add_finite, hu, hx,
      mul_zero]
  have hnormal : F.normalize ⟨.finite x, .finite 0, .finite 0⟩
      = ⟨.finite 0, .finite 0, .finite 0⟩ := by
    simp only [FloatArith.normalize, FloatArith.dot, FloatArith.mul_finite, hxx, mul_zero, hz,
      FloatArith.add_infinite_finite, FloatArith.sqrt_infinite, FloatArith.div_infinite]
  have e : (torusVertexFloat F (.finite (2 ^ 67)) (.finite (1 / 16)) 50 20 0 0).2
      = ⟨.finite 0, .finite 0, .finite 0⟩ := by
    have e1 : (torusVertexFloat F (.finite (2 ^ 67)) (.finite (1 / 16)) 50 20 0 0).2
        = F.normalize (torusVertexFloat F (.finite (2 ^ 67)) (.finite (1 / 16)) 50 20 0 0).1 :=
      rfl
    rw [e1, hpos, hnormal]
  refine ⟨x, by linarith, hpos, hxx, e, ?_⟩
  rw [e]
  exact zero_not_unitWithin

end OpenGLSample
